import Mathlib

/-!
# MangoHud: battery aggregation (`src/battery.cpp`)

A shallow embedding of `BatteryStats` and of the part of the file system it
reads, followed by theorems about it.

Modelling conventions.

* `float` values are rationals (`ℚ`).  The definitions named after the
  functions of the program compute with them exactly, without rounding.  The
  definitions whose name ends in `32` are their counterparts in which every
  `float` operation is followed by the rounding `f32` to 24 significant binary
  digits; they are used where a statement depends on the rounding.  The one
  place where the program can produce a non-finite `float`, the final division
  of `getPercent`, is made explicit by `Flt.nonFinite`.
* A call has no result (`none`) when the C++ has none: `battPath[i]` with `i`
  past the end of the vector, or `std::stof` throwing on a line it cannot
  parse.
* The directory and the files do not change during one call; they are the
  `Sys` argument of every operation.
-/

namespace MangoHud

/-! ## Rounding to `float` -/

/-- Rounding to the nearest integer, a tie going to the even neighbour. -/
def roundEven (x : ℚ) : Int :=
  if x - ⌊x⌋ < 1 / 2 then ⌊x⌋
  else if 1 / 2 < x - ⌊x⌋ then ⌊x⌋ + 1
  else if ⌊x⌋ % 2 = 0 then ⌊x⌋ else ⌊x⌋ + 1

/-- The number of binary digits of `n`, for `n ≤ fuel`. -/
def bitLength : Nat → Nat → Nat
  | 0, _ => 0
  | fuel + 1, n => if n = 0 then 0 else bitLength fuel (n / 2) + 1

/-- The binary exponent of a positive number `q`: the `e` with
`2 ^ e ≤ q < 2 ^ (e + 1)`.  The difference of the digit counts of numerator
and denominator is `e` or `e + 1`. -/
def binade (q : ℚ) : Int :=
  if q < 2 ^ ((bitLength q.num.natAbs q.num.natAbs : Int) - bitLength q.den q.den) then
    (bitLength q.num.natAbs q.num.natAbs : Int) - bitLength q.den q.den - 1
  else (bitLength q.num.natAbs q.num.natAbs : Int) - bitLength q.den q.den

/-- The `float` (IEEE 754 binary32) nearest to `q`: `q` is rounded to 24
significant binary digits, a tie going to the even significand.  The exponent
is not bounded: numbers below `2 ^ (-126)` in magnitude (subnormal) and from
`2 ^ 128` on (infinite) do not occur in the statements about it. -/
def f32 (q : ℚ) : ℚ :=
  if q = 0 then 0
  else roundEven (q * 2 ^ (23 - binade |q|)) * 2 ^ (binade |q| - 23)

/-! ## The file system seen by the program -/

/-- First line of a file: its characters as `std::getline` returns them, and
the number `std::stof` yields for them (`none` when `std::stof` throws). -/
structure Line where
  text : String
  stof : Option ℚ
deriving DecidableEq

/-- What a path refers to. -/
inductive File where
  /-- Nothing there: `fs::exists` is false and `std::getline` fails. -/
  | missing
  /-- The file exists but `std::getline` fails on it (empty or unreadable). -/
  | noLine
  /-- The file exists and `std::getline` returns its first line. -/
  | line (l : Line)
deriving DecidableEq

/-- The model of `fs::exists(path)`. -/
def File.present : File → Bool
  | .missing => false
  | _ => true

/-- The model of `std::ifstream input(path); std::getline(input, line)`:
the line read, or `none` when the call evaluates to false. -/
def File.getline : File → Option Line
  | .line l => some l
  | _ => none

/-- The file system: the entries of `/sys/class/power_supply/` in the order in
which `fs::directory_iterator` yields them (`none` when the directory does not
exist), and the content found at each path. -/
structure Sys where
  root : Option (List String)
  file : String → File

/-- The directory scanned by `numBattery`. -/
def powerSupply : String := "/sys/class/power_supply/"

/-- Whether `pat` is an initial segment of `txt`. -/
def startsWith : List Char → List Char → Bool
  | [], _ => true
  | _ :: _, [] => false
  | p :: ps, c :: cs => p == c && startsWith ps cs

/-- The model of `txt.find(pat) != std::string::npos`. -/
def findSub (pat : List Char) : List Char → Bool
  | [] => startsWith pat []
  | c :: cs => startsWith pat (c :: cs) || findSub pat cs

/-- The test `fileName.find("BAT") != std::string::npos`. -/
def isBattery (fileName : String) : Bool :=
  findSub "BAT".toList fileName.toList

/-! ## The object -/

/-- A `float` returned by a division: a number, or not a finite number
(the quotient by zero). -/
inductive Flt where
  | fin (q : ℚ)
  | nonFinite
deriving DecidableEq

/-- The members of `BatteryStats` used by `battery.cpp`; `state0` and `state1`
are `state[0]` and `state[1]`. -/
structure BatteryStats where
  battPath : List String
  state0 : String
  state1 : String
  current_status : String
  current_watt : ℚ
  current_percent : Flt
deriving DecidableEq

/-- The global `Battery_Stats` at program start: an empty vector, empty
strings, zeroed numbers. -/
def fresh : BatteryStats :=
  { battPath := [], state0 := "", state1 := "", current_status := "",
    current_watt := 0, current_percent := .fin 0 }

/-- Reading `state[i]` for `i < 2`. -/
def BatteryStats.stateAt (s : BatteryStats) (i : Nat) : String :=
  if i = 0 then s.state0 else s.state1

/-- The two assignments `current_status = line; state[i] = current_status;`
for `i < 2`. -/
def BatteryStats.record (s : BatteryStats) (i : Nat) (line : String) : BatteryStats :=
  if i = 0 then { s with current_status := line, state0 := line }
  else { s with current_status := line, state1 := line }

/-! ## `numBattery` -/

/-- One round of the loop of `numBattery` over a directory entry. -/
def numBatteryStep (acc : Nat × BatteryStats) (fileName : String) : Nat × BatteryStats :=
  if isBattery fileName then
    (acc.1 + 1, { acc.2 with battPath := acc.2.battPath ++ [powerSupply ++ fileName] })
  else acc

/-- The model of `BatteryStats::numBattery`: the count returned and the object
afterwards. -/
def numBattery (sys : Sys) (s : BatteryStats) : Nat × BatteryStats :=
  match sys.root with
  | none => (0, s)
  | some entries => entries.foldl numBatteryStep (0, s)

/-! ## `getPercent` -/

/-- The statement `if (std::getline(input, line)) acc += stof(line) / d;`. -/
def addReading (f : File) (d : ℚ) (acc : ℚ) : Option ℚ :=
  match f.getline with
  | none => some acc
  | some l =>
    match l.stof with
    | none => none
    | some v => some (acc + v / d)

/-- The body of the loop of `getPercent` for the device at `syspath`, acting on
the pair `(charge_n, charge_f)`. -/
def percentBody (sys : Sys) (syspath : String) (acc : ℚ × ℚ) : Option (ℚ × ℚ) :=
  if (sys.file (syspath ++ "/charge_now")).present then do
    let n ← addReading (sys.file (syspath ++ "/charge_now")) 1000000 acc.1
    let f ← addReading (sys.file (syspath ++ "/charge_full")) 1000000 acc.2
    some (n, f)
  else if (sys.file (syspath ++ "/energy_now")).present then do
    let n ← addReading (sys.file (syspath ++ "/energy_now")) 1000000 acc.1
    let f ← addReading (sys.file (syspath ++ "/energy_full")) 1000000 acc.2
    some (n, f)
  else
    match (sys.file (syspath ++ "/capacity")).getline with
    | none => some acc
    | some l =>
      match l.stof with
      | none => none
      | some v => some (acc.1 + v / 100, 1)

/-- The loop `for (int i = 0; i < batt_count; i++)` of `getPercent`, entered
at index `i` with `todo = batt_count - i` rounds left. -/
def percentLoop (sys : Sys) (battPath : List String) (i : Nat) : Nat → ℚ × ℚ → Option (ℚ × ℚ)
  | 0, acc => some acc
  | todo + 1, acc => do
    let syspath ← battPath[i]?
    let acc1 ← percentBody sys syspath acc
    percentLoop sys battPath (i + 1) todo acc1

/-- The expression `(charge_n / charge_f) * 100`. -/
def percentOf (acc : ℚ × ℚ) : Flt :=
  if acc.2 = 0 then .nonFinite else .fin (acc.1 / acc.2 * 100)

/-- The model of `BatteryStats::getPercent`. -/
def getPercent (sys : Sys) (s : BatteryStats) : Option (Flt × BatteryStats) :=
  let r := numBattery sys s
  (percentLoop sys r.2.battPath 0 r.1 (0, 0)).map fun acc => (percentOf acc, r.2)

/-! ## `getPercent` with `float` rounding -/

/-- The statement `if (std::getline(input, line)) acc += stof(line) / d;` in
`float` arithmetic: the value of `std::stof`, the quotient and the sum are
rounded. -/
def addReading32 (f : File) (d : ℚ) (acc : ℚ) : Option ℚ :=
  match f.getline with
  | none => some acc
  | some l =>
    match l.stof with
    | none => none
    | some v => some (f32 (acc + f32 (f32 v / d)))

/-- The body of the loop of `getPercent` in `float` arithmetic. -/
def percentBody32 (sys : Sys) (syspath : String) (acc : ℚ × ℚ) : Option (ℚ × ℚ) :=
  if (sys.file (syspath ++ "/charge_now")).present then do
    let n ← addReading32 (sys.file (syspath ++ "/charge_now")) 1000000 acc.1
    let f ← addReading32 (sys.file (syspath ++ "/charge_full")) 1000000 acc.2
    some (n, f)
  else if (sys.file (syspath ++ "/energy_now")).present then do
    let n ← addReading32 (sys.file (syspath ++ "/energy_now")) 1000000 acc.1
    let f ← addReading32 (sys.file (syspath ++ "/energy_full")) 1000000 acc.2
    some (n, f)
  else
    match (sys.file (syspath ++ "/capacity")).getline with
    | none => some acc
    | some l =>
      match l.stof with
      | none => none
      | some v => some (f32 (acc.1 + f32 (f32 v / 100)), 1)

/-- The loop of `getPercent` in `float` arithmetic, entered at index `i` with
`todo = batt_count - i` rounds left. -/
def percentLoop32 (sys : Sys) (battPath : List String) (i : Nat) :
    Nat → ℚ × ℚ → Option (ℚ × ℚ)
  | 0, acc => some acc
  | todo + 1, acc => do
    let syspath ← battPath[i]?
    let acc1 ← percentBody32 sys syspath acc
    percentLoop32 sys battPath (i + 1) todo acc1

/-- The expression `(charge_n / charge_f) * 100` in `float` arithmetic: the
quotient is rounded, then the product. -/
def percentOf32 (acc : ℚ × ℚ) : Flt :=
  if acc.2 = 0 then .nonFinite else .fin (f32 (f32 (acc.1 / acc.2) * 100))

/-- The model of `BatteryStats::getPercent` in `float` arithmetic. -/
def getPercent32 (sys : Sys) (s : BatteryStats) : Option (Flt × BatteryStats) :=
  let r := numBattery sys s
  (percentLoop32 sys r.2.battPath 0 r.1 (0, 0)).map fun acc => (percentOf32 acc, r.2)

/-! ## `isCharging` and `fullCharge` -/

/-- One round of the first loop of `isCharging`: slot `i` is refreshed from its
status file when a line can be read, and left as it was otherwise. -/
def statusStep (sys : Sys) (i : Nat) (s : BatteryStats) : Option BatteryStats :=
  match s.battPath[i]? with
  | none => none
  | some syspath =>
    match (sys.file (syspath ++ "/status")).getline with
    | some l => some (s.record i l.text)
    | none => some s

/-- The model of `BatteryStats::isCharging`. -/
def isCharging (sys : Sys) (s : BatteryStats) : Option (Bool × BatteryStats) :=
  let r := numBattery sys s
  if r.1 > 0 then do
    let s1 ← statusStep sys 0 r.2
    let s2 ← statusStep sys 1 s1
    if s2.stateAt 0 = "Charging" then some (true, s2)
    else if s2.stateAt 1 = "Charging" then some (true, s2)
    else some (false, s2)
  else some (false, r.2)

/-- The model of `BatteryStats::fullCharge`: the slots equal to "Full" are
counted and the count is compared with 2. -/
def fullCharge (s : BatteryStats) : Bool :=
  let charged0 : Nat := if s.stateAt 0 = "Full" then 1 else 0
  let charged : Nat := if s.stateAt 1 = "Full" then charged0 + 1 else charged0
  if charged = 2 then true else false

/-! ## `getPower` and `update` -/

/-- The statements `float x = 0; if (std::getline(input, line)) x = stof(line) / 1000000;`. -/
def reading (f : File) : Option ℚ :=
  match f.getline with
  | none => some 0
  | some l =>
    match l.stof with
    | none => none
    | some v => some (v / 1000000)

/-- The model of `BatteryStats::getPower`. -/
def getPower (sys : Sys) (batt_num : Nat) (s : BatteryStats) : Option (ℚ × BatteryStats) :=
  match s.battPath[batt_num]? with
  | none => none
  | some syspath =>
    match isCharging sys s with
    | none => none
    | some (true, s1) => some (0, s1)
    | some (false, s1) =>
      if (sys.file (syspath ++ "/current_now")).present then do
        let current ← reading (sys.file (syspath ++ "/current_now"))
        let voltage ← reading (sys.file (syspath ++ "/voltage_now"))
        some (current * voltage, s1)
      else do
        let power ← reading (sys.file (syspath ++ "/power_now"))
        some (power, s1)

/-- The model of `BatteryStats::update`. -/
def update (sys : Sys) (s : BatteryStats) : Option BatteryStats :=
  let r1 := numBattery sys s
  if r1.1 > 0 then
    let r2 := numBattery sys r1.2
    if r2.1 = 1 then do
      let (w, s1) ← getPower sys 0 r2.2
      let (p, s2) ← getPercent sys { s1 with current_watt := w }
      some { s2 with current_percent := p }
    else
      let r3 := numBattery sys r2.2
      if r3.1 = 2 then do
        let (bat1_power, s1) ← getPower sys 0 r3.2
        let (bat2_power, s2) ← getPower sys 1 s1
        let (p, s3) ← getPercent sys { s2 with current_watt := bat1_power + bat2_power }
        some { s3 with current_percent := p }
      else some r3.2
  else some r1.2

/-!
# MangoHud: the composition registry (`src/hud_elements.cpp`)

Conventions for this part.

* A render function emits drawing calls; the model returns them as a list of
  `Draw` values.  Layout arguments of the drawing calls (sizes, spacings, font
  handles) are not recorded.
* `float` values are exact rationals, as in the battery part, except in
  `format_units`, where the conversion to `float` and the divisions are rounded
  (`f32`); `int(x)` on a `float` is truncation towards zero (`truncate`).
* Logging (`spdlog::error`) is not recorded.
-/

/-- The type `ImVec4` of a colour. -/
structure ImVec4 where
  x : ℚ
  y : ℚ
  z : ℚ
  w : ℚ
deriving DecidableEq

/-- The argument printed through the format string of a text call. -/
inductive Arg where
  | str (s : String)
  | int (i : Int)
  | num (q : ℚ)
  | flt (f : Flt)
deriving DecidableEq

/-- The drawing calls made by the render functions modelled here. -/
inductive Draw where
  | TableNextRow
  | TableNextColumn
  | SameLine
  | Dummy
  | PushFont
  | PopFont
  | PushStyleColor
  | PopStyleColor
  | Text (fmt : String) (arg : Option Arg)
  | TextColored (col : ImVec4) (fmt : String) (arg : Option Arg)
  | right_aligned_text (col : ImVec4) (width : ℚ) (fmt : String) (arg : Arg)
  | PlotLines (values : List ℚ) (scale_min scale_max : Int)
  | PlotHistogram (values : List ℚ) (scale_min scale_max : Int)
deriving DecidableEq

/-- The render functions a plan entry can point to (the first component of an
element of `ordered_functions`). -/
inductive Action where
  | version
  | time
  | gpu_stats
  | cpu_stats
  | core_load
  | io_stats
  | vram
  | ram
  | procmem
  | fps
  | engine_version
  | gpu_name
  | vulkan_driver
  | arch
  | wine
  | frame_timing
  | media_player
  | resolution
  | show_fps_limit
  | custom_text
  | custom_text_center
  | gamemode
  | vkbasalt
  | _exec
  | battery
  | graphs
deriving DecidableEq

/-- A row of `exec_list`: the position of the entry in the plan, the command,
and the output captured last. -/
structure exec_entry where
  pos : Int
  value : String
  ret : String
deriving DecidableEq

/-- The colours of `HUDElements.colors` read by the functions modelled here. -/
structure Colors where
  text : ImVec4
  engine : ImVec4
  battery : ImVec4
  gpu_load_low : ImVec4
  gpu_load_med : ImVec4
  gpu_load_high : ImVec4
  cpu_load_low : ImVec4
  cpu_load_med : ImVec4
  cpu_load_high : ImVec4
  fps_value_low : ImVec4
  fps_value_med : ImVec4
  fps_value_high : ImVec4
deriving DecidableEq

/-- The fields of `overlay_params` read or written by the functions modelled
here; `enabled_x` is `enabled[OVERLAY_PARAM_ENABLED_x]`, and `x_value0`,
`x_value1` are `x_value[0]`, `x_value[1]`. -/
structure overlay_params where
  enabled_battery : Bool
  enabled_battery_icon : Bool
  enabled_graphs : Bool
  enabled_ram : Bool
  enabled_histogram : Bool
  gpu_load_value0 : Int
  gpu_load_value1 : Int
  cpu_load_value0 : Int
  cpu_load_value1 : Int
  fps_value0 : Int
  fps_value1 : Int
deriving DecidableEq

/-- The members of `HudElements` used by the functions modelled here.  The six
scale members are declared `int` in `hud_elements.h`. -/
structure HudElements where
  ordered_functions : List (Action × String)
  exec_list : List exec_entry
  place : Int
  min : Int
  max : Int
  gpu_core_max : Int
  gpu_mem_max : Int
  cpu_temp_max : Int
  gpu_temp_max : Int
  ralign_width : ℚ
  colors : Colors
  params : overlay_params
deriving DecidableEq

/-- One element of `graph_data`: the fields plotted by `graphs`.  The fields
that `graphs` converts with `float(...)` are integers. -/
structure logData where
  cpu_load : ℚ
  gpu_load : Int
  cpu_temp : Int
  gpu_temp : Int
  gpu_core_clock : Int
  gpu_mem_clock : Int
  gpu_vram_used : ℚ
  ram_used : ℚ
deriving DecidableEq

/-- What the render functions read outside `HUDElements`: whether the build is
for Linux (`#ifdef __linux__`), the sample history `graph_data`, the total
memory of the active GPU (`none` when `g_active_gpu` is null), `memmax`, and
the member `batt_count` of `Battery_Stats`, which `battery.cpp` never
assigns. -/
structure Globals where
  linux : Bool
  graph_data : List logData
  g_active_gpu : Option ℚ
  memmax : ℚ
  batt_count : Int
deriving DecidableEq

/-- The conversion `int(x)` of a `float`: truncation towards zero. -/
def truncate (q : ℚ) : Int :=
  if 0 ≤ q then q.floor else -((-q).floor)

/-- The conversion `int(n)` of a `size_t` to a 32-bit `int`. -/
def toInt32 (n : Nat) : Int :=
  if n % 4294967296 < 2147483648 then (n % 4294967296 : Nat)
  else ((n % 4294967296 : Nat) : Int) - 4294967296

/-! ## `format_units` -/

/-- The table `units` of `format_units`. -/
def units : List String := ["B", "KiB", "MiB", "GiB", "TiB", "PiB", "EiB", "ZiB"]

/-- The loop of `format_units`,
`while (out_value > 1023 && u < ARRAY_SIZE(units)) { out_value /= 1024; ++u; }`,
with `ARRAY_SIZE(units)` the number of entries of the table; `out_value` is a
`float`, so the quotient is rounded.  The result is the pair of `out_value` and
`u` at the exit; `none` when the fuel runs out. -/
def format_loop : Nat → ℚ → Nat → Option (ℚ × Nat)
  | 0, _, _ => none
  | fuel + 1, out_value, u =>
    if out_value > 1023 ∧ u < units.length then
      format_loop fuel (f32 (out_value / 1024)) (u + 1)
    else some (out_value, u)

/-- The model of `format_units` (with `R = float`) for a byte count `value`:
the returned number and the string stored in `unit`.  The initialisation
`R out_value = value` converts the count to `float`.  The loop makes at most
`ARRAY_SIZE(units)` rounds, so the fuel given to it is never used up
(`format_loop_total`); the result is `none` when `units[u]` is past the end of
the table. -/
def format_units (value : Nat) : Option (ℚ × String) :=
  match format_loop (units.length + 1) (f32 value) 0 with
  | none => none
  | some (out_value, u) =>
    match units[u]? with
    | none => none
    | some unit => some (out_value, unit)

/-! ## `sort_elements` and `legacy_elements` -/

/-- The call `ordered_functions.push_back({f, value})`. -/
def HudElements.push (h : HudElements) (f : Action) (value : String) : HudElements :=
  { h with ordered_functions := h.ordered_functions ++ [(f, value)] }

/-- The call `exec_list.push_back({int(ordered_functions.size() - 1), value})`;
the output member starts empty. -/
def HudElements.push_exec (h : HudElements) (value : String) : HudElements :=
  { h with exec_list := h.exec_list ++
      [{ pos := toInt32 (h.ordered_functions.length - 1), value := value, ret := "" }] }

/-- Modelled from the spec: the closed set of permitted graph sub-tokens
(`permitted_params`, declared in `hud_elements.h`). -/
def permitted_params : List String :=
  ["cpu_load", "gpu_load", "cpu_temp", "gpu_temp", "gpu_core_clock", "gpu_mem_clock",
    "vram", "ram"]

/-- The loop of `sort_elements` over the sub-tokens of a "graphs" parameter. -/
def sort_graphs (h : HudElements) : List String → HudElements
  | [] => h
  | value :: rest =>
    if permitted_params.contains value then sort_graphs (h.push .graphs value) rest
    else sort_graphs h rest

/-- The model of `HudElements::sort_elements`.  The tokenizer `str_tokenize`
of `string_utils.h` is an argument. -/
def sort_elements (str_tokenize : String → List String) (option : String × String)
    (h : HudElements) : HudElements :=
  let param := option.1
  let value := option.2
  let h := if param = "version" then h.push .version value else h
  let h := if param = "time" then h.push .time value else h
  let h := if param = "gpu_stats" then h.push .gpu_stats value else h
  let h := if param = "cpu_stats" then h.push .cpu_stats value else h
  let h := if param = "core_load" then h.push .core_load value else h
  let h := if param = "io_stats" then h.push .io_stats value else h
  let h := if param = "vram" then h.push .vram value else h
  let h := if param = "ram" then h.push .ram value else h
  let h := if param = "procmem" then h.push .procmem value else h
  let h := if param = "fps" then h.push .fps value else h
  let h := if param = "engine_version" then h.push .engine_version value else h
  let h := if param = "gpu_name" then h.push .gpu_name value else h
  let h := if param = "vulkan_driver" then h.push .vulkan_driver value else h
  let h := if param = "arch" then h.push .arch value else h
  let h := if param = "wine" then h.push .wine value else h
  let h := if param = "frame_timing" then h.push .frame_timing value else h
  let h := if param = "media_player" then h.push .media_player value else h
  let h := if param = "resolution" then h.push .resolution value else h
  let h := if param = "show_fps_limit" then h.push .show_fps_limit value else h
  let h := if param = "custom_text" then h.push .custom_text value else h
  let h := if param = "custom_text_center" then h.push .custom_text_center value else h
  let h := if param = "gamemode" then h.push .gamemode value else h
  let h := if param = "vkbasalt" then h.push .vkbasalt value else h
  let h := if param = "exec" then (h.push ._exec value).push_exec value else h
  let h := if param = "battery" then h.push .battery value else h
  if param = "graphs" then
    let h := if !h.params.enabled_graphs then
      { h with params := { h.params with enabled_graphs := true } } else h
    sort_graphs h (str_tokenize value)
  else h

/-- The model of `HudElements::legacy_elements`: the plan is cleared, then the
21 entries are pushed, each with the value "NULL". -/
def legacy_elements (h : HudElements) : HudElements :=
  ({ h with ordered_functions := [] } : HudElements)
    |>.push .time "NULL"
    |>.push .version "NULL"
    |>.push .gpu_stats "NULL"
    |>.push .cpu_stats "NULL"
    |>.push .core_load "NULL"
    |>.push .io_stats "NULL"
    |>.push .vram "NULL"
    |>.push .ram "NULL"
    |>.push .battery "NULL"
    |>.push .fps "NULL"
    |>.push .engine_version "NULL"
    |>.push .gpu_name "NULL"
    |>.push .vulkan_driver "NULL"
    |>.push .arch "NULL"
    |>.push .wine "NULL"
    |>.push .frame_timing "NULL"
    |>.push .gamemode "NULL"
    |>.push .vkbasalt "NULL"
    |>.push .show_fps_limit "NULL"
    |>.push .resolution "NULL"
    |>.push .media_player "NULL"

/-- The model of `HudElements::update_exec`.  The function `exec`, which runs
a command and returns what it printed, is an argument. -/
def update_exec (exec : String → String) (h : HudElements) : HudElements :=
  { h with exec_list := h.exec_list.map fun item => { item with ret := exec item.value } }

/-! ## `_exec` and `battery` -/

/-- The loop of `_exec` over `exec_list`. -/
def exec_rows (place : Int) : List exec_entry → List Draw
  | [] => []
  | item :: rest =>
    if item.pos = place then Draw.Text "%s" (some (.str item.ret)) :: exec_rows place rest
    else exec_rows place rest

/-- The model of `HudElements::_exec`. -/
def _exec (h : HudElements) : List Draw :=
  [Draw.PushFont, Draw.TableNextColumn] ++ exec_rows h.place h.exec_list ++ [Draw.PopFont]

/-- The `switch (int(Battery_Stats.current_percent))` of `battery`. -/
def battery_icon (h : HudElements) (percent : Int) : List Draw :=
  if 0 ≤ percent ∧ percent ≤ 33 then
    [Draw.right_aligned_text h.colors.text h.ralign_width "%s" (.str "ICON_FK_BATTERY_QUARTER")]
  else if 34 ≤ percent ∧ percent ≤ 66 then
    [Draw.right_aligned_text h.colors.text h.ralign_width "%s" (.str "ICON_FK_BATTERY_HALF")]
  else if 67 ≤ percent ∧ percent ≤ 97 then
    [Draw.right_aligned_text h.colors.text h.ralign_width "%s"
      (.str "ICON_FK_BATTERY_THREE_QUARTERS")]
  else if 98 ≤ percent ∧ percent ≤ 100 then
    [Draw.right_aligned_text h.colors.text h.ralign_width "%s" (.str "ICON_FK_BATTERY_FULL")]
  else []

/-- The model of `HudElements::battery`; `none` when `int(...)` is applied to a
value that is not a finite number. -/
def battery (g : Globals) (b : BatteryStats) (h : HudElements) : Option (List Draw) :=
  if g.linux then
    if g.batt_count > 0 then
      if h.params.enabled_battery then do
        let head := [Draw.TableNextRow, Draw.TableNextColumn,
          Draw.TextColored h.colors.battery "BATT" none, Draw.TableNextColumn]
        let level ←
          if h.params.enabled_battery_icon then
            match b.current_percent with
            | .fin q => some (battery_icon h (truncate q))
            | .nonFinite => none
          else
            some [Draw.right_aligned_text h.colors.text h.ralign_width "%.0f"
                (.flt b.current_percent),
              Draw.SameLine, Draw.Text "%%" none]
        let watt :=
          if b.current_watt ≠ 0 then
            [Draw.TableNextColumn,
              Draw.right_aligned_text h.colors.text h.ralign_width "%.1f" (.num b.current_watt),
              Draw.SameLine, Draw.PushFont, Draw.Text "W" none, Draw.PopFont]
          else []
        some (head ++ level ++ watt)
      else some []
    else some []
  else some []

/-! ## `graphs` -/

/-- The loop `for (auto& it : graph_data) { arr.push_back(f(it)); arr.erase(arr.begin()); }`. -/
def slide (f : logData → ℚ) : List logData → List ℚ → List ℚ
  | [], arr => arr
  | it :: rest, arr => slide f rest ((arr ++ [f it]).tail)

/-- The value `arr.back()`. -/
def back (arr : List ℚ) : ℚ := arr.getLastD 0

/-- The state threaded through the body of `graphs`: the object, the vector
`arr`, and the drawing calls made so far. -/
structure GraphsState where
  hud : HudElements
  arr : List ℚ
  out : List Draw

/-- The vector `std::vector<float> arr(50, 0)`. -/
def arr0 : List ℚ := List.replicate 50 0

/-- The block `if (value == "cpu_load") { ... }` of `graphs`. -/
def block_cpu_load (g : Globals) (value : String) (st : GraphsState) : GraphsState :=
  if value = "cpu_load" then
    { hud := { st.hud with max := 100, min := 0 },
      arr := slide (fun it => it.cpu_load) g.graph_data st.arr,
      out := st.out ++ [Draw.TextColored st.hud.colors.engine "%s" (some (.str "CPU Load"))] }
  else st

/-- The block `if (value == "gpu_load") { ... }` of `graphs`. -/
def block_gpu_load (g : Globals) (value : String) (st : GraphsState) : GraphsState :=
  if value = "gpu_load" then
    { hud := { st.hud with max := 100, min := 0 },
      arr := slide (fun it => (it.gpu_load : ℚ)) g.graph_data st.arr,
      out := st.out ++ [Draw.TextColored st.hud.colors.engine "%s" (some (.str "GPU Load"))] }
  else st

/-- The block `if (value == "cpu_temp") { ... }` of `graphs`. -/
def block_cpu_temp (g : Globals) (value : String) (st : GraphsState) : GraphsState :=
  if value = "cpu_temp" then
    let arr := slide (fun it => (it.cpu_temp : ℚ)) g.graph_data st.arr
    let cpu_temp_max :=
      if truncate (back arr) > st.hud.cpu_temp_max then truncate (back arr)
      else st.hud.cpu_temp_max
    { hud := { st.hud with cpu_temp_max := cpu_temp_max, max := cpu_temp_max, min := 0 },
      arr := arr,
      out := st.out ++ [Draw.TextColored st.hud.colors.engine "%s" (some (.str "CPU Temp"))] }
  else st

/-- The block `if (value == "gpu_temp") { ... }` of `graphs`. -/
def block_gpu_temp (g : Globals) (value : String) (st : GraphsState) : GraphsState :=
  if value = "gpu_temp" then
    let arr := slide (fun it => (it.gpu_temp : ℚ)) g.graph_data st.arr
    let gpu_temp_max :=
      if truncate (back arr) > st.hud.gpu_temp_max then truncate (back arr)
      else st.hud.gpu_temp_max
    { hud := { st.hud with gpu_temp_max := gpu_temp_max, max := gpu_temp_max, min := 0 },
      arr := arr,
      out := st.out ++ [Draw.TextColored st.hud.colors.engine "%s" (some (.str "GPU Temp"))] }
  else st

/-- The block `if (value == "gpu_core_clock") { ... }` of `graphs`. -/
def block_gpu_core_clock (g : Globals) (value : String) (st : GraphsState) : GraphsState :=
  if value = "gpu_core_clock" then
    let arr := slide (fun it => (it.gpu_core_clock : ℚ)) g.graph_data st.arr
    let gpu_core_max :=
      if truncate (back arr) > st.hud.gpu_core_max then truncate (back arr)
      else st.hud.gpu_core_max
    { hud := { st.hud with gpu_core_max := gpu_core_max, max := gpu_core_max, min := 0 },
      arr := arr,
      out := st.out ++
        [Draw.TextColored st.hud.colors.engine "%s" (some (.str "GPU Core Clock"))] }
  else st

/-- The block `if (value == "gpu_mem_clock") { ... }` of `graphs`. -/
def block_gpu_mem_clock (g : Globals) (value : String) (st : GraphsState) : GraphsState :=
  if value = "gpu_mem_clock" then
    let arr := slide (fun it => (it.gpu_mem_clock : ℚ)) g.graph_data st.arr
    let gpu_mem_max :=
      if truncate (back arr) > st.hud.gpu_mem_max then truncate (back arr)
      else st.hud.gpu_mem_max
    { hud := { st.hud with gpu_mem_max := gpu_mem_max, max := gpu_mem_max, min := 0 },
      arr := arr,
      out := st.out ++
        [Draw.TextColored st.hud.colors.engine "%s" (some (.str "GPU Mem Clock"))] }
  else st

/-- The block `if (value == "vram" && g_active_gpu) { ... }` of `graphs`. -/
def block_vram (g : Globals) (value : String) (st : GraphsState) : GraphsState :=
  match g.g_active_gpu with
  | some memory_total =>
    if value = "vram" then
      { hud := { st.hud with max := truncate memory_total, min := 0 },
        arr := slide (fun it => it.gpu_vram_used) g.graph_data st.arr,
        out := st.out ++ [Draw.TextColored st.hud.colors.engine "%s" (some (.str "VRAM"))] }
    else st
  | none => st

/-- The block `if (value == "ram") { ... }` of `graphs`, compiled under
`#ifdef __linux__`. -/
def block_ram (g : Globals) (value : String) (st : GraphsState) : GraphsState :=
  if g.linux then
    if value = "ram" then
      let params := if !st.hud.params.enabled_ram then
        { st.hud.params with enabled_ram := true } else st.hud.params
      { hud := { st.hud with params := params, max := truncate g.memmax, min := 0 },
        arr := slide (fun it => it.ram_used) g.graph_data st.arr,
        out := st.out ++ [Draw.TextColored st.hud.colors.engine "%s" (some (.str "RAM"))] }
    else st
  else st

/-- The plot call that ends `graphs`. -/
def plot_call (st : GraphsState) : Draw :=
  if !st.hud.params.enabled_histogram then Draw.PlotLines st.arr st.hud.min st.hud.max
  else Draw.PlotHistogram st.arr st.hud.min st.hud.max

/-- The model of `HudElements::graphs`: the object afterwards and the drawing
calls; `none` when `place` does not index the plan. -/
def graphs (g : Globals) (h : HudElements) : Option (HudElements × List Draw) :=
  if h.place < 0 then none else
  match h.ordered_functions[h.place.toNat]? with
  | none => none
  | some entry =>
    let value := entry.2
    let st : GraphsState :=
      { hud := h, arr := arr0,
        out := [Draw.TableNextRow, Draw.TableNextColumn, Draw.Dummy, Draw.PushFont] }
    let st := block_cpu_load g value st
    let st := block_gpu_load g value st
    let st := block_cpu_temp g value st
    let st := block_gpu_temp g value st
    let st := block_gpu_core_clock g value st
    let st := block_gpu_mem_clock g value st
    let st := block_vram g value st
    let st := block_ram g value st
    some (st.hud, st.out ++ [Draw.PopFont, Draw.Dummy, Draw.PushStyleColor, Draw.TableNextRow,
      Draw.TableNextColumn, plot_call st, Draw.Dummy, Draw.PopStyleColor])

/-! ## The colour of a load value -/

/-- The type `LOAD_DATA`, with its members in the order in which the callers
initialise them: three colours, then two thresholds. -/
structure LOAD_DATA where
  color_low : ImVec4
  color_med : ImVec4
  color_high : ImVec4
  med_load : Int
  high_load : Int
deriving DecidableEq

/-- Modelled from the spec: `change_on_load_temp`, defined outside
`hud_elements.cpp`.  The specification's `map(value, lo, hi, colorLow,
colorMed, colorHigh)` returns `colorLow` when `value` is at or below `lo`,
`colorHigh` when at or above `hi`, and `colorMed` otherwise. -/
def change_on_load_temp (data : LOAD_DATA) (current : Int) : ImVec4 :=
  if current ≤ data.med_load then data.color_low
  else if current ≥ data.high_load then data.color_high
  else data.color_med

/-- The `LOAD_DATA gpu_data` built by `per_gpu_stats`. -/
def gpu_data (h : HudElements) : LOAD_DATA :=
  { color_low := h.colors.gpu_load_low, color_med := h.colors.gpu_load_med,
    color_high := h.colors.gpu_load_high,
    med_load := h.params.gpu_load_value0, high_load := h.params.gpu_load_value1 }

/-- The `LOAD_DATA cpu_data` built by `cpu_stats` and by `core_load`. -/
def cpu_data (h : HudElements) : LOAD_DATA :=
  { color_low := h.colors.cpu_load_low, color_med := h.colors.cpu_load_med,
    color_high := h.colors.cpu_load_high,
    med_load := h.params.cpu_load_value0, high_load := h.params.cpu_load_value1 }

/-- The `LOAD_DATA fps_data` built by `fps`. -/
def fps_data (h : HudElements) : LOAD_DATA :=
  { color_low := h.colors.fps_value_low, color_med := h.colors.fps_value_med,
    color_high := h.colors.fps_value_high,
    med_load := h.params.fps_value0, high_load := h.params.fps_value1 }

/-! ## Vocabulary of the statements -/

/-- The paths of the battery devices of the directory, in scan order. -/
def batteries (sys : Sys) : List String :=
  match sys.root with
  | none => []
  | some entries => (entries.filter isBattery).map (powerSupply ++ ·)

/-- The list `l` written `k` times in a row. -/
def copies (l : List String) : Nat → List String
  | 0 => []
  | k + 1 => l ++ copies l k

/-- The object has scanned no other directory content than that of `sys`:
its vector of paths is the battery list of `sys` some number of times over. -/
def Synced (sys : Sys) (s : BatteryStats) : Prop :=
  ∃ k, s.battPath = copies (batteries sys) k

/-- The loop body of `getPercent` run over a list of device paths in order. -/
def percentPaths (sys : Sys) : List String → ℚ × ℚ → Option (ℚ × ℚ)
  | [], acc => some acc
  | p :: ps, acc => (percentBody sys p acc).bind (percentPaths sys ps)

/-- The number read from a file: the value of its first line, 0 when no line
can be read. -/
def numberAt (sys : Sys) (path : String) : ℚ :=
  match (sys.file path).getline with
  | some l => l.stof.getD 0
  | none => 0

/-- The file at `path` has a first line and `std::stof` accepts it. -/
def Readable (sys : Sys) (path : String) : Prop :=
  ∃ l v, sys.file path = .line l ∧ l.stof = some v

/-- Every line that can be read from the file is accepted by `std::stof`. -/
def Parses (sys : Sys) (path : String) : Prop :=
  ∀ l, (sys.file path).getline = some l → ∃ v, l.stof = some v

/-- The status recorded for a slot after the first loop of `isCharging` has
visited the device at `p`: the line of its status file when one can be read,
the status recorded before (`old`) otherwise. -/
def statusOf (sys : Sys) (p : String) (old : String) : String :=
  match (sys.file (p ++ "/status")).getline with
  | some l => l.text
  | none => old

/-- The object after the first loop of `isCharging` has refreshed both slots,
slot 0 from the device at `p0` and slot 1 from the device at `p1`. -/
def refreshed (sys : Sys) (p0 p1 : String) (s : BatteryStats) : BatteryStats :=
  { s with
    battPath := s.battPath ++ batteries sys
    state0 := statusOf sys p0 s.state0
    state1 := statusOf sys p1 s.state1
    current_status := statusOf sys p1 (statusOf sys p0 s.current_status) }

/-- The path held by slot `i` once `numBattery` has run on `s`. -/
def slotPath (sys : Sys) (s : BatteryStats) (i : Nat) : Option String :=
  (s.battPath ++ batteries sys)[i]?

/-- The status recorded for slot `i` after the first loop of `isCharging`. -/
def slotStatus (sys : Sys) (s : BatteryStats) (i : Nat) : String :=
  match slotPath sys s i with
  | some p => statusOf sys p (s.stateAt i)
  | none => s.stateAt i

/-- The status that the device in slot `i` reports now: the line of its status
file, `none` when the slot holds no device or no line can be read. -/
def reported (sys : Sys) (s : BatteryStats) (i : Nat) : Option String :=
  (slotPath sys s i).bind fun p => ((sys.file (p ++ "/status")).getline).map (·.text)

/-- The wattage `getPower` computes for the device at `p` when not charging. -/
def powerOf (sys : Sys) (p : String) : ℚ :=
  if (sys.file (p ++ "/current_now")).present then
    numberAt sys (p ++ "/current_now") / 1000000 * (numberAt sys (p ++ "/voltage_now") / 1000000)
  else numberAt sys (p ++ "/power_now") / 1000000

/-- The names of the numeric attribute files read by `getPercent` and `getPower`. -/
def numericAttrs : List String :=
  ["/charge_now", "/charge_full", "/energy_now", "/energy_full", "/capacity",
    "/current_now", "/voltage_now", "/power_now"]

/-- None of the numeric attribute files of the device at `p` holds a line on
which `std::stof` throws. -/
def DeviceParses (sys : Sys) (p : String) : Prop :=
  ∀ name ∈ numericAttrs, Parses sys (p ++ name)

/-- The object after one `numBattery()`. -/
def grow (sys : Sys) (s : BatteryStats) : BatteryStats :=
  { s with battPath := s.battPath ++ batteries sys }

/-- The value of the test of `isCharging` once slot 0 was refreshed from the
device at `p0` and slot 1 from the device at `p1`. -/
def chargingFlag (sys : Sys) (p0 p1 : String) (s : BatteryStats) : Bool :=
  decide (statusOf sys p0 s.state0 = "Charging" ∨ statusOf sys p1 s.state1 = "Charging")

/-- The three ways a device reports its charge level. -/
inductive Scheme where
  | chargeBased
  | energyBased
  | capacityOnly
deriving DecidableEq

/-- The scheme `getPercent` applies to the device at `p`: decided by the
existence of `charge_now`, then by that of `energy_now`. -/
def schemeOf (sys : Sys) (p : String) : Scheme :=
  if (sys.file (p ++ "/charge_now")).present then .chargeBased
  else if (sys.file (p ++ "/energy_now")).present then .energyBased
  else .capacityOnly

/-- The scheme as the specification words it: charge-based when `charge_now`
and `charge_full` are both present, otherwise energy-based when `energy_now`
and `energy_full` are both present, otherwise capacity-only. -/
def schemeClaimed (sys : Sys) (p : String) : Scheme :=
  if (sys.file (p ++ "/charge_now")).present && (sys.file (p ++ "/charge_full")).present then
    .chargeBased
  else if (sys.file (p ++ "/energy_now")).present && (sys.file (p ++ "/energy_full")).present then
    .energyBased
  else .capacityOnly

/-- What the device at `p` adds to the pair `(now_sum, full_sum)`, an attribute
from which no line can be read counting as 0. -/
def contribution (sys : Sys) (p : String) (acc : ℚ × ℚ) : ℚ × ℚ :=
  match schemeOf sys p with
  | .chargeBased =>
    (acc.1 + numberAt sys (p ++ "/charge_now") / 1000000,
      acc.2 + numberAt sys (p ++ "/charge_full") / 1000000)
  | .energyBased =>
    (acc.1 + numberAt sys (p ++ "/energy_now") / 1000000,
      acc.2 + numberAt sys (p ++ "/energy_full") / 1000000)
  | .capacityOnly =>
    if ((sys.file (p ++ "/capacity")).getline).isSome then
      (acc.1 + numberAt sys (p ++ "/capacity") / 100, 1)
    else acc

/-- The attribute files of the device at `p` that the loop body of `getPercent`
inspects: `charge_now`, then either `charge_full`, or `energy_now` and with it
`energy_full` or `capacity`. -/
def levelFiles (sys : Sys) (p : String) : List String :=
  match schemeOf sys p with
  | .chargeBased => ["/charge_now", "/charge_full"]
  | .energyBased => ["/charge_now", "/energy_now", "/energy_full"]
  | .capacityOnly => ["/charge_now", "/energy_now", "/capacity"]

/-- The function `std::stof` accepts every line that the loop body of
`getPercent` reads from the device at `p`. -/
def LevelParses (sys : Sys) (p : String) : Prop :=
  ∀ name ∈ levelFiles sys p, Parses sys (p ++ name)

/-- The attribute files of the device at `p` that `getPower` inspects when
`isCharging()` is false: `current_now`, then `voltage_now` when `current_now`
exists and `power_now` when it does not. -/
def powerFiles (sys : Sys) (p : String) : List String :=
  if (sys.file (p ++ "/current_now")).present then ["/current_now", "/voltage_now"]
  else ["/current_now", "/power_now"]

/-- The function `std::stof` accepts every line that `getPower` reads from the
device at `p` when `isCharging()` is false. -/
def PowerParses (sys : Sys) (p : String) : Prop :=
  ∀ name ∈ powerFiles sys p, Parses sys (p ++ name)

/-- The wattage that `getPower` reads for the device at `p` when `isCharging()`
is false; `none` when `std::stof` throws on a line that is read. -/
def wattage (sys : Sys) (p : String) : Option ℚ :=
  if (sys.file (p ++ "/current_now")).present then
    (reading (sys.file (p ++ "/current_now"))).bind fun current =>
      (reading (sys.file (p ++ "/voltage_now"))).map fun voltage => current * voltage
  else reading (sys.file (p ++ "/power_now"))

/-- The devices that `update` visits: the first entries of the vector of paths,
as many as `numBattery` counts. -/
def visited (sys : Sys) (s : BatteryStats) : List String :=
  (s.battPath ++ batteries sys).take (batteries sys).length

/-- The function `std::stof` accepts every line that `update` reads: the level
files of the devices it visits and, unless `isCharging()` returns true, their
power files.  When `update` reaches `getPower`, the directory has been scanned
at least twice; `isCharging()` scans once more and reads the status files of
the first two paths of the vector, which are those it reads after one scan
(`grow sys s`). -/
def UpdateParses (sys : Sys) (s : BatteryStats) : Prop :=
  ((isCharging sys (grow sys s)).map Prod.fst = some false →
      ∀ p ∈ visited sys s, PowerParses sys p) ∧
    ∀ p ∈ visited sys s, LevelParses sys p

/-- The loop body of `getPercent` in `float` arithmetic run over a list of
device paths in order. -/
def percentPaths32 (sys : Sys) : List String → ℚ × ℚ → Option (ℚ × ℚ)
  | [], acc => some acc
  | p :: ps, acc => (percentBody32 sys p acc).bind (percentPaths32 sys ps)

/-- What `getPercent` returns in `float` arithmetic for a single capacity-only
device reading the integer percentage `c`: `c` itself, except for seven values
of `c`, where the two roundings leave a difference of `2 ^ (-20)`, `2 ^ (-19)`
or `2 ^ (-18)`. -/
def capacityShown (c : Nat) : ℚ :=
  if c = 15 then c + 1 / 2 ^ 20
  else if c = 27 ∨ c = 30 then c + 1 / 2 ^ 19
  else if c = 54 ∨ c = 60 then c + 1 / 2 ^ 18
  else if c = 53 ∨ c = 59 then c - 1 / 2 ^ 18
  else c

/-- The number of entries of the directory whose name contains "BAT"; zero
when the directory does not exist. -/
def batEntries (sys : Sys) : Nat :=
  match sys.root with
  | none => 0
  | some entries => (entries.filter isBattery).length

/-- The object after `k` calls of `numBattery` in a row. -/
def numBatteryCalls (sys : Sys) : Nat → BatteryStats → BatteryStats
  | 0, s => s
  | k + 1, s => (numBattery sys (numBatteryCalls sys k s)).2

/-! ## Vocabulary of the statements about the registry -/

/-- The fixed table of supported render actions: the 25 tokens other than
"graphs" and the render function each one stands for. -/
def supported : List (String × Action) :=
  [("version", .version),
    ("time", .time),
    ("gpu_stats", .gpu_stats),
    ("cpu_stats", .cpu_stats),
    ("core_load", .core_load),
    ("io_stats", .io_stats),
    ("vram", .vram),
    ("ram", .ram),
    ("procmem", .procmem),
    ("fps", .fps),
    ("engine_version", .engine_version),
    ("gpu_name", .gpu_name),
    ("vulkan_driver", .vulkan_driver),
    ("arch", .arch),
    ("wine", .wine),
    ("frame_timing", .frame_timing),
    ("media_player", .media_player),
    ("resolution", .resolution),
    ("show_fps_limit", .show_fps_limit),
    ("custom_text", .custom_text),
    ("custom_text_center", .custom_text_center),
    ("gamemode", .gamemode),
    ("vkbasalt", .vkbasalt),
    ("exec", ._exec),
    ("battery", .battery)]

/-- The render action of a token, `none` for a token that is not supported. -/
def actionOf (param : String) : Option Action :=
  supported.lookup param

/-- Modelled from the spec: the tokenizer `str_tokenize` of `string_utils.h`
(the parameter of "graphs" is a delimited list of sub-tokens); the sub-tokens
are the non-empty pieces between commas.  `cur` holds the characters of the
piece being read, last first. -/
def tokenizeChars : List Char → List Char → List String
  | cur, [] => if cur = [] then [] else [String.mk cur.reverse]
  | cur, c :: cs =>
    if c = ',' then
      if cur = [] then tokenizeChars [] cs else String.mk cur.reverse :: tokenizeChars [] cs
    else tokenizeChars (c :: cur) cs

/-- Modelled from the spec: `str_tokenize` on a string. -/
def str_tokenize (s : String) : List String := tokenizeChars [] s.toList

/-- The object after `sort_elements` was called for each option in turn. -/
def configure (tok : String → List String) (options : List (String × String))
    (h : HudElements) : HudElements :=
  options.foldl (fun h o => sort_elements tok o h) h

/-- The `_exec` entries of a plan with their indices, the first entry of the
list having index `start`. -/
def execEntries (start : Nat) : List (Action × String) → List (Nat × String)
  | [] => []
  | (f, v) :: rest =>
    if f = ._exec then (start, v) :: execEntries (start + 1) rest
    else execEntries (start + 1) rest

/-- The side table lists, in order, the `_exec` entries of the plan: each row
holds the index of its entry, converted to `int`, and the entry's parameter. -/
def Tracks (h : HudElements) : Prop :=
  h.exec_list.map (fun r => (r.pos, r.value)) =
    (execEntries 0 h.ordered_functions).map fun e => (toInt32 e.1, e.2)

/-- A call of one of the members that write the plan or the side table:
`sort_elements` with an option, `legacy_elements`, and `update_exec` with the
behaviour of the commands at the time of the call. -/
inductive Call where
  | sort (option : String × String)
  | legacy
  | refresh (exec : String → String)

/-- The object after a call. -/
def Call.run (tok : String → List String) : Call → HudElements → HudElements
  | .sort option, h => sort_elements tok option h
  | .legacy, h => legacy_elements h
  | .refresh exec, h => update_exec exec h

/-- The object after a sequence of calls. -/
def runCalls (tok : String → List String) (calls : List Call) (h : HudElements) : HudElements :=
  calls.foldl (fun h c => c.run tok h) h

/-- The side table has a row with position `pos` and command `c`. -/
def holdsRow (h : HudElements) (pos : Int) (c : String) : Prop :=
  ∃ r ∈ h.exec_list, r.pos = pos ∧ r.value = c

/-- The position `pos` is the index of an `_exec` entry of the plan. -/
def indexesExec (h : HudElements) (pos : Int) : Prop :=
  ∃ i : Nat, (i : Int) = pos ∧ ∃ v, h.ordered_functions[i]? = some (Action._exec, v)

/-! ## Vocabulary of the statements about the graphs -/

/-- The series handed to the plot calls of a list of drawing calls. -/
def plotted : List Draw → List (List ℚ)
  | [] => []
  | Draw.PlotLines values _ _ :: rest => values :: plotted rest
  | Draw.PlotHistogram values _ _ :: rest => values :: plotted rest
  | _ :: rest => plotted rest

/-- The field of a sample plotted for a graph kind. -/
def sampleOf (value : String) (it : logData) : ℚ :=
  if value = "cpu_load" then it.cpu_load
  else if value = "gpu_load" then it.gpu_load
  else if value = "cpu_temp" then it.cpu_temp
  else if value = "gpu_temp" then it.gpu_temp
  else if value = "gpu_core_clock" then it.gpu_core_clock
  else if value = "gpu_mem_clock" then it.gpu_mem_clock
  else if value = "vram" then it.gpu_vram_used
  else it.ram_used

/-- The last `n` elements of a list. -/
def lastN (n : Nat) (l : List ℚ) : List ℚ := l.drop (l.length - n)

/-- The state in which the body of `graphs` starts. -/
def graphsInit (h : HudElements) : GraphsState :=
  { hud := h, arr := arr0,
    out := [Draw.TableNextRow, Draw.TableNextColumn, Draw.Dummy, Draw.PushFont] }

/-- The eight blocks of `graphs` in the order of the source. -/
def blocks (g : Globals) (value : String) (st : GraphsState) : GraphsState :=
  block_ram g value (block_vram g value (block_gpu_mem_clock g value
    (block_gpu_core_clock g value (block_gpu_temp g value (block_cpu_temp g value
      (block_gpu_load g value (block_cpu_load g value st)))))))

/-- The block of `graphs` for the kind `value` is skipped: "vram" without an
active GPU, "ram" in a build that is not for Linux. -/
def skipped (g : Globals) (value : String) : Prop :=
  (value = "vram" ∧ g.g_active_gpu = none) ∨ (value = "ram" ∧ g.linux = false)

instance (g : Globals) (value : String) : Decidable (skipped g value) := by
  unfold skipped; infer_instance

/-- The kinds for which `graphs` keeps a running maximum. -/
def maxKinds : List String := ["cpu_temp", "gpu_temp", "gpu_core_clock", "gpu_mem_clock"]

/-- The running maximum kept for a kind of `maxKinds`. -/
def runningMax (value : String) (h : HudElements) : Int :=
  if value = "cpu_temp" then h.cpu_temp_max
  else if value = "gpu_temp" then h.gpu_temp_max
  else if value = "gpu_core_clock" then h.gpu_core_max
  else h.gpu_mem_max

/-- The integer field of a sample tracked for a kind of `maxKinds`. -/
def trackedOf (value : String) (it : logData) : Int :=
  if value = "cpu_temp" then it.cpu_temp
  else if value = "gpu_temp" then it.gpu_temp
  else if value = "gpu_core_clock" then it.gpu_core_clock
  else it.gpu_mem_clock

/-- One call of `graphs` per frame, the sample history of the frame being the
head of the list. -/
def graphsRun (g : Globals) (h : HudElements) : List (List logData) → Option HudElements
  | [] => some h
  | w :: ws =>
    match graphs { g with graph_data := w } h with
    | none => none
    | some r => graphsRun g r.1 ws

/-- Modelled from the spec: the part of the sample history kept when one more
sample arrives (a FIFO of capacity 50: the oldest sample is evicted when the
new one would take the history over capacity). -/
def kept (data : List logData) : List logData :=
  if 50 < data.length + 1 then data.tail else data

/-- Modelled from the spec: the frames produced by recording the samples one
after the other, starting from the history `data`; each frame is the part of
the history that was kept and the sample appended to it. -/
def recorded : List logData → List logData → List (List logData × logData)
  | _, [] => []
  | data, s :: rest => (kept data, s) :: recorded (kept data ++ [s]) rest

/-! ## Concrete systems -/

/-- A mains adapter and one battery, fully charged. -/
def sysOneFull : Sys :=
  { root := some ["AC", "BAT0"],
    file := fun path =>
      if path = "/sys/class/power_supply/BAT0/status" then .line ⟨"Full", none⟩
      else if path = "/sys/class/power_supply/BAT0/charge_now" then .line ⟨"4000000", some 4000000⟩
      else if path = "/sys/class/power_supply/BAT0/charge_full" then .line ⟨"4000000", some 4000000⟩
      else if path = "/sys/class/power_supply/BAT0/current_now" then .line ⟨"0", some 0⟩
      else if path = "/sys/class/power_supply/BAT0/voltage_now" then .line ⟨"12000000", some 12000000⟩
      else .missing }

/-- Two batteries that expose only `capacity`: 80 and 60. -/
def sysTwoCapacity : Sys :=
  { root := some ["AC", "BAT0", "BAT1"],
    file := fun path =>
      if path = "/sys/class/power_supply/BAT0/capacity" then .line ⟨"80", some 80⟩
      else if path = "/sys/class/power_supply/BAT1/capacity" then .line ⟨"60", some 60⟩
      else .missing }

/-- A charge-based battery at 3 of 4 Ah followed by a capacity-only battery at 50. -/
def sysChargeThenCapacity : Sys :=
  { root := some ["BAT0", "BAT1"],
    file := fun path =>
      if path = "/sys/class/power_supply/BAT0/charge_now" then .line ⟨"3000000", some 3000000⟩
      else if path = "/sys/class/power_supply/BAT0/charge_full" then .line ⟨"4000000", some 4000000⟩
      else if path = "/sys/class/power_supply/BAT1/capacity" then .line ⟨"50", some 50⟩
      else .missing }

/-- Three charge-based batteries: 1 of 4, 2 of 2 and 0 of 4 Ah. -/
def sysLevels : Sys :=
  { root := some ["AC", "BAT0", "BAT1", "BAT2"],
    file := fun path =>
      if path = "/sys/class/power_supply/BAT0/charge_now" then .line ⟨"1000000", some 1000000⟩
      else if path = "/sys/class/power_supply/BAT0/charge_full" then .line ⟨"4000000", some 4000000⟩
      else if path = "/sys/class/power_supply/BAT1/charge_now" then .line ⟨"2000000", some 2000000⟩
      else if path = "/sys/class/power_supply/BAT1/charge_full" then .line ⟨"2000000", some 2000000⟩
      else if path = "/sys/class/power_supply/BAT2/charge_now" then .line ⟨"0", some 0⟩
      else if path = "/sys/class/power_supply/BAT2/charge_full" then .line ⟨"4000000", some 4000000⟩
      else .missing }

/-- One battery that exposes only `capacity`, reading 57. -/
def sysCapacity57 : Sys :=
  { root := some ["BAT0"],
    file := fun path =>
      if path = "/sys/class/power_supply/BAT0/capacity" then .line ⟨"57", some 57⟩
      else .missing }

/-- Two batteries, the first charging, the second not. -/
def sysChargingA : Sys :=
  { root := some ["AC", "BAT0", "BAT1"],
    file := fun path =>
      if path = "/sys/class/power_supply/BAT0/status" then .line ⟨"Charging", none⟩
      else if path = "/sys/class/power_supply/BAT1/status" then .line ⟨"Discharging", none⟩
      else if path = "/sys/class/power_supply/BAT0/current_now" then .line ⟨"2000000", some 2000000⟩
      else if path = "/sys/class/power_supply/BAT0/voltage_now" then .line ⟨"12000000", some 12000000⟩
      else .missing }

/-- The same two batteries once their files can no longer be read. -/
def sysStatusGone : Sys :=
  { root := some ["AC", "BAT0", "BAT1"],
    file := fun _ => .missing }

/-- The object after one `isCharging()` on `sysChargingA` from the start. -/
def staleCharging : BatteryStats :=
  { battPath := ["/sys/class/power_supply/BAT0", "/sys/class/power_supply/BAT1"],
    state0 := "Charging", state1 := "Discharging", current_status := "Discharging",
    current_watt := 0, current_percent := .fin 0 }

/-- Two discharging batteries; the first has `current_now` (2 A) and
`power_now` (5 W) but no `voltage_now`. -/
def sysNoVoltage : Sys :=
  { root := some ["BAT0", "BAT1"],
    file := fun path =>
      if path = "/sys/class/power_supply/BAT0/status" then .line ⟨"Discharging", none⟩
      else if path = "/sys/class/power_supply/BAT1/status" then .line ⟨"Discharging", none⟩
      else if path = "/sys/class/power_supply/BAT0/current_now" then .line ⟨"2000000", some 2000000⟩
      else if path = "/sys/class/power_supply/BAT0/power_now" then .line ⟨"5000000", some 5000000⟩
      else .missing }

/-- Two discharging batteries: the first charge-based (1 of 4 Ah) drawing 2 A
at 12 V, the second energy-based (2 of 4 Wh) reporting 5 W in `power_now`. -/
def sysTwoDischarging : Sys :=
  { root := some ["AC", "BAT0", "BAT1"],
    file := fun path =>
      if path = "/sys/class/power_supply/BAT0/status" then .line ⟨"Discharging", none⟩
      else if path = "/sys/class/power_supply/BAT1/status" then .line ⟨"Discharging", none⟩
      else if path = "/sys/class/power_supply/BAT0/current_now" then .line ⟨"2000000", some 2000000⟩
      else if path = "/sys/class/power_supply/BAT0/voltage_now" then .line ⟨"12000000", some 12000000⟩
      else if path = "/sys/class/power_supply/BAT1/power_now" then .line ⟨"5000000", some 5000000⟩
      else if path = "/sys/class/power_supply/BAT0/charge_now" then .line ⟨"1000000", some 1000000⟩
      else if path = "/sys/class/power_supply/BAT0/charge_full" then .line ⟨"4000000", some 4000000⟩
      else if path = "/sys/class/power_supply/BAT1/energy_now" then .line ⟨"2000000", some 2000000⟩
      else if path = "/sys/class/power_supply/BAT1/energy_full" then .line ⟨"4000000", some 4000000⟩
      else .missing }

/-- Three discharging batteries, each charge-based (2 of 4 Ah) and reporting
1 W in `power_now`. -/
def sysThree : Sys :=
  { root := some ["BAT0", "BAT1", "BAT2"],
    file := fun path =>
      if path = "/sys/class/power_supply/BAT0/status" then .line ⟨"Discharging", none⟩
      else if path = "/sys/class/power_supply/BAT1/status" then .line ⟨"Discharging", none⟩
      else if path = "/sys/class/power_supply/BAT2/status" then .line ⟨"Discharging", none⟩
      else if path = "/sys/class/power_supply/BAT0/power_now" then .line ⟨"1000000", some 1000000⟩
      else if path = "/sys/class/power_supply/BAT1/power_now" then .line ⟨"1000000", some 1000000⟩
      else if path = "/sys/class/power_supply/BAT2/power_now" then .line ⟨"1000000", some 1000000⟩
      else if path = "/sys/class/power_supply/BAT0/charge_now" then .line ⟨"2000000", some 2000000⟩
      else if path = "/sys/class/power_supply/BAT0/charge_full" then .line ⟨"4000000", some 4000000⟩
      else if path = "/sys/class/power_supply/BAT1/charge_now" then .line ⟨"2000000", some 2000000⟩
      else if path = "/sys/class/power_supply/BAT1/charge_full" then .line ⟨"4000000", some 4000000⟩
      else if path = "/sys/class/power_supply/BAT2/charge_now" then .line ⟨"2000000", some 2000000⟩
      else if path = "/sys/class/power_supply/BAT2/charge_full" then .line ⟨"4000000", some 4000000⟩
      else .missing }

/-- Two discharging batteries; the first has a `charge_now` holding the text
"unknown" and a `current_now` whose first line is empty. -/
def sysGarbled : Sys :=
  { root := some ["BAT0", "BAT1"],
    file := fun path =>
      if path = "/sys/class/power_supply/BAT0/status" then .line ⟨"Discharging", none⟩
      else if path = "/sys/class/power_supply/BAT1/status" then .line ⟨"Discharging", none⟩
      else if path = "/sys/class/power_supply/BAT0/charge_now" then .line ⟨"unknown", none⟩
      else if path = "/sys/class/power_supply/BAT0/charge_full" then .line ⟨"4000000", some 4000000⟩
      else if path = "/sys/class/power_supply/BAT0/current_now" then .line ⟨"", none⟩
      else if path = "/sys/class/power_supply/BAT0/voltage_now" then .line ⟨"12000000", some 12000000⟩
      else .missing }

/-- One battery with `charge_now` (1 Ah), no `charge_full`, and both energy
files (2 of 4 Wh). -/
def sysChargeNoFull : Sys :=
  { root := some ["BAT0"],
    file := fun path =>
      if path = "/sys/class/power_supply/BAT0/charge_now" then .line ⟨"1000000", some 1000000⟩
      else if path = "/sys/class/power_supply/BAT0/energy_now" then .line ⟨"2000000", some 2000000⟩
      else if path = "/sys/class/power_supply/BAT0/energy_full" then .line ⟨"4000000", some 4000000⟩
      else .missing }

/-- One battery that exposes only `capacity`, reading 53. -/
def sysCapacity53 : Sys :=
  { root := some ["BAT0"],
    file := fun path =>
      if path = "/sys/class/power_supply/BAT0/capacity" then .line ⟨"53", some 53⟩
      else .missing }

/-- One battery with `charge_now` (1 Ah) and no `charge_full`, whose energy
files and `capacity` hold the text "unknown". -/
def sysChargeGarbledEnergy : Sys :=
  { root := some ["BAT0"],
    file := fun path =>
      if path = "/sys/class/power_supply/BAT0/charge_now" then .line ⟨"1000000", some 1000000⟩
      else if path = "/sys/class/power_supply/BAT0/energy_now" then .line ⟨"unknown", none⟩
      else if path = "/sys/class/power_supply/BAT0/energy_full" then .line ⟨"unknown", none⟩
      else if path = "/sys/class/power_supply/BAT0/capacity" then .line ⟨"unknown", none⟩
      else .missing }

/-- The two discharging batteries of `sysTwoDischarging`, with the text
"unknown" in every numeric attribute file that the program does not read:
`power_now`, the energy files and `capacity` of the first, `voltage_now`,
the charge files and `capacity` of the second. -/
def sysUnreadGarbled : Sys :=
  { root := some ["AC", "BAT0", "BAT1"],
    file := fun path =>
      if path = "/sys/class/power_supply/BAT0/status" then .line ⟨"Discharging", none⟩
      else if path = "/sys/class/power_supply/BAT1/status" then .line ⟨"Discharging", none⟩
      else if path = "/sys/class/power_supply/BAT0/current_now" then .line ⟨"2000000", some 2000000⟩
      else if path = "/sys/class/power_supply/BAT0/voltage_now" then .line ⟨"12000000", some 12000000⟩
      else if path = "/sys/class/power_supply/BAT0/power_now" then .line ⟨"unknown", none⟩
      else if path = "/sys/class/power_supply/BAT1/voltage_now" then .line ⟨"unknown", none⟩
      else if path = "/sys/class/power_supply/BAT1/power_now" then .line ⟨"5000000", some 5000000⟩
      else if path = "/sys/class/power_supply/BAT0/charge_now" then .line ⟨"1000000", some 1000000⟩
      else if path = "/sys/class/power_supply/BAT0/charge_full" then .line ⟨"4000000", some 4000000⟩
      else if path = "/sys/class/power_supply/BAT0/energy_now" then .line ⟨"unknown", none⟩
      else if path = "/sys/class/power_supply/BAT0/energy_full" then .line ⟨"unknown", none⟩
      else if path = "/sys/class/power_supply/BAT0/capacity" then .line ⟨"unknown", none⟩
      else if path = "/sys/class/power_supply/BAT1/energy_now" then .line ⟨"2000000", some 2000000⟩
      else if path = "/sys/class/power_supply/BAT1/energy_full" then .line ⟨"4000000", some 4000000⟩
      else if path = "/sys/class/power_supply/BAT1/capacity" then .line ⟨"unknown", none⟩
      else .missing }

/-- The colour with all components 0. -/
def black : ImVec4 := ⟨0, 0, 0, 0⟩

/-- The colours of the zero-initialised global object. -/
def colors0 : Colors :=
  { text := black, engine := black, battery := black,
    gpu_load_low := black, gpu_load_med := black, gpu_load_high := black,
    cpu_load_low := black, cpu_load_med := black, cpu_load_high := black,
    fps_value_low := black, fps_value_med := black, fps_value_high := black }

/-- Parameters with every option off and every threshold 0. -/
def params0 : overlay_params :=
  { enabled_battery := false, enabled_battery_icon := false, enabled_graphs := false,
    enabled_ram := false, enabled_histogram := false,
    gpu_load_value0 := 0, gpu_load_value1 := 0, cpu_load_value0 := 0, cpu_load_value1 := 0,
    fps_value0 := 0, fps_value1 := 0 }

/-- The global `HUDElements` at program start: empty plan, empty side table,
zeroed numbers. -/
def hud0 : HudElements :=
  { ordered_functions := [], exec_list := [], place := 0, min := 0, max := 0,
    gpu_core_max := 0, gpu_mem_max := 0, cpu_temp_max := 0, gpu_temp_max := 0,
    ralign_width := 0, colors := colors0, params := params0 }

/-- A power-supply directory without any battery. -/
def sysNoBattery : Sys :=
  { root := some ["AC", "ucsi-source-psy-USBC000:001"],
    file := fun _ => .missing }

/-- A Linux build with no samples, no active GPU and `batt_count` 0. -/
def globalsNoBattery : Globals :=
  { linux := true, graph_data := [], g_active_gpu := none, memmax := 0, batt_count := 0 }

/-- A configuration with two commands, a plain entry and a graph. -/
def optionsDemo : List (String × String) :=
  [("exec", "date"), ("cpu_stats", ""), ("exec", "uptime"), ("graphs", "cpu_load")]

/-- Three colours. -/
def green : ImVec4 := ⟨0, 1, 0, 1⟩

/-- Yellow. -/
def yellow : ImVec4 := ⟨1, 1, 0, 1⟩

/-- Red. -/
def red : ImVec4 := ⟨1, 0, 0, 1⟩

/-- An object whose CPU load colours are green, yellow and red, with the
thresholds 60 and 90. -/
def hudTraffic : HudElements :=
  { hud0 with
    colors := { colors0 with cpu_load_low := green, cpu_load_med := yellow, cpu_load_high := red }
    params := { params0 with cpu_load_value0 := 60, cpu_load_value1 := 90 } }

/-- A sample whose only non-zero field is the VRAM in use. -/
def sampleVram : logData :=
  { cpu_load := 0, gpu_load := 0, cpu_temp := 0, gpu_temp := 0, gpu_core_clock := 0,
    gpu_mem_clock := 0, gpu_vram_used := 1, ram_used := 0 }

/-- An object whose plan is a single "vram" graph, rendered at place 0. -/
def hudVram : HudElements := { hud0 with ordered_functions := [(Action.graphs, "vram")] }

/-- A Linux build without an active GPU, with one sample in the history. -/
def globalsNoGpu : Globals :=
  { linux := true, graph_data := [sampleVram], g_active_gpu := none, memmax := 0,
    batt_count := 0 }

/-- A sample with the CPU temperature `t` and zeros elsewhere. -/
def sampleTemp (t : Int) : logData :=
  { cpu_load := 0, gpu_load := 0, cpu_temp := t, gpu_temp := 0, gpu_core_clock := 0,
    gpu_mem_clock := 0, gpu_vram_used := 0, ram_used := 0 }

/-- Sixty samples: 90 degrees first, then 59 times 40 degrees. -/
def samples60 : List logData := sampleTemp 90 :: List.replicate 59 (sampleTemp 40)

/-- An object whose plan is a single "cpu_temp" graph, rendered at place 0. -/
def hudTemp : HudElements := { hud0 with ordered_functions := [(Action.graphs, "cpu_temp")] }

/-! ## Rounding to `float`: general facts -/

theorem bitLength_zero (fuel : Nat) : bitLength fuel 0 = 0 := by
  cases fuel <;> simp [bitLength]

theorem bitLength_spec (fuel : Nat) : ∀ n, 0 < n → n ≤ fuel →
    2 ^ bitLength fuel n ≤ 2 * n ∧ n < 2 ^ bitLength fuel n := by
  induction fuel with
  | zero => intro n h0 h1; omega
  | succ fuel ih =>
    intro n h0 h1
    unfold bitLength
    rw [if_neg (by omega)]
    by_cases h2 : n / 2 = 0
    · rw [h2, bitLength_zero]
      have : n = 1 := by omega
      subst this
      simp
    · obtain ⟨ha, hb⟩ := ih (n / 2) (by omega) (by omega)
      rw [pow_succ]
      constructor <;> omega

theorem binade_spec (q : ℚ) (hq : 0 < q) :
    (2 : ℚ) ^ binade q ≤ q ∧ q < 2 ^ (binade q + 1) := by
  have hn : 0 < q.num := Rat.num_pos.mpr hq
  have hnat : 0 < q.num.natAbs := Int.natAbs_pos.mpr (ne_of_gt hn)
  obtain ⟨ha, hb⟩ := bitLength_spec q.num.natAbs q.num.natAbs hnat le_rfl
  obtain ⟨hc, hd⟩ := bitLength_spec q.den q.den q.den_pos le_rfl
  have hqn : q = (q.num.natAbs : ℚ) / (q.den : ℚ) := by
    rw [Nat.cast_natAbs, abs_of_pos hn]
    exact (Rat.num_div_den q).symm
  have hdpos : (0 : ℚ) < q.den := by exact_mod_cast q.den_pos
  unfold binade
  generalize bitLength q.num.natAbs q.num.natAbs = a at ha hb ⊢
  generalize bitLength q.den q.den = b at hc hd ⊢
  generalize q.num.natAbs = n at ha hb hqn hnat
  generalize q.den = d at hc hd hqn hdpos
  have hA : (2 : ℚ) ^ a ≤ 2 * n := by exact_mod_cast ha
  have hA2 : (n : ℚ) < 2 ^ a := by exact_mod_cast hb
  have hB : (2 : ℚ) ^ b ≤ 2 * d := by exact_mod_cast hc
  have hB2 : (d : ℚ) < 2 ^ b := by exact_mod_cast hd
  have hBpos : (0 : ℚ) < 2 ^ b := by positivity
  have hApos : (0 : ℚ) < 2 ^ a := by positivity
  have hnpos : (0 : ℚ) < n := by exact_mod_cast hnat
  have e0 : (2 : ℚ) ^ ((a : ℤ) - b) = 2 ^ a / 2 ^ b := by
    rw [zpow_sub₀ (by norm_num), zpow_natCast, zpow_natCast]
  have e1 : (2 : ℚ) ^ ((a : ℤ) - b - 1) = 2 ^ a / (2 * 2 ^ b) := by
    rw [zpow_sub₀ (by norm_num), e0, zpow_one, div_div, mul_comm]
  have e2 : (2 : ℚ) ^ ((a : ℤ) - b + 1) = 2 * 2 ^ a / 2 ^ b := by
    rw [zpow_add₀ (by norm_num), e0, zpow_one]
    ring
  split
  · rename_i hlt
    refine ⟨?_, by rw [sub_add_cancel]; exact hlt⟩
    rw [e1, hqn, div_le_div_iff₀ (by positivity) hdpos]
    nlinarith
  · rename_i hge
    refine ⟨le_of_not_lt hge, ?_⟩
    rw [e2, hqn, div_lt_div_iff₀ hdpos hBpos]
    nlinarith

theorem binade_unique (q : ℚ) (e : Int) (h1 : (2 : ℚ) ^ e ≤ q) (h2 : q < 2 ^ (e + 1)) :
    binade q = e := by
  have hq : 0 < q := lt_of_lt_of_le (zpow_pos (by norm_num) e) h1
  obtain ⟨h3, h4⟩ := binade_spec q hq
  have ha : e < binade q + 1 :=
    (zpow_lt_zpow_iff_right₀ (by norm_num : (1 : ℚ) < 2)).mp (lt_of_le_of_lt h1 h4)
  have hb : binade q < e + 1 :=
    (zpow_lt_zpow_iff_right₀ (by norm_num : (1 : ℚ) < 2)).mp (lt_of_le_of_lt h3 h2)
  omega

theorem binade_mul_zpow (q : ℚ) (hq : 0 < q) (k : Int) :
    binade (q * 2 ^ k) = binade q + k := by
  obtain ⟨h1, h2⟩ := binade_spec q hq
  have hk : (0 : ℚ) < 2 ^ k := zpow_pos (by norm_num) k
  apply binade_unique
  · rw [zpow_add₀ (by norm_num)]
    exact mul_le_mul_of_nonneg_right h1 (le_of_lt hk)
  · rw [show binade q + k + 1 = (binade q + 1) + k by ring, zpow_add₀ (by norm_num)]
    exact mul_lt_mul_of_pos_right h2 hk

theorem roundEven_intCast (n : Int) : roundEven (n : ℚ) = n := by
  unfold roundEven
  simp

theorem roundEven_bounds (x : ℚ) : (⌊x⌋ : Int) ≤ roundEven x ∧ roundEven x ≤ ⌊x⌋ + 1 := by
  unfold roundEven
  split_ifs <;> constructor <;> omega

theorem roundEven_ge (x : ℚ) (a : Int) (h : (a : ℚ) ≤ x) : a ≤ roundEven x :=
  le_trans (Int.le_floor.mpr h) (roundEven_bounds x).1

theorem roundEven_le (x : ℚ) (b : Int) (h : x ≤ (b : ℚ)) : roundEven x ≤ b := by
  by_cases hx : x = (b : ℚ)
  · rw [hx, roundEven_intCast]
  · have hlt : x < (b : ℚ) := lt_of_le_of_ne h hx
    have : ⌊x⌋ < b := Int.floor_lt.mpr hlt
    have := (roundEven_bounds x).2
    omega

theorem roundEven_error (x : ℚ) : |(roundEven x : ℚ) - x| ≤ 1 / 2 := by
  have h1 := Int.floor_le x
  have h2 := Int.lt_floor_add_one x
  unfold roundEven
  split_ifs with ha hb hc
  · rw [abs_le]; constructor <;> linarith
  · push_cast; rw [abs_le]; constructor <;> linarith
  · have : x - ⌊x⌋ = 1 / 2 := le_antisymm (not_lt.mp hb) (not_lt.mp ha)
    rw [abs_le]; constructor <;> linarith
  · have : x - ⌊x⌋ = 1 / 2 := le_antisymm (not_lt.mp hb) (not_lt.mp ha)
    push_cast; rw [abs_le]; constructor <;> linarith

theorem f32_zero : f32 0 = 0 := by simp [f32]

theorem f32_mul_zpow (q : ℚ) (k : Int) : f32 (q * 2 ^ k) = f32 q * 2 ^ k := by
  by_cases hq : q = 0
  · simp [hq, f32]
  · have hk : (2 : ℚ) ^ k ≠ 0 := zpow_ne_zero k (by norm_num)
    have hkpos : (0 : ℚ) < 2 ^ k := zpow_pos (by norm_num) k
    have habs : |q * 2 ^ k| = |q| * 2 ^ k := by rw [abs_mul, abs_of_pos hkpos]
    unfold f32
    rw [if_neg (mul_ne_zero hq hk), if_neg hq, habs, binade_mul_zpow _ (abs_pos.mpr hq)]
    have e1 : q * 2 ^ k * 2 ^ (23 - (binade |q| + k)) = q * 2 ^ (23 - binade |q|) := by
      rw [mul_assoc, ← zpow_add₀ (by norm_num)]
      congr 2
      ring
    have e2 : (2 : ℚ) ^ (binade |q| + k - 23) = 2 ^ (binade |q| - 23) * 2 ^ k := by
      rw [← zpow_add₀ (by norm_num)]
      congr 1
      ring
    rw [e1, e2, mul_assoc]

/-- A number with a significand of 24 binary digits is its own rounding. -/
theorem f32_normal (m e : Int) (h1 : 2 ^ 23 ≤ |m|) (h2 : |m| < 2 ^ 24) :
    f32 ((m : ℚ) * 2 ^ e) = (m : ℚ) * 2 ^ e := by
  rw [f32_mul_zpow]
  congr 1
  have hm : (m : ℚ) ≠ 0 := by
    intro h
    have : m = 0 := by exact_mod_cast h
    rw [this] at h1
    norm_num at h1
  have hb : binade |(m : ℚ)| = 23 := by
    apply binade_unique
    · have : ((2 ^ 23 : Int) : ℚ) ≤ ((|m| : Int) : ℚ) := by exact_mod_cast h1
      rw [Int.cast_abs] at this
      norm_num at this ⊢
      exact this
    · have : ((|m| : Int) : ℚ) < ((2 ^ 24 : Int) : ℚ) := by exact_mod_cast h2
      rw [Int.cast_abs] at this
      norm_num at this ⊢
      exact this
  unfold f32
  rw [if_neg hm, hb]
  simp [roundEven_intCast]

/-- The significand that `f32` gives a positive number. -/
theorem f32_significand (q : ℚ) (hq : 0 < q) :
    f32 q = (roundEven (q * 2 ^ (23 - binade q)) : ℚ) * 2 ^ (binade q - 23) ∧
      2 ^ 23 ≤ roundEven (q * 2 ^ (23 - binade q)) ∧
      roundEven (q * 2 ^ (23 - binade q)) ≤ 2 ^ 24 := by
  obtain ⟨h1, h2⟩ := binade_spec q hq
  have hs : (0 : ℚ) < 2 ^ (23 - binade q) := zpow_pos (by norm_num) _
  have hx1 : (2 : ℚ) ^ (23 : Int) ≤ q * 2 ^ (23 - binade q) := by
    calc (2 : ℚ) ^ (23 : Int) = 2 ^ binade q * 2 ^ (23 - binade q) := by
          rw [← zpow_add₀ (by norm_num)]; congr 1; ring
      _ ≤ q * 2 ^ (23 - binade q) := mul_le_mul_of_nonneg_right h1 (le_of_lt hs)
  have hx2 : q * 2 ^ (23 - binade q) < (2 : ℚ) ^ (24 : Int) := by
    calc q * 2 ^ (23 - binade q) < 2 ^ (binade q + 1) * 2 ^ (23 - binade q) :=
          mul_lt_mul_of_pos_right h2 hs
      _ = (2 : ℚ) ^ (24 : Int) := by
          rw [← zpow_add₀ (by norm_num)]; congr 1; ring
  refine ⟨?_, ?_, ?_⟩
  · unfold f32
    rw [if_neg (ne_of_gt hq), abs_of_pos hq]
  · apply roundEven_ge
    norm_num at hx1 ⊢
    exact hx1
  · apply roundEven_le
    norm_num at hx2 ⊢
    exact le_of_lt hx2

/-- Rounding twice is rounding once. -/
theorem f32_idem (q : ℚ) (hq : 0 ≤ q) : f32 (f32 q) = f32 q := by
  rcases eq_or_lt_of_le hq with h0 | hpos
  · rw [← h0, f32_zero, f32_zero]
  · obtain ⟨hf, hlo, hhi⟩ := f32_significand q hpos
    rw [hf]
    generalize roundEven (q * 2 ^ (23 - binade q)) = r at hlo hhi
    rcases eq_or_lt_of_le hhi with h24 | hlt
    · have e : ((r : ℚ)) * 2 ^ (binade q - 23) = ((2 ^ 23 : Int) : ℚ) * 2 ^ (binade q - 22) := by
        rw [h24, show binade q - 22 = (binade q - 23) + 1 by ring, zpow_add₀ (by norm_num)]
        push_cast
        ring
      rw [e]
      exact f32_normal _ _ (by norm_num) (by norm_num)
    · exact f32_normal r _ (by rw [abs_of_nonneg (by omega)]; exact hlo)
        (by rw [abs_of_nonneg (by omega)]; exact hlt)

/-- Rounding does not cross a power of two. -/
theorem f32_le_zpow (q : ℚ) (k : Int) (hq : 0 ≤ q) (hk : q < 2 ^ k) : f32 q ≤ 2 ^ k := by
  rcases eq_or_lt_of_le hq with h0 | hpos
  · rw [← h0, f32_zero]
    exact le_of_lt (zpow_pos (by norm_num) k)
  · obtain ⟨hf, _, hhi⟩ := f32_significand q hpos
    obtain ⟨h1, _⟩ := binade_spec q hpos
    have hlt : binade q < k :=
      (zpow_lt_zpow_iff_right₀ (by norm_num : (1 : ℚ) < 2)).mp (lt_of_le_of_lt h1 hk)
    have hr : (roundEven (q * 2 ^ (23 - binade q)) : ℚ) ≤ 2 ^ (24 : Int) := by
      have : (roundEven (q * 2 ^ (23 - binade q)) : ℚ) ≤ ((2 ^ 24 : Int) : ℚ) := by
        exact_mod_cast hhi
      norm_num at this ⊢
      exact this
    rw [hf]
    calc (roundEven (q * 2 ^ (23 - binade q)) : ℚ) * 2 ^ (binade q - 23)
        ≤ 2 ^ (24 : Int) * 2 ^ (binade q - 23) :=
          mul_le_mul_of_nonneg_right hr (le_of_lt (zpow_pos (by norm_num) _))
      _ = 2 ^ (binade q + 1) := by
          rw [← zpow_add₀ (by norm_num)]; congr 1; ring
      _ ≤ 2 ^ k := zpow_le_zpow_right₀ (by norm_num) (by omega)

/-- The rounding error is at most `2 ^ (-24)` of the number. -/
theorem f32_error (q : ℚ) (hq : 0 ≤ q) : |f32 q - q| ≤ q / 2 ^ 24 := by
  rcases eq_or_lt_of_le hq with h0 | hpos
  · rw [← h0, f32_zero]; simp
  · obtain ⟨hf, _, _⟩ := f32_significand q hpos
    obtain ⟨h1, _⟩ := binade_spec q hpos
    have hs : (0 : ℚ) < 2 ^ (binade q - 23) := zpow_pos (by norm_num) _
    have hq2 : q = q * 2 ^ (23 - binade q) * 2 ^ (binade q - 23) := by
      rw [mul_assoc, ← zpow_add₀ (by norm_num)]
      simp
    have he := roundEven_error (q * 2 ^ (23 - binade q))
    have e : f32 q - q =
        ((roundEven (q * 2 ^ (23 - binade q)) : ℚ) - q * 2 ^ (23 - binade q)) *
          2 ^ (binade q - 23) := by
      rw [hf, sub_mul, ← hq2]
    rw [e, abs_mul, abs_of_pos hs]
    calc |(roundEven (q * 2 ^ (23 - binade q)) : ℚ) - q * 2 ^ (23 - binade q)| *
          2 ^ (binade q - 23) ≤ 1 / 2 * 2 ^ (binade q - 23) :=
          mul_le_mul_of_nonneg_right he (le_of_lt hs)
      _ = 2 ^ binade q / 2 ^ 24 := by
          rw [zpow_sub₀ (by norm_num)]
          norm_num
          ring
      _ ≤ q / 2 ^ 24 := by
          apply div_le_div_of_nonneg_right h1
          positivity

/-- A natural number below `2 ^ 24` is a `float`. -/
theorem f32_natCast (v : Nat) (hv : v < 2 ^ 24) : f32 (v : ℚ) = v := by
  rcases Nat.eq_zero_or_pos v with h0 | hpos
  · rw [h0]; simp [f32_zero]
  · have hq : (0 : ℚ) < v := by exact_mod_cast hpos
    obtain ⟨h1, h2⟩ := binade_spec (v : ℚ) hq
    have hlt : binade (v : ℚ) < 24 := by
      have : (v : ℚ) < 2 ^ (24 : Int) := by
        have : (v : ℚ) < ((2 ^ 24 : Nat) : ℚ) := by exact_mod_cast hv
        norm_num at this ⊢
        exact this
      exact (zpow_lt_zpow_iff_right₀ (by norm_num : (1 : ℚ) < 2)).mp (lt_of_le_of_lt h1 this)
    obtain ⟨j, hj⟩ : ∃ j : Nat, 23 - binade (v : ℚ) = j := ⟨(23 - binade (v : ℚ)).toNat, by omega⟩
    have hx : (v : ℚ) * 2 ^ (23 - binade (v : ℚ)) = (((v * 2 ^ j : Nat) : Int) : ℚ) := by
      rw [hj, zpow_natCast]
      push_cast
      ring
    obtain ⟨hf, _, _⟩ := f32_significand (v : ℚ) hq
    rw [hf, hx, roundEven_intCast, ← hx, mul_assoc, ← zpow_add₀ (by norm_num)]
    simp

/-- Known values of the rounding: one tenth, one third, the two ties
`2 ^ 24 + 1` and `2 ^ 24 + 3`, which go to the even significand, and a negative
number. -/
theorem f32_examples :
    f32 (1 / 10) = 13421773 / 134217728 ∧ f32 (1 / 3) = 11184811 / 33554432 ∧
      f32 16777217 = 16777216 ∧ f32 16777219 = 16777220 ∧ f32 (-5 / 2) = -5 / 2 ∧
      f32 (53 / 100) = 8891924 / 16777216 := by
  refine ⟨by decide!, by decide!, by decide!, by decide!, by decide!, by decide!⟩

/-! ## `numBattery` and `getPercent` in closed form -/

theorem numBattery_fold (entries : List String) (n : Nat) (s : BatteryStats) :
    entries.foldl numBatteryStep (n, s) =
      (n + (entries.filter isBattery).length,
        { s with battPath := s.battPath ++ (entries.filter isBattery).map (powerSupply ++ ·) }) := by
  induction entries generalizing n s with
  | nil => simp
  | cons e es ih =>
    rw [List.foldl_cons, numBatteryStep]
    by_cases h : isBattery e = true
    · simp [h, ih, Nat.add_comm, Nat.add_left_comm]
    · simp [h, ih]

theorem numBattery_eq (sys : Sys) (s : BatteryStats) :
    numBattery sys s =
      ((batteries sys).length, { s with battPath := s.battPath ++ batteries sys }) := by
  unfold numBattery batteries
  cases sys.root with
  | none => simp
  | some entries => simp [numBattery_fold]

theorem percentLoop_eq (sys : Sys) (bp : List String) (todo : Nat) :
    ∀ (i : Nat) (acc : ℚ × ℚ), i + todo ≤ bp.length →
      percentLoop sys bp i todo acc = percentPaths sys ((bp.drop i).take todo) acc := by
  induction todo with
  | zero => intro i acc _; simp [percentLoop, percentPaths]
  | succ k ih =>
    intro i acc h
    have hi : i < bp.length := by omega
    rw [List.drop_eq_getElem_cons hi, List.take_succ_cons]
    simp only [percentLoop, percentPaths, List.getElem?_eq_getElem hi]
    simp only [Option.bind_eq_bind, Option.some_bind]
    congr 1
    funext a
    exact ih (i + 1) a (by omega)

theorem copies_take (l : List String) (k : Nat) :
    (copies l k ++ l).take l.length = l := by
  cases k with
  | zero => simp [copies]
  | succ k => simp [copies, List.append_assoc, List.take_append_of_le_length]

theorem fresh_synced (sys : Sys) : Synced sys fresh := ⟨0, rfl⟩

theorem copies_succ (l : List String) (k : Nat) : copies l (k + 1) = copies l k ++ l := by
  induction k with
  | zero => simp [copies]
  | succ k ih =>
    calc copies l (k + 2) = l ++ copies l (k + 1) := rfl
      _ = l ++ (copies l k ++ l) := by rw [ih]
      _ = (l ++ copies l k) ++ l := by rw [List.append_assoc]
      _ = copies l (k + 1) ++ l := rfl

/-- Every scan keeps the object in step with the directory. -/
theorem synced_numBattery (sys : Sys) (s : BatteryStats) (hs : Synced sys s) :
    Synced sys (numBattery sys s).2 := by
  obtain ⟨k, hk⟩ := hs
  exact ⟨k + 1, by rw [numBattery_eq, copies_succ, ← hk]⟩

theorem getPercent_eq (sys : Sys) (s : BatteryStats) (hs : Synced sys s) :
    getPercent sys s =
      (percentPaths sys (batteries sys) (0, 0)).map fun acc =>
        (percentOf acc, { s with battPath := s.battPath ++ batteries sys }) := by
  obtain ⟨k, hk⟩ := hs
  unfold getPercent
  rw [numBattery_eq]
  simp only
  rw [percentLoop_eq _ _ _ _ _ (by simp), hk]
  simp [copies_take]

theorem percentPaths_charge (sys : Sys) (ps : List String)
    (hdev : ∀ p ∈ ps, Readable sys (p ++ "/charge_now") ∧ Readable sys (p ++ "/charge_full")) :
    ∀ acc : ℚ × ℚ, percentPaths sys ps acc =
      some (acc.1 + (ps.map fun p => numberAt sys (p ++ "/charge_now")).sum / 1000000,
        acc.2 + (ps.map fun p => numberAt sys (p ++ "/charge_full")).sum / 1000000) := by
  induction ps with
  | nil => intro acc; simp [percentPaths]
  | cons p ps ih =>
    intro acc
    obtain ⟨⟨ln, vn, hn, hvn⟩, ⟨lf, vf, hf, hvf⟩⟩ := hdev p (List.mem_cons_self p ps)
    have ih1 := ih (fun q hq => hdev q (List.mem_cons_of_mem p hq))
    simp only [percentPaths, percentBody, hn, hf, File.present, addReading, File.getline, hvn, hvf,
      if_true, Option.bind_eq_bind, Option.some_bind, ih1, List.map_cons, List.sum_cons, numberAt,
      Option.getD_some]
    congr 2 <;> ring

/-- What `fullCharge` computes: both recorded slots read "Full". -/
theorem fullCharge_iff (s : BatteryStats) :
    fullCharge s = true ↔ s.state0 = "Full" ∧ s.state1 = "Full" := by
  unfold fullCharge BatteryStats.stateAt
  by_cases h0 : s.state0 = "Full" <;> by_cases h1 : s.state1 = "Full" <;> simp [h0, h1]

/-! ## `getPercent` with `float` rounding in closed form -/

theorem percentLoop32_eq (sys : Sys) (bp : List String) (todo : Nat) :
    ∀ (i : Nat) (acc : ℚ × ℚ), i + todo ≤ bp.length →
      percentLoop32 sys bp i todo acc = percentPaths32 sys ((bp.drop i).take todo) acc := by
  induction todo with
  | zero => intro i acc _; simp [percentLoop32, percentPaths32]
  | succ k ih =>
    intro i acc h
    have hi : i < bp.length := by omega
    rw [List.drop_eq_getElem_cons hi, List.take_succ_cons]
    simp only [percentLoop32, percentPaths32, List.getElem?_eq_getElem hi]
    simp only [Option.bind_eq_bind, Option.some_bind]
    congr 1
    funext a
    exact ih (i + 1) a (by omega)

theorem getPercent32_eq (sys : Sys) (s : BatteryStats) (hs : Synced sys s) :
    getPercent32 sys s =
      (percentPaths32 sys (batteries sys) (0, 0)).map fun acc =>
        (percentOf32 acc, { s with battPath := s.battPath ++ batteries sys }) := by
  obtain ⟨k, hk⟩ := hs
  unfold getPercent32
  rw [numBattery_eq]
  simp only
  rw [percentLoop32_eq _ _ _ _ _ (by simp), hk]
  simp [copies_take]

/-- The `float` computation for an integer percentage, value by value. -/
theorem capacityShown_eq : ∀ c : Nat, c ≤ 100 →
    f32 (f32 (f32 (0 + f32 (f32 (c : ℚ) / 100)) / 1) * 100) = capacityShown c := by
  decide!

/-! ## `isCharging` in closed form -/

theorem statusOf_idem (sys : Sys) (p old : String) :
    statusOf sys p (statusOf sys p old) = statusOf sys p old := by
  unfold statusOf
  cases (sys.file (p ++ "/status")).getline <;> rfl

theorem isCharging_none (sys : Sys) (s : BatteryStats) (h : batteries sys = []) :
    isCharging sys s = some (false, s) := by
  unfold isCharging
  rw [numBattery_eq]
  simp [h]

theorem isCharging_two (sys : Sys) (s : BatteryStats) (p0 p1 : String)
    (hn : batteries sys ≠ []) (h0 : slotPath sys s 0 = some p0) (h1 : slotPath sys s 1 = some p1) :
    isCharging sys s =
      some (decide (statusOf sys p0 s.state0 = "Charging" ∨ statusOf sys p1 s.state1 = "Charging"),
        refreshed sys p0 p1 s) := by
  unfold slotPath at h0 h1
  have hpos : 0 < (batteries sys).length := List.length_pos.mpr hn
  unfold isCharging
  rw [numBattery_eq]
  simp only [gt_iff_lt, hpos, if_true, statusStep, h0]
  cases hg0 : (sys.file (p0 ++ "/status")).getline with
  | none =>
    simp only [Option.bind_eq_bind, Option.some_bind, h1]
    cases hg1 : (sys.file (p1 ++ "/status")).getline with
    | none =>
      simp only [Option.some_bind, BatteryStats.stateAt, refreshed, statusOf, hg0, hg1]
      by_cases c0 : s.state0 = "Charging" <;> by_cases c1 : s.state1 = "Charging" <;>
        simp [c0, c1]
    | some l1 =>
      simp only [Option.some_bind, BatteryStats.stateAt, BatteryStats.record, refreshed, statusOf,
        hg0, hg1]
      by_cases c0 : s.state0 = "Charging" <;> by_cases c1 : l1.text = "Charging" <;>
        simp [c0, c1]
  | some l0 =>
    simp only [Option.bind_eq_bind, Option.some_bind, BatteryStats.record, if_true, h1]
    cases hg1 : (sys.file (p1 ++ "/status")).getline with
    | none =>
      simp only [Option.some_bind, BatteryStats.stateAt, refreshed, statusOf, hg0, hg1]
      by_cases c0 : l0.text = "Charging" <;> by_cases c1 : s.state1 = "Charging" <;>
        simp [c0, c1]
    | some l1 =>
      simp only [Option.some_bind, BatteryStats.stateAt, BatteryStats.record, refreshed, statusOf,
        hg0, hg1]
      by_cases c0 : l0.text = "Charging" <;> by_cases c1 : l1.text = "Charging" <;>
        simp [c0, c1]

theorem reading_eq (sys : Sys) (path : String) (h : Parses sys path) :
    reading (sys.file path) = some (numberAt sys path / 1000000) := by
  unfold reading numberAt
  cases hg : (sys.file path).getline with
  | none => simp
  | some l =>
    obtain ⟨v, hv⟩ := h l hg
    simp [hv]

/-! ## `getPower`, `getPercent` and `update` in closed form -/

theorem getElem?_append_some {l m : List String} {i : Nat} {q : String}
    (h : l[i]? = some q) : (l ++ m)[i]? = some q := by
  have hi : i < l.length := by
    by_contra hc
    rw [List.getElem?_eq_none (by omega)] at h
    cases h
  rw [List.getElem?_append_left hi, h]

theorem numBattery_grow (sys : Sys) (s : BatteryStats) :
    numBattery sys s = ((batteries sys).length, grow sys s) := numBattery_eq sys s

theorem chargingFlag_refreshed (sys : Sys) (q0 q1 : String) (t : BatteryStats) :
    chargingFlag sys q0 q1 (refreshed sys q0 q1 t) = chargingFlag sys q0 q1 t := by
  simp [chargingFlag, refreshed, statusOf_idem]

theorem getPercent_closed (sys : Sys) (t : BatteryStats)
    (hlen : (batteries sys).length ≤ t.battPath.length) :
    getPercent sys t =
      (percentPaths sys (t.battPath.take (batteries sys).length) (0, 0)).map fun acc =>
        (percentOf acc, grow sys t) := by
  unfold getPercent
  rw [numBattery_eq]
  simp only
  rw [percentLoop_eq _ _ _ _ _ (by simp), List.drop_zero, List.take_append_of_le_length hlen]
  rfl

theorem isCharging_slots (sys : Sys) (s : BatteryStats) (hn : batteries sys ≠ [])
    (r : Bool × BatteryStats) (hr : isCharging sys s = some r) :
    ∃ p0 p1, slotPath sys s 0 = some p0 ∧ slotPath sys s 1 = some p1 := by
  have hpos : 0 < (batteries sys).length := List.length_pos.mpr hn
  unfold isCharging at hr
  rw [numBattery_eq] at hr
  simp only [gt_iff_lt, hpos, if_true, statusStep] at hr
  cases h0 : (s.battPath ++ batteries sys)[0]? with
  | none => simp [h0] at hr
  | some p0 =>
    cases h1 : (s.battPath ++ batteries sys)[1]? with
    | none =>
      exfalso
      cases hg : (sys.file (p0 ++ "/status")).getline <;>
        simp [h0, h1, hg, BatteryStats.record] at hr
    | some p1 => exact ⟨p0, p1, h0, h1⟩

theorem update_other (sys : Sys) (s : BatteryStats)
    (hn : (batteries sys).length = 0 ∨ 3 ≤ (batteries sys).length) :
    ∃ s1, update sys s = some s1 ∧ s1.current_watt = s.current_watt ∧
      s1.current_percent = s.current_percent := by
  unfold update
  simp only [numBattery_grow]
  rcases hn with h0 | h3
  · exact ⟨grow sys s, by simp [h0], rfl, rfl⟩
  · refine ⟨grow sys (grow sys (grow sys s)), ?_, rfl, rfl⟩
    have h1 : ¬ (batteries sys).length = 1 := by omega
    have h2 : ¬ (batteries sys).length = 2 := by omega
    have hp : (batteries sys).length > 0 := by omega
    simp [h1, h2, hp]

/-! ## The loop body of `getPercent` per scheme -/

theorem addReading_eq (sys : Sys) (path : String) (d acc : ℚ) (h : Parses sys path) :
    addReading (sys.file path) d acc = some (acc + numberAt sys path / d) := by
  unfold addReading numberAt
  cases hg : (sys.file path).getline with
  | none => simp
  | some l =>
    obtain ⟨v, hv⟩ := h l hg
    simp [hv]

theorem parses_missing (sys : Sys) (path : String) (h : (sys.file path).present = false) :
    Parses sys path := by
  intro l hl
  cases hf : sys.file path with
  | missing => rw [hf] at hl; simp [File.getline] at hl
  | noLine => rw [hf] at h; simp [File.present] at h
  | line l1 => rw [hf] at h; simp [File.present] at h

theorem not_parses (sys : Sys) (path : String) (h : ¬ Parses sys path) :
    ∃ l, (sys.file path).getline = some l ∧ l.stof = none := by
  unfold Parses at h
  push_neg at h
  obtain ⟨l, hl, hv⟩ := h
  refine ⟨l, hl, ?_⟩
  cases hst : l.stof with
  | none => rfl
  | some v => exact absurd hst (hv v)

theorem addReading_none (sys : Sys) (path : String) (d acc : ℚ) (h : ¬ Parses sys path) :
    addReading (sys.file path) d acc = none := by
  obtain ⟨l, hl, hs⟩ := not_parses sys path h
  simp [addReading, hl, hs]

theorem reading_none (sys : Sys) (path : String) (h : ¬ Parses sys path) :
    reading (sys.file path) = none := by
  obtain ⟨l, hl, hs⟩ := not_parses sys path h
  simp [reading, hl, hs]

theorem levelParses_iff (sys : Sys) (p : String) :
    LevelParses sys p ↔
      match schemeOf sys p with
      | .chargeBased => Parses sys (p ++ "/charge_now") ∧ Parses sys (p ++ "/charge_full")
      | .energyBased => Parses sys (p ++ "/energy_now") ∧ Parses sys (p ++ "/energy_full")
      | .capacityOnly => Parses sys (p ++ "/capacity") := by
  unfold LevelParses levelFiles schemeOf
  by_cases hc : (sys.file (p ++ "/charge_now")).present = true
  · simp [hc]
  · have hc2 : (sys.file (p ++ "/charge_now")).present = false := by simpa using hc
    have hpc := parses_missing sys _ hc2
    by_cases he : (sys.file (p ++ "/energy_now")).present = true
    · simp [hc, he, hpc]
    · have he2 : (sys.file (p ++ "/energy_now")).present = false := by simpa using he
      have hpe := parses_missing sys _ he2
      simp [hc, he, hpc, hpe]

theorem percentBody_level (sys : Sys) (p : String) (acc : ℚ × ℚ) (h : LevelParses sys p) :
    percentBody sys p acc = some (contribution sys p acc) := by
  rw [levelParses_iff] at h
  unfold percentBody contribution
  unfold schemeOf at h ⊢
  by_cases hc : (sys.file (p ++ "/charge_now")).present = true
  · simp only [hc, if_true] at h ⊢
    rw [addReading_eq sys _ _ _ h.1, addReading_eq sys _ _ _ h.2]
    rfl
  · by_cases he : (sys.file (p ++ "/energy_now")).present = true
    · simp only [hc, he, if_true, if_false] at h ⊢
      rw [addReading_eq sys _ _ _ h.1, addReading_eq sys _ _ _ h.2]
      rfl
    · simp only [hc, he, if_false] at h ⊢
      cases hg : (sys.file (p ++ "/capacity")).getline with
      | none => simp
      | some l =>
        obtain ⟨v, hv⟩ := h l hg
        simp [hv, numberAt, hg]

theorem percentBody_raises (sys : Sys) (p : String) (acc : ℚ × ℚ) (h : ¬ LevelParses sys p) :
    percentBody sys p acc = none := by
  rw [levelParses_iff] at h
  unfold percentBody
  unfold schemeOf at h
  by_cases hc : (sys.file (p ++ "/charge_now")).present = true
  · simp only [hc, if_true] at h ⊢
    by_cases h1 : Parses sys (p ++ "/charge_now")
    · have h2 : ¬ Parses sys (p ++ "/charge_full") := fun h2 => h ⟨h1, h2⟩
      rw [addReading_eq sys _ _ _ h1, addReading_none sys _ _ _ h2]
      rfl
    · rw [addReading_none sys _ _ _ h1]
      rfl
  · by_cases he : (sys.file (p ++ "/energy_now")).present = true
    · simp only [hc, he, if_true, if_false] at h ⊢
      by_cases h1 : Parses sys (p ++ "/energy_now")
      · have h2 : ¬ Parses sys (p ++ "/energy_full") := fun h2 => h ⟨h1, h2⟩
        rw [addReading_eq sys _ _ _ h1, addReading_none sys _ _ _ h2]
        rfl
      · rw [addReading_none sys _ _ _ h1]
        rfl
    · simp only [hc, he, if_false] at h ⊢
      obtain ⟨l, hl, hs⟩ := not_parses sys _ h
      simp [hl, hs]

theorem percentBody_congr (sys sys' : Sys) (p : String) (acc : ℚ × ℚ)
    (h : ∀ name ∈ levelFiles sys p, sys'.file (p ++ name) = sys.file (p ++ name)) :
    percentBody sys' p acc = percentBody sys p acc := by
  unfold percentBody
  by_cases hc : (sys.file (p ++ "/charge_now")).present = true
  · have h1 := h "/charge_now" (by simp [levelFiles, schemeOf, hc])
    have h2 := h "/charge_full" (by simp [levelFiles, schemeOf, hc])
    simp only [h1, h2, hc, if_true]
  · by_cases he : (sys.file (p ++ "/energy_now")).present = true
    · have h1 := h "/charge_now" (by simp [levelFiles, schemeOf, hc, he])
      have h2 := h "/energy_now" (by simp [levelFiles, schemeOf, hc, he])
      have h3 := h "/energy_full" (by simp [levelFiles, schemeOf, hc, he])
      simp only [h1, h2, h3, hc, he, if_true, if_false, Bool.false_eq_true]
    · have h1 := h "/charge_now" (by simp [levelFiles, schemeOf, hc, he])
      have h2 := h "/energy_now" (by simp [levelFiles, schemeOf, hc, he])
      have h3 := h "/capacity" (by simp [levelFiles, schemeOf, hc, he])
      simp only [h1, h2, h3, hc, he, if_false, Bool.false_eq_true]

theorem powerParses_iff (sys : Sys) (p : String) :
    PowerParses sys p ↔
      if (sys.file (p ++ "/current_now")).present then
        Parses sys (p ++ "/current_now") ∧ Parses sys (p ++ "/voltage_now")
      else Parses sys (p ++ "/power_now") := by
  unfold PowerParses powerFiles
  by_cases hc : (sys.file (p ++ "/current_now")).present = true
  · simp [hc]
  · have hc2 : (sys.file (p ++ "/current_now")).present = false := by simpa using hc
    have hpc := parses_missing sys _ hc2
    simp [hc, hpc]

theorem wattage_some (sys : Sys) (p : String) (h : PowerParses sys p) :
    wattage sys p = some (powerOf sys p) := by
  rw [powerParses_iff] at h
  unfold wattage powerOf
  by_cases hc : (sys.file (p ++ "/current_now")).present = true
  · simp only [hc, if_true] at h ⊢
    rw [reading_eq sys _ h.1, reading_eq sys _ h.2]
    rfl
  · simp only [hc, if_false, Bool.false_eq_true] at h ⊢
    rw [reading_eq sys _ h]

theorem wattage_none (sys : Sys) (p : String) (h : ¬ PowerParses sys p) :
    wattage sys p = none := by
  rw [powerParses_iff] at h
  unfold wattage
  by_cases hc : (sys.file (p ++ "/current_now")).present = true
  · simp only [hc, if_true] at h ⊢
    by_cases h1 : Parses sys (p ++ "/current_now")
    · have h2 : ¬ Parses sys (p ++ "/voltage_now") := fun h2 => h ⟨h1, h2⟩
      rw [reading_eq sys _ h1, reading_none sys _ h2]
      rfl
    · rw [reading_none sys _ h1]
      rfl
  · simp only [hc, if_false, Bool.false_eq_true] at h ⊢
    rw [reading_none sys _ h]

theorem getPower_open (sys : Sys) (i : Nat) (s s1 : BatteryStats) (p : String)
    (hp : s.battPath[i]? = some p) (h : isCharging sys s = some (false, s1)) :
    getPower sys i s = (wattage sys p).map fun w => (w, s1) := by
  unfold getPower wattage
  rw [hp, h]
  by_cases hc : (sys.file (p ++ "/current_now")).present = true
  · simp only [hc, if_true]
    cases reading (sys.file (p ++ "/current_now")) with
    | none => rfl
    | some c =>
      cases reading (sys.file (p ++ "/voltage_now")) with
      | none => rfl
      | some v => rfl
  · simp only [hc, if_false]
    cases reading (sys.file (p ++ "/power_now")) with
    | none => rfl
    | some v => rfl

theorem isCharging_false (sys : Sys) (s : BatteryStats)
    (hc : (isCharging sys s).map Prod.fst = some false) :
    ∃ s1, isCharging sys s = some (false, s1) := by
  cases h : isCharging sys s with
  | none => simp [h] at hc
  | some r =>
    obtain ⟨b, s1⟩ := r
    simp [h] at hc
    subst hc
    exact ⟨s1, rfl⟩

/-! ## `update` in closed form -/

theorem getPower_closed_opt (sys : Sys) (i : Nat) (t : BatteryStats) (p q0 q1 : String)
    (hn : batteries sys ≠ []) (hp : t.battPath[i]? = some p)
    (h0 : t.battPath[0]? = some q0) (h1 : t.battPath[1]? = some q1) :
    getPower sys i t =
      (if chargingFlag sys q0 q1 t then some 0 else wattage sys p).map fun w =>
        (w, refreshed sys q0 q1 t) := by
  have hic := isCharging_two sys t q0 q1 hn (getElem?_append_some h0) (getElem?_append_some h1)
  cases hb : chargingFlag sys q0 q1 t
  · have hf : isCharging sys t = some (false, refreshed sys q0 q1 t) := by
      rw [hic]
      unfold chargingFlag at hb
      rw [hb]
    rw [getPower_open sys i t _ p hp hf]
    simp
  · unfold getPower
    unfold chargingFlag at hb
    rw [hp, hic, hb]
    rfl

theorem percentPaths_level (sys : Sys) (ps : List String)
    (h : ∀ p ∈ ps, LevelParses sys p) :
    ∀ acc : ℚ × ℚ, percentPaths sys ps acc =
      some (ps.foldl (fun a p => contribution sys p a) acc) := by
  induction ps with
  | nil => intro acc; rfl
  | cons p ps ih =>
    intro acc
    simp only [percentPaths, List.foldl_cons,
      percentBody_level sys p acc (h p (List.mem_cons_self p ps)), Option.some_bind]
    exact ih (fun q hq => h q (List.mem_cons_of_mem p hq)) _

theorem percentPaths_raises (sys : Sys) (ps : List String)
    (h : ¬ ∀ p ∈ ps, LevelParses sys p) :
    ∀ acc : ℚ × ℚ, percentPaths sys ps acc = none := by
  induction ps with
  | nil => exact absurd (fun p hp => by cases hp) h
  | cons p ps ih =>
    intro acc
    by_cases hp : LevelParses sys p
    · have hrest : ¬ ∀ q ∈ ps, LevelParses sys q := by
        intro hall
        apply h
        intro q hq
        rcases List.mem_cons.mp hq with rfl | hq
        · exact hp
        · exact hall q hq
      simp only [percentPaths, percentBody_level sys p acc hp, Option.some_bind]
      exact ih hrest _
    · simp only [percentPaths, percentBody_raises sys p acc hp, Option.none_bind]

theorem charging_grow (sys : Sys) (s : BatteryStats) (q0 q1 : String)
    (hn : batteries sys ≠ [])
    (h0 : (s.battPath ++ batteries sys ++ batteries sys)[0]? = some q0)
    (h1 : (s.battPath ++ batteries sys ++ batteries sys)[1]? = some q1) :
    (isCharging sys (grow sys s)).map Prod.fst = some (chargingFlag sys q0 q1 s) := by
  rw [isCharging_two sys (grow sys s) q0 q1 hn h0 h1]
  rfl

theorem update_one_opt (sys : Sys) (s : BatteryStats) (hn : (batteries sys).length = 1)
    (q0 q1 : String)
    (h0 : (s.battPath ++ batteries sys ++ batteries sys)[0]? = some q0)
    (h1 : (s.battPath ++ batteries sys ++ batteries sys)[1]? = some q1) :
    update sys s =
      (if chargingFlag sys q0 q1 s then some 0 else wattage sys q0).bind fun w =>
        (percentPaths sys (visited sys s) (0, 0)).map fun r =>
          { grow sys { refreshed sys q0 q1 (grow sys (grow sys s)) with current_watt := w } with
            current_percent := percentOf r } := by
  have hne : batteries sys ≠ [] := by
    intro h; rw [h] at hn; simp at hn
  have ht0 : (grow sys (grow sys s)).battPath[0]? = some q0 := h0
  have ht1 : (grow sys (grow sys s)).battPath[1]? = some q1 := h1
  have hcf : chargingFlag sys q0 q1 (grow sys (grow sys s)) = chargingFlag sys q0 q1 s := rfl
  unfold update
  simp only [numBattery_grow, hn, gt_iff_lt, Nat.zero_lt_one, if_true,
    getPower_closed_opt sys 0 _ q0 q0 q1 hne ht0 ht0 ht1, hcf]
  cases hw : (if chargingFlag sys q0 q1 s then some 0 else wattage sys q0) with
  | none => rfl
  | some w =>
    simp only [Option.map_some', Option.bind_eq_bind, Option.some_bind]
    rw [getPercent_closed sys _ (by simp only [refreshed, grow, List.length_append]; omega)]
    have hk : List.take (batteries sys).length
        (refreshed sys q0 q1 (grow sys (grow sys s))).battPath = visited sys s := by
      simp only [refreshed, grow, visited, List.append_assoc]
      rw [← List.append_assoc]
      exact List.take_append_of_le_length (by simp)
    simp only [hk]
    cases percentPaths sys (visited sys s) (0, 0) with
    | none => rfl
    | some r => rfl

theorem update_two_opt (sys : Sys) (s : BatteryStats) (hn : (batteries sys).length = 2)
    (q0 q1 : String)
    (h0 : (s.battPath ++ batteries sys ++ batteries sys)[0]? = some q0)
    (h1 : (s.battPath ++ batteries sys ++ batteries sys)[1]? = some q1) :
    update sys s =
      (if chargingFlag sys q0 q1 s then some 0 else wattage sys q0).bind fun w0 =>
        (if chargingFlag sys q0 q1 s then some 0 else wattage sys q1).bind fun w1 =>
          (percentPaths sys (visited sys s) (0, 0)).map fun r =>
            { grow sys { refreshed sys q0 q1
                  (refreshed sys q0 q1 (grow sys (grow sys (grow sys s)))) with
                current_watt := w0 + w1 } with
              current_percent := percentOf r } := by
  have hne : batteries sys ≠ [] := by
    intro h; rw [h] at hn; simp at hn
  have ht0 : (grow sys (grow sys (grow sys s))).battPath[0]? = some q0 :=
    getElem?_append_some h0
  have ht1 : (grow sys (grow sys (grow sys s))).battPath[1]? = some q1 :=
    getElem?_append_some h1
  have hr0 : (refreshed sys q0 q1 (grow sys (grow sys (grow sys s)))).battPath[0]? = some q0 :=
    getElem?_append_some ht0
  have hr1 : (refreshed sys q0 q1 (grow sys (grow sys (grow sys s)))).battPath[1]? = some q1 :=
    getElem?_append_some ht1
  have hcf : chargingFlag sys q0 q1 (grow sys (grow sys (grow sys s))) =
      chargingFlag sys q0 q1 s := rfl
  unfold update
  simp only [numBattery_grow, hn, gt_iff_lt, Nat.zero_lt_two, if_true,
    (by decide : ¬ (2 = 1)), if_false,
    getPower_closed_opt sys 0 _ q0 q0 q1 hne ht0 ht0 ht1, hcf]
  cases hw0 : (if chargingFlag sys q0 q1 s then some 0 else wattage sys q0) with
  | none => rfl
  | some w0 =>
    simp only [Option.map_some', Option.bind_eq_bind, Option.some_bind,
      getPower_closed_opt sys 1 _ q1 q0 q1 hne hr1 hr0 hr1, chargingFlag_refreshed, hcf]
    cases hw1 : (if chargingFlag sys q0 q1 s then some 0 else wattage sys q1) with
    | none => rfl
    | some w1 =>
      simp only [Option.map_some', Option.some_bind]
      rw [getPercent_closed sys _ (by simp only [refreshed, grow, List.length_append]; omega)]
      have hk : List.take (batteries sys).length
          (refreshed sys q0 q1
            (refreshed sys q0 q1 (grow sys (grow sys (grow sys s))))).battPath =
          visited sys s := by
        simp only [refreshed, grow, visited, List.append_assoc]
        rw [← List.append_assoc]
        exact List.take_append_of_le_length (by simp)
      simp only [hk]
      cases percentPaths sys (visited sys s) (0, 0) with
      | none => rfl
      | some r => rfl

theorem visited_getElem? (sys : Sys) (s : BatteryStats) (i : Nat)
    (hi : i < (batteries sys).length) :
    (visited sys s)[i]? = (s.battPath ++ batteries sys ++ batteries sys)[i]? := by
  unfold visited
  have h2 : (s.battPath ++ batteries sys ++ batteries sys)[i]? =
      (s.battPath ++ batteries sys)[i]? :=
    List.getElem?_append_left (by simp only [List.length_append]; omega)
  rw [List.getElem?_take, if_pos hi, h2]

theorem visited_length (sys : Sys) (s : BatteryStats) :
    (visited sys s).length = (batteries sys).length := by
  simp [visited]

theorem visited_one (sys : Sys) (s : BatteryStats) (hn : (batteries sys).length = 1)
    (q0 : String) (h0 : (s.battPath ++ batteries sys ++ batteries sys)[0]? = some q0) :
    visited sys s = [q0] := by
  have hl := visited_length sys s
  rw [hn] at hl
  have hg := visited_getElem? sys s 0 (by omega)
  rw [h0] at hg
  obtain ⟨a, ha⟩ := List.length_eq_one.mp hl
  rw [ha] at hg ⊢
  simp at hg
  rw [hg]

theorem visited_two (sys : Sys) (s : BatteryStats) (hn : (batteries sys).length = 2)
    (q0 q1 : String) (h0 : (s.battPath ++ batteries sys ++ batteries sys)[0]? = some q0)
    (h1 : (s.battPath ++ batteries sys ++ batteries sys)[1]? = some q1) :
    visited sys s = [q0, q1] := by
  have hl := visited_length sys s
  rw [hn] at hl
  have hg0 := visited_getElem? sys s 0 (by omega)
  have hg1 := visited_getElem? sys s 1 (by omega)
  rw [h0] at hg0
  rw [h1] at hg1
  obtain ⟨a, b, hab⟩ := List.length_eq_two.mp hl
  rw [hab] at hg0 hg1 ⊢
  simp at hg0 hg1
  rw [hg0, hg1]

/-- Calls made after `update` return what `update` obtained. -/
theorem calls_after_update (sys : Sys) (hne : batteries sys ≠ [])
    (s u : BatteryStats) (q0 q1 : String) (extra : List String)
    (h0 : (s.battPath ++ batteries sys ++ batteries sys)[0]? = some q0)
    (h1 : (s.battPath ++ batteries sys ++ batteries sys)[1]? = some q1)
    (hbp : u.battPath = s.battPath ++ batteries sys ++ batteries sys ++ extra)
    (hs0 : u.state0 = statusOf sys q0 s.state0) (hs1 : u.state1 = statusOf sys q1 s.state1) :
    (∀ i p, (s.battPath ++ batteries sys ++ batteries sys)[i]? = some p →
      (getPower sys i u).map Prod.fst =
        if chargingFlag sys q0 q1 s then some 0 else wattage sys p) ∧
    (getPercent sys u).map Prod.fst =
      (percentPaths sys (visited sys s) (0, 0)).map percentOf := by
  constructor
  · intro i p hp
    rw [getPower_closed_opt sys i u p q0 q1 hne (by rw [hbp]; exact getElem?_append_some hp)
      (by rw [hbp]; exact getElem?_append_some h0) (by rw [hbp]; exact getElem?_append_some h1)]
    have hcf : chargingFlag sys q0 q1 u = chargingFlag sys q0 q1 s := by
      simp [chargingFlag, hs0, hs1, statusOf_idem]
    rw [hcf]
    cases (if chargingFlag sys q0 q1 s then some 0 else wattage sys p) <;> rfl
  · rw [getPercent_closed sys u (by rw [hbp]; simp; omega)]
    have hk : List.take (batteries sys).length u.battPath = visited sys s := by
      rw [hbp]
      simp only [visited, List.append_assoc]
      rw [← List.append_assoc]
      exact List.take_append_of_le_length (by simp)
    rw [hk]
    cases percentPaths sys (visited sys s) (0, 0) <;> rfl

theorem slots_exist (sys : Sys) (s : BatteryStats) (hn : 1 ≤ (batteries sys).length) :
    ∃ q0 q1, (s.battPath ++ batteries sys ++ batteries sys)[0]? = some q0 ∧
      (s.battPath ++ batteries sys ++ batteries sys)[1]? = some q1 := by
  have hl : 2 ≤ (s.battPath ++ batteries sys ++ batteries sys).length := by
    simp only [List.length_append]; omega
  exact ⟨_, _, List.getElem?_eq_getElem (by omega), List.getElem?_eq_getElem (by omega)⟩

theorem update_returns (sys : Sys) (s : BatteryStats)
    (hn : (batteries sys).length = 1 ∨ (batteries sys).length = 2) (hpar : UpdateParses sys s) :
    ∃ s1, update sys s = some s1 ∧
      (∃ ws : List ℚ, ws.length = (batteries sys).length ∧
        (∀ i, i < (batteries sys).length → (getPower sys i s1).map Prod.fst = ws[i]?) ∧
        s1.current_watt = ws.sum) ∧
      (getPercent sys s1).map Prod.fst = some s1.current_percent := by
  have hne : batteries sys ≠ [] := by
    intro h; rw [h] at hn; simp at hn
  obtain ⟨q0, q1, h0, h1⟩ := slots_exist sys s (by omega)
  obtain ⟨hpow, hlev⟩ := hpar
  rw [charging_grow sys s q0 q1 hne h0 h1] at hpow
  have hw : ∀ p ∈ visited sys s,
      (if chargingFlag sys q0 q1 s then some 0 else wattage sys p) =
        some (if chargingFlag sys q0 q1 s then 0 else powerOf sys p) := by
    intro p hp
    cases hcf : chargingFlag sys q0 q1 s
    · simp only [Bool.false_eq_true, if_false]
      exact wattage_some sys p (hpow (by rw [hcf]) p hp)
    · simp
  have hr := percentPaths_level sys (visited sys s) hlev (0, 0)
  rcases hn with hn | hn
  · have hv := visited_one sys s hn q0 h0
    have hw0 := hw q0 (by rw [hv]; simp)
    have hup := update_one_opt sys s hn q0 q1 h0 h1
    rw [hw0, hr] at hup
    simp only [Option.some_bind, Option.map_some'] at hup
    obtain ⟨s1, hs1, hbp, hs0, hs1', hwatt, hperc⟩ : ∃ s1, update sys s = some s1 ∧
        s1.battPath = s.battPath ++ batteries sys ++ batteries sys ++
          (batteries sys ++ batteries sys) ∧
        s1.state0 = statusOf sys q0 s.state0 ∧ s1.state1 = statusOf sys q1 s.state1 ∧
        s1.current_watt = (if chargingFlag sys q0 q1 s then 0 else powerOf sys q0) ∧
        s1.current_percent =
          percentOf ((visited sys s).foldl (fun a p => contribution sys p a) (0, 0)) :=
      ⟨_, hup, by simp [grow, refreshed], rfl, rfl, rfl, rfl⟩
    obtain ⟨hp, hper⟩ := calls_after_update sys hne s s1 q0 q1 (batteries sys ++ batteries sys)
      h0 h1 hbp hs0 hs1'
    refine ⟨s1, hs1, ⟨[if chargingFlag sys q0 q1 s then 0 else powerOf sys q0], by simp [hn],
      ?_, ?_⟩, ?_⟩
    · intro i hi
      have hi0 : i = 0 := by omega
      subst hi0
      rw [hp 0 q0 h0, hw0]
      rfl
    · rw [hwatt]; simp
    · rw [hper, hr, hperc]
      rfl
  · have hv := visited_two sys s hn q0 q1 h0 h1
    have hw0 := hw q0 (by rw [hv]; simp)
    have hw1 := hw q1 (by rw [hv]; simp)
    have hup := update_two_opt sys s hn q0 q1 h0 h1
    rw [hw0, hw1, hr] at hup
    simp only [Option.some_bind, Option.map_some'] at hup
    obtain ⟨s1, hs1, hbp, hs0, hs1', hwatt, hperc⟩ : ∃ s1, update sys s = some s1 ∧
        s1.battPath = s.battPath ++ batteries sys ++ batteries sys ++
          (batteries sys ++ (batteries sys ++ (batteries sys ++ batteries sys))) ∧
        s1.state0 = statusOf sys q0 s.state0 ∧ s1.state1 = statusOf sys q1 s.state1 ∧
        s1.current_watt = (if chargingFlag sys q0 q1 s then 0 else powerOf sys q0) +
          (if chargingFlag sys q0 q1 s then 0 else powerOf sys q1) ∧
        s1.current_percent =
          percentOf ((visited sys s).foldl (fun a p => contribution sys p a) (0, 0)) :=
      ⟨_, hup, by simp [grow, refreshed], by simp [grow, refreshed, statusOf_idem],
        by simp [grow, refreshed, statusOf_idem], rfl, rfl⟩
    obtain ⟨hp, hper⟩ := calls_after_update sys hne s s1 q0 q1 _ h0 h1 hbp hs0 hs1'
    refine ⟨s1, hs1, ⟨[if chargingFlag sys q0 q1 s then 0 else powerOf sys q0,
      if chargingFlag sys q0 q1 s then 0 else powerOf sys q1], by simp [hn], ?_, ?_⟩, ?_⟩
    · intro i hi
      have hi0 : i = 0 ∨ i = 1 := by omega
      rcases hi0 with rfl | rfl
      · rw [hp 0 q0 h0, hw0]; rfl
      · rw [hp 1 q1 h1, hw1]; rfl
    · rw [hwatt]; simp
    · rw [hper, hr, hperc]
      rfl

theorem update_raises (sys : Sys) (s : BatteryStats)
    (hn : (batteries sys).length = 1 ∨ (batteries sys).length = 2) (hpar : ¬ UpdateParses sys s) :
    update sys s = none := by
  have hne : batteries sys ≠ [] := by
    intro h; rw [h] at hn; simp at hn
  obtain ⟨q0, q1, h0, h1⟩ := slots_exist sys s (by omega)
  unfold UpdateParses at hpar
  rw [charging_grow sys s q0 q1 hne h0 h1] at hpar
  by_cases hlev : ∀ p ∈ visited sys s, LevelParses sys p
  · have hpow : ¬ (some (chargingFlag sys q0 q1 s) = some false →
        ∀ p ∈ visited sys s, PowerParses sys p) := fun h => hpar ⟨h, hlev⟩
    push_neg at hpow
    obtain ⟨hcf, p, hp, hpp⟩ := hpow
    have hcf2 : chargingFlag sys q0 q1 s = false := by simpa using hcf
    rcases hn with hn | hn
    · rw [visited_one sys s hn q0 h0] at hp
      simp at hp
      subst hp
      rw [update_one_opt sys s hn p q1 h0 h1, hcf2, wattage_none sys p hpp]
      rfl
    · rw [visited_two sys s hn q0 q1 h0 h1] at hp
      simp at hp
      rw [update_two_opt sys s hn q0 q1 h0 h1, hcf2]
      rcases hp with rfl | rfl
      · rw [wattage_none sys p hpp]
        rfl
      · rw [wattage_none sys p hpp]
        cases wattage sys q0 <;> rfl
  · have hr := percentPaths_raises sys (visited sys s) hlev (0, 0)
    rcases hn with hn | hn
    · rw [update_one_opt sys s hn q0 q1 h0 h1, hr]
      cases (if chargingFlag sys q0 q1 s then some 0 else wattage sys q0) <;> rfl
    · rw [update_two_opt sys s hn q0 q1 h0 h1, hr]
      cases (if chargingFlag sys q0 q1 s then some 0 else wattage sys q0) <;>
        cases (if chargingFlag sys q0 q1 s then some 0 else wattage sys q1) <;> rfl

/-! ## `sort_elements` and `legacy_elements` in closed form -/

theorem sort_elements_not_graphs (str_tokenize : String → List String) (h : HudElements)
    (param value : String) (hg : param ≠ "graphs") :
    sort_elements str_tokenize (param, value) h =
      match actionOf param with
      | none => h
      | some f =>
        if f = ._exec then (h.push f value).push_exec value else h.push f value := by
  unfold sort_elements
  by_cases h0 : param = "version"
  · subst h0
    simp [actionOf, supported, List.lookup]
  by_cases h1 : param = "time"
  · subst h1
    simp [actionOf, supported, List.lookup]
  by_cases h2 : param = "gpu_stats"
  · subst h2
    simp [actionOf, supported, List.lookup]
  by_cases h3 : param = "cpu_stats"
  · subst h3
    simp [actionOf, supported, List.lookup]
  by_cases h4 : param = "core_load"
  · subst h4
    simp [actionOf, supported, List.lookup]
  by_cases h5 : param = "io_stats"
  · subst h5
    simp [actionOf, supported, List.lookup]
  by_cases h6 : param = "vram"
  · subst h6
    simp [actionOf, supported, List.lookup]
  by_cases h7 : param = "ram"
  · subst h7
    simp [actionOf, supported, List.lookup]
  by_cases h8 : param = "procmem"
  · subst h8
    simp [actionOf, supported, List.lookup]
  by_cases h9 : param = "fps"
  · subst h9
    simp [actionOf, supported, List.lookup]
  by_cases h10 : param = "engine_version"
  · subst h10
    simp [actionOf, supported, List.lookup]
  by_cases h11 : param = "gpu_name"
  · subst h11
    simp [actionOf, supported, List.lookup]
  by_cases h12 : param = "vulkan_driver"
  · subst h12
    simp [actionOf, supported, List.lookup]
  by_cases h13 : param = "arch"
  · subst h13
    simp [actionOf, supported, List.lookup]
  by_cases h14 : param = "wine"
  · subst h14
    simp [actionOf, supported, List.lookup]
  by_cases h15 : param = "frame_timing"
  · subst h15
    simp [actionOf, supported, List.lookup]
  by_cases h16 : param = "media_player"
  · subst h16
    simp [actionOf, supported, List.lookup]
  by_cases h17 : param = "resolution"
  · subst h17
    simp [actionOf, supported, List.lookup]
  by_cases h18 : param = "show_fps_limit"
  · subst h18
    simp [actionOf, supported, List.lookup]
  by_cases h19 : param = "custom_text"
  · subst h19
    simp [actionOf, supported, List.lookup]
  by_cases h20 : param = "custom_text_center"
  · subst h20
    simp [actionOf, supported, List.lookup]
  by_cases h21 : param = "gamemode"
  · subst h21
    simp [actionOf, supported, List.lookup]
  by_cases h22 : param = "vkbasalt"
  · subst h22
    simp [actionOf, supported, List.lookup]
  by_cases h23 : param = "exec"
  · subst h23
    simp [actionOf, supported, List.lookup]
  by_cases h24 : param = "battery"
  · subst h24
    simp [actionOf, supported, List.lookup]
  simp [actionOf, supported, List.lookup, hg, h0, h1, h2, h3, h4, h5, h6, h7, h8, h9, h10, h11,
    h12, h13, h14, h15, h16, h17, h18, h19, h20, h21, h22, h23, h24, beq_eq_false_iff_ne.mpr h0,
    beq_eq_false_iff_ne.mpr h1, beq_eq_false_iff_ne.mpr h2, beq_eq_false_iff_ne.mpr h3,
    beq_eq_false_iff_ne.mpr h4, beq_eq_false_iff_ne.mpr h5, beq_eq_false_iff_ne.mpr h6,
    beq_eq_false_iff_ne.mpr h7, beq_eq_false_iff_ne.mpr h8, beq_eq_false_iff_ne.mpr h9,
    beq_eq_false_iff_ne.mpr h10, beq_eq_false_iff_ne.mpr h11, beq_eq_false_iff_ne.mpr h12,
    beq_eq_false_iff_ne.mpr h13, beq_eq_false_iff_ne.mpr h14, beq_eq_false_iff_ne.mpr h15,
    beq_eq_false_iff_ne.mpr h16, beq_eq_false_iff_ne.mpr h17, beq_eq_false_iff_ne.mpr h18,
    beq_eq_false_iff_ne.mpr h19, beq_eq_false_iff_ne.mpr h20, beq_eq_false_iff_ne.mpr h21,
    beq_eq_false_iff_ne.mpr h22, beq_eq_false_iff_ne.mpr h23, beq_eq_false_iff_ne.mpr h24]

theorem sort_graphs_eq (l : List String) : ∀ h : HudElements,
    sort_graphs h l = { h with ordered_functions := h.ordered_functions ++
      (l.filter fun s => permitted_params.contains s).map fun s => (Action.graphs, s) } := by
  induction l with
  | nil => intro h; simp [sort_graphs]
  | cons v rest ih =>
    intro h
    unfold sort_graphs
    by_cases hv : permitted_params.contains v = true
    · rw [if_pos hv, ih]
      have hm : v ∈ permitted_params := by simpa using hv
      simp [HudElements.push, List.filter_cons, hm]
    · rw [if_neg hv, ih]
      have hm : v ∉ permitted_params := by simpa using hv
      simp [List.filter_cons, hm]

theorem sort_elements_graphs_eq (tok : String → List String) (h : HudElements) (p : String) :
    sort_elements tok ("graphs", p) h =
      { h with
        ordered_functions := h.ordered_functions ++
          ((tok p).filter fun s => permitted_params.contains s).map fun s => (Action.graphs, s)
        params := { h.params with enabled_graphs := true } } := by
  unfold sort_elements
  simp only [show ¬ ("graphs" = "version") by decide, show ¬ ("graphs" = "time") by decide,
    show ¬ ("graphs" = "gpu_stats") by decide, show ¬ ("graphs" = "cpu_stats") by decide,
    show ¬ ("graphs" = "core_load") by decide, show ¬ ("graphs" = "io_stats") by decide,
    show ¬ ("graphs" = "vram") by decide, show ¬ ("graphs" = "ram") by decide,
    show ¬ ("graphs" = "procmem") by decide, show ¬ ("graphs" = "fps") by decide,
    show ¬ ("graphs" = "engine_version") by decide, show ¬ ("graphs" = "gpu_name") by decide,
    show ¬ ("graphs" = "vulkan_driver") by decide, show ¬ ("graphs" = "arch") by decide,
    show ¬ ("graphs" = "wine") by decide, show ¬ ("graphs" = "frame_timing") by decide,
    show ¬ ("graphs" = "media_player") by decide, show ¬ ("graphs" = "resolution") by decide,
    show ¬ ("graphs" = "show_fps_limit") by decide, show ¬ ("graphs" = "custom_text") by decide,
    show ¬ ("graphs" = "custom_text_center") by decide, show ¬ ("graphs" = "gamemode") by decide,
    show ¬ ("graphs" = "vkbasalt") by decide, show ¬ ("graphs" = "exec") by decide,
    show ¬ ("graphs" = "battery") by decide, if_false, if_true]
  rw [sort_graphs_eq]
  cases hg : h.params.enabled_graphs <;> simp [hg]
  obtain ⟨a, b, c, d, e, f, g, i, j, k, l, params⟩ := h
  obtain ⟨p1, p2, p3, p4, p5, p6, p7, p8, p9, p10, p11⟩ := params
  simp at hg
  simp [hg]

theorem push_mk (l : List (Action × String)) (e : List exec_entry) (pl mn mx a b c d : Int)
    (w : ℚ) (col : Colors) (par : overlay_params) (f : Action) (v : String) :
    HudElements.push ⟨l, e, pl, mn, mx, a, b, c, d, w, col, par⟩ f v =
      ⟨l ++ [(f, v)], e, pl, mn, mx, a, b, c, d, w, col, par⟩ := rfl

theorem legacy_elements_eq (h : HudElements) :
    legacy_elements h = { h with ordered_functions :=
        [(.time, "NULL"), (.version, "NULL"), (.gpu_stats, "NULL"), (.cpu_stats, "NULL"),
          (.core_load, "NULL"), (.io_stats, "NULL"), (.vram, "NULL"), (.ram, "NULL"),
          (.battery, "NULL"), (.fps, "NULL"), (.engine_version, "NULL"), (.gpu_name, "NULL"),
          (.vulkan_driver, "NULL"), (.arch, "NULL"), (.wine, "NULL"), (.frame_timing, "NULL"),
          (.gamemode, "NULL"), (.vkbasalt, "NULL"), (.show_fps_limit, "NULL"),
          (.resolution, "NULL"), (.media_player, "NULL")] } := by
  obtain ⟨l, e, pl, mn, mx, a, b, c, d, w, col, par⟩ := h
  simp only [legacy_elements, push_mk, List.nil_append, List.cons_append]

/-! ## The side table follows the plan -/

theorem toInt32_small {n : Nat} (h : n < 2147483648) : toInt32 n = n := by
  unfold toInt32
  have : n % 4294967296 = n := Nat.mod_eq_of_lt (by omega)
  rw [this, if_pos h]

theorem execEntries_append (l m : List (Action × String)) :
    ∀ k, execEntries k (l ++ m) = execEntries k l ++ execEntries (k + l.length) m := by
  induction l with
  | nil => intro k; simp [execEntries]
  | cons e l ih =>
    intro k
    obtain ⟨f, v⟩ := e
    have hk : k + 1 + l.length = k + (l.length + 1) := by omega
    by_cases hf : f = Action._exec
    · simp only [List.cons_append, execEntries, hf, if_true, List.length_cons, List.append_eq]
      rw [ih (k + 1), hk]
    · simp only [List.cons_append, execEntries, hf, if_false, List.length_cons, List.append_eq]
      rw [ih (k + 1), hk]

theorem mem_execEntries (l : List (Action × String)) :
    ∀ (k i : Nat) (v : String), (i, v) ∈ execEntries k l ↔
      k ≤ i ∧ l[i - k]? = some (Action._exec, v) := by
  induction l with
  | nil => intro k i v; simp [execEntries]
  | cons e l ih =>
    intro k i v
    obtain ⟨f, w⟩ := e
    have step : (i, v) ∈ execEntries (k + 1) l ↔
        k + 1 ≤ i ∧ l[i - (k + 1)]? = some (Action._exec, v) := ih (k + 1) i v
    by_cases hik : i = k
    · subst hik
      have hno : (i, v) ∉ execEntries (i + 1) l := by
        intro hm
        have := (step.mp hm).1
        omega
      by_cases hf : f = Action._exec
      · simp [execEntries, hf, hno]
        exact eq_comm
      · simp [execEntries, hf, hno]
    · by_cases hlt : k ≤ i
      · have hk1 : k + 1 ≤ i := by omega
        have hidx : i - k = (i - (k + 1)) + 1 := by omega
        by_cases hf : f = Action._exec
        · simp only [execEntries, hf, if_true, List.mem_cons, Prod.mk.injEq, hik, false_and,
            false_or, step, hidx, List.getElem?_cons_succ]
          constructor
          · rintro ⟨_, h2⟩; exact ⟨hlt, h2⟩
          · rintro ⟨_, h2⟩; exact ⟨hk1, h2⟩
        · simp only [execEntries, hf, if_false, step, hidx, List.getElem?_cons_succ]
          constructor
          · rintro ⟨_, h2⟩; exact ⟨hlt, h2⟩
          · rintro ⟨_, h2⟩; exact ⟨hk1, h2⟩
      · have hno : (i, v) ∉ execEntries (k + 1) l := by
          intro hm
          have := (step.mp hm).1
          omega
        by_cases hf : f = Action._exec
        · simp [execEntries, hf, hno, hik, hlt]
        · simp [execEntries, hf, hno, hlt]

theorem filter_execEntries (l : List (Action × String)) :
    ∀ (k i : Nat) (v : String), k ≤ i → l[i - k]? = some (Action._exec, v) →
      (execEntries k l).filter (fun e => decide (e.1 = i)) = [(i, v)] := by
  induction l with
  | nil => intro k i v _ h; simp at h
  | cons e l ih =>
    intro k i v hk h
    obtain ⟨f, w⟩ := e
    have hnone : ∀ j, j < k + 1 → (execEntries (k + 1) l).filter (fun e => decide (e.1 = j)) = [] := by
      intro j hj
      rw [List.filter_eq_nil_iff]
      rintro ⟨a, b⟩ hm
      have := ((mem_execEntries l (k + 1) a b).mp hm).1
      simp only [decide_eq_true_eq]
      omega
    by_cases hik : i = k
    · subst hik
      simp only [Nat.sub_self, List.getElem?_cons_zero, Option.some.injEq, Prod.mk.injEq] at h
      obtain ⟨hf, hw⟩ := h
      subst hf; subst hw
      simp [execEntries, List.filter_cons, hnone i (by omega)]
    · have hk1 : k + 1 ≤ i := by omega
      have hidx : i - k = (i - (k + 1)) + 1 := by omega
      rw [hidx, List.getElem?_cons_succ] at h
      have hrec := ih (k + 1) i v hk1 h
      have hne : ¬ k = i := fun hh => hik hh.symm
      by_cases hf : f = Action._exec
      · simp [execEntries, hf, List.filter_cons, hne, hrec]
      · simp [execEntries, hf, hrec]

theorem tracks_push (h : HudElements) (f : Action) (v : String) (hf : f ≠ Action._exec)
    (ht : Tracks h) : Tracks (h.push f v) := by
  unfold Tracks at ht ⊢
  simp [HudElements.push, execEntries_append, execEntries, hf, ht]

theorem tracks_exec (h : HudElements) (v : String) (ht : Tracks h) :
    Tracks ((h.push Action._exec v).push_exec v) := by
  unfold Tracks at ht ⊢
  simp [HudElements.push, HudElements.push_exec, execEntries_append, execEntries, ht]

theorem tracks_graphs (h : HudElements) (l : List String) (ht : Tracks h) :
    Tracks (sort_graphs h l) := by
  induction l generalizing h with
  | nil => simpa [sort_graphs] using ht
  | cons v rest ih =>
    unfold sort_graphs
    split
    · exact ih _ (tracks_push h _ v (by decide) ht)
    · exact ih _ ht

theorem tracks_sort_elements (tok : String → List String) (o : String × String)
    (h : HudElements) (ht : Tracks h) : Tracks (sort_elements tok o h) := by
  obtain ⟨param, value⟩ := o
  by_cases hg : param = "graphs"
  · subst hg
    rw [sort_elements_graphs_eq]
    have hs := tracks_graphs h (tok value) ht
    rw [sort_graphs_eq] at hs
    unfold Tracks at hs ⊢
    exact hs
  · rw [sort_elements_not_graphs tok h param value hg]
    cases ha : actionOf param with
    | none => exact ht
    | some f =>
      by_cases hf : f = Action._exec
      · subst hf
        simpa using tracks_exec h value ht
      · simpa [hf] using tracks_push h f value hf ht

theorem tracks_configure (tok : String → List String) (options : List (String × String)) :
    ∀ h : HudElements, Tracks h → Tracks (configure tok options h) := by
  induction options with
  | nil => intro h ht; exact ht
  | cons o rest ih =>
    intro h ht
    exact ih _ (tracks_sort_elements tok o h ht)

theorem exec_rows_eq (place : Int) (l : List exec_entry) :
    exec_rows place l =
      (l.filter fun r => decide (r.pos = place)).map fun r => Draw.Text "%s" (some (.str r.ret)) := by
  induction l with
  | nil => rfl
  | cons r l ih =>
    unfold exec_rows
    by_cases hp : r.pos = place <;> simp [hp, ih, List.filter_cons]

theorem tracks_rows (h : HudElements) (ht : Tracks h)
    (hlen : h.ordered_functions.length ≤ 2147483648) :
    (∀ r ∈ h.exec_list, ∃ i : Nat, r.pos = i ∧
      h.ordered_functions[i]? = some (Action._exec, r.value)) ∧
    (∀ (i : Nat) (v : String), h.ordered_functions[i]? = some (Action._exec, v) →
      ∃ r, h.exec_list.filter (fun r => decide (r.pos = (i : Int))) = [r] ∧ r.value = v) := by
  have hsmall : ∀ e ∈ execEntries 0 h.ordered_functions, toInt32 e.1 = e.1 := by
    rintro ⟨i, v⟩ hm
    have hi := ((mem_execEntries _ 0 i v).mp hm).2
    obtain ⟨hlt, _⟩ := List.getElem?_eq_some.mp hi
    exact toInt32_small (by simp at hlt; omega)
  constructor
  · intro r hr
    have hm : (r.pos, r.value) ∈ h.exec_list.map (fun r => (r.pos, r.value)) :=
      List.mem_map.mpr ⟨r, hr, rfl⟩
    rw [ht] at hm
    obtain ⟨⟨i, v⟩, he, heq⟩ := List.mem_map.mp hm
    simp only [Prod.mk.injEq] at heq
    have hi := ((mem_execEntries _ 0 i v).mp he).2
    refine ⟨i, ?_, ?_⟩
    · rw [← heq.1, hsmall _ he]
    · rw [← heq.2]; simpa using hi
  · intro i v hi
    have hfil : ((execEntries 0 h.ordered_functions).map fun e => (toInt32 e.1, e.2)).filter
        (fun q => decide (q.1 = (i : Int))) = [((i : Int), v)] := by
      rw [List.filter_map]
      have hcongr : (execEntries 0 h.ordered_functions).filter
          ((fun q : Int × String => decide (q.1 = (i : Int))) ∘ fun e => (toInt32 e.1, e.2)) =
          (execEntries 0 h.ordered_functions).filter (fun e => decide (e.1 = i)) := by
        apply List.filter_congr
        intro e he
        simp only [Function.comp, hsmall e he]
        by_cases hei : e.1 = i <;> simp [hei]
      rw [hcongr, filter_execEntries _ 0 i v (Nat.zero_le _) (by simpa using hi)]
      have hlt : i < 2147483648 := by
        obtain ⟨hlt, _⟩ := List.getElem?_eq_some.mp hi
        omega
      simp [toInt32_small hlt]
    rw [← ht, List.filter_map] at hfil
    have hcomp : ((fun q : Int × String => decide (q.1 = (i : Int))) ∘
        fun r : exec_entry => (r.pos, r.value)) = fun r => decide (r.pos = (i : Int)) := rfl
    rw [hcomp] at hfil
    cases hl : h.exec_list.filter (fun r => decide (r.pos = (i : Int))) with
    | nil => rw [hl] at hfil; simp at hfil
    | cons r rest =>
      rw [hl] at hfil
      simp only [List.map_cons, List.cons.injEq, Prod.mk.injEq, List.map_eq_nil_iff] at hfil
      obtain ⟨⟨_, hv⟩, hrest⟩ := hfil
      exact ⟨r, by rw [hrest], hv⟩

theorem configure_demo :
    configure str_tokenize optionsDemo hud0 =
      { hud0 with
        ordered_functions := [(Action._exec, "date"), (Action.cpu_stats, ""),
          (Action._exec, "uptime"), (Action.graphs, "cpu_load")]
        exec_list := [⟨0, "date", ""⟩, ⟨2, "uptime", ""⟩]
        params := { hud0.params with enabled_graphs := true } } := by
  have h1 : sort_elements str_tokenize ("exec", "date") hud0 =
      (hud0.push ._exec "date").push_exec "date" := by
    rw [sort_elements_not_graphs _ _ "exec" _ (by decide)]
    rfl
  have h2 : sort_elements str_tokenize ("cpu_stats", "")
      ((hud0.push ._exec "date").push_exec "date") =
      ((hud0.push ._exec "date").push_exec "date").push .cpu_stats "" := by
    rw [sort_elements_not_graphs _ _ "cpu_stats" _ (by decide)]
    rfl
  have h3 : sort_elements str_tokenize ("exec", "uptime")
      (((hud0.push ._exec "date").push_exec "date").push .cpu_stats "") =
      ((((hud0.push ._exec "date").push_exec "date").push .cpu_stats "").push
        ._exec "uptime").push_exec "uptime" := by
    rw [sort_elements_not_graphs _ _ "exec" _ (by decide)]
    rfl
  have ht : str_tokenize "cpu_load" = ["cpu_load"] := by decide
  simp only [configure, optionsDemo, List.foldl_cons, List.foldl_nil, h1, h2, h3,
    sort_elements_graphs_eq, ht]
  simp [HudElements.push, HudElements.push_exec, hud0, permitted_params, toInt32]

/-! ## `graphs` in closed form -/

theorem slide_eq (f : logData → ℚ) (data : List logData) :
    ∀ arr : List ℚ, arr ≠ [] → slide f data arr = (arr ++ data.map f).drop data.length := by
  induction data with
  | nil => intro arr _; simp [slide]
  | cons it rest ih =>
    intro arr hne
    obtain ⟨a, tl, rfl⟩ := List.exists_cons_of_ne_nil hne
    have hne2 : ((a :: tl) ++ [f it]).tail ≠ [] := by simp
    rw [slide, ih _ hne2]
    simp

theorem arr0_length : arr0.length = 50 := by simp [arr0]

theorem arr0_ne_nil : arr0 ≠ [] := by
  intro h
  have := arr0_length
  rw [h] at this
  simp at this

theorem slide_arr0 (f : logData → ℚ) (data : List logData) :
    slide f data arr0 = lastN 50 (arr0 ++ data.map f) := by
  rw [slide_eq f data _ arr0_ne_nil, lastN]
  simp [arr0_length]

theorem lastN_length (data : List ℚ) : (lastN 50 (arr0 ++ data)).length = 50 := by
  simp [lastN, arr0_length]

theorem plotted_append (a b : List Draw) : plotted (a ++ b) = plotted a ++ plotted b := by
  induction a with
  | nil => rfl
  | cons d a ih => cases d <;> simp [plotted, ih]

theorem plotted_tail (st : GraphsState) :
    plotted [Draw.PopFont, Draw.Dummy, Draw.PushStyleColor, Draw.TableNextRow,
      Draw.TableNextColumn, plot_call st, Draw.Dummy, Draw.PopStyleColor] = [st.arr] := by
  unfold plot_call
  cases st.hud.params.enabled_histogram <;> simp [plotted]

theorem graphs_eq (g : Globals) (h : HudElements) (f : Action) (value : String)
    (hp : 0 ≤ h.place) (he : h.ordered_functions[h.place.toNat]? = some (f, value)) :
    graphs g h =
      some ((blocks g value (graphsInit h)).hud,
        (blocks g value (graphsInit h)).out ++
          [Draw.PopFont, Draw.Dummy, Draw.PushStyleColor, Draw.TableNextRow,
            Draw.TableNextColumn, plot_call (blocks g value (graphsInit h)), Draw.Dummy,
            Draw.PopStyleColor]) := by
  unfold graphs
  rw [if_neg (by omega), he]
  rfl

theorem blocks_plotted (g : Globals) (value : String) (st : GraphsState) :
    plotted (blocks g value st).out = plotted st.out := by
  have e1 : ∀ st, plotted (block_cpu_load g value st).out = plotted st.out := by
    intro st; unfold block_cpu_load; split <;> simp [plotted_append, plotted]
  have e2 : ∀ st, plotted (block_gpu_load g value st).out = plotted st.out := by
    intro st; unfold block_gpu_load; split <;> simp [plotted_append, plotted]
  have e3 : ∀ st, plotted (block_cpu_temp g value st).out = plotted st.out := by
    intro st; unfold block_cpu_temp; split <;> simp [plotted_append, plotted]
  have e4 : ∀ st, plotted (block_gpu_temp g value st).out = plotted st.out := by
    intro st; unfold block_gpu_temp; split <;> simp [plotted_append, plotted]
  have e5 : ∀ st, plotted (block_gpu_core_clock g value st).out = plotted st.out := by
    intro st; unfold block_gpu_core_clock; split <;> simp [plotted_append, plotted]
  have e6 : ∀ st, plotted (block_gpu_mem_clock g value st).out = plotted st.out := by
    intro st; unfold block_gpu_mem_clock; split <;> simp [plotted_append, plotted]
  have e7 : ∀ st, plotted (block_vram g value st).out = plotted st.out := by
    intro st; unfold block_vram; split
    · split <;> simp [plotted_append, plotted]
    · rfl
  have e8 : ∀ st, plotted (block_ram g value st).out = plotted st.out := by
    intro st; unfold block_ram; split
    · split <;> simp [plotted_append, plotted]
    · rfl
  simp only [blocks, e1, e2, e3, e4, e5, e6, e7, e8]

theorem blocks_arr (g : Globals) (value : String) (st : GraphsState)
    (hv : value ∈ permitted_params) :
    (blocks g value st).arr =
      if skipped g value then st.arr else slide (sampleOf value) g.graph_data st.arr := by
  have f1 : sampleOf "cpu_load" = fun it => it.cpu_load := by funext it; simp [sampleOf]
  have f2 : sampleOf "gpu_load" = fun it => (it.gpu_load : ℚ) := by funext it; simp [sampleOf]
  have f3 : sampleOf "cpu_temp" = fun it => (it.cpu_temp : ℚ) := by funext it; simp [sampleOf]
  have f4 : sampleOf "gpu_temp" = fun it => (it.gpu_temp : ℚ) := by funext it; simp [sampleOf]
  have f5 : sampleOf "gpu_core_clock" = fun it => (it.gpu_core_clock : ℚ) := by
    funext it; simp [sampleOf]
  have f6 : sampleOf "gpu_mem_clock" = fun it => (it.gpu_mem_clock : ℚ) := by
    funext it; simp [sampleOf]
  have f7 : sampleOf "vram" = fun it => it.gpu_vram_used := by funext it; simp [sampleOf]
  have f8 : sampleOf "ram" = fun it => it.ram_used := by funext it; simp [sampleOf]
  simp only [permitted_params, List.mem_cons, List.mem_singleton, List.not_mem_nil, or_false]
    at hv
  rcases hv with rfl | rfl | rfl | rfl | rfl | rfl | rfl | rfl
  all_goals
    cases hg : g.g_active_gpu <;> cases hl : g.linux <;>
      simp [blocks, block_cpu_load, block_gpu_load, block_cpu_temp, block_gpu_temp,
        block_gpu_core_clock, block_gpu_mem_clock, block_vram, block_ram, hg, hl, skipped,
        f1, f2, f3, f4, f5, f6, f7, f8]

/-! ## The running maxima -/

theorem truncate_intCast (n : Int) : truncate (n : ℚ) = n := by
  unfold truncate
  by_cases h : (0 : ℚ) ≤ (n : ℚ)
  · simp [h, Rat.floor_def']
  · have : (-(n : ℚ)) = ((-n : Int) : ℚ) := by push_cast; rfl
    rw [if_neg h, this]
    simp [Rat.floor_def']

theorem back_slide (f : logData → ℚ) (w : List logData) (s : logData) (arr : List ℚ)
    (hne : arr ≠ []) : back (slide f (w ++ [s]) arr) = f s := by
  rw [slide_eq f _ arr hne]
  have hlen : 0 < arr.length := List.length_pos.mpr hne
  have : (arr ++ (w ++ [s]).map f).drop (w ++ [s]).length =
      (arr ++ w.map f).drop (w.length + 1) ++ [f s] := by
    rw [List.map_append, ← List.append_assoc, List.length_append, List.length_singleton,
      List.drop_append_of_le_length (by simp; omega)]
    rfl
  rw [this, back]
  simp

theorem blocks_frame (g : Globals) (value : String) (st : GraphsState) :
    (blocks g value st).hud.ordered_functions = st.hud.ordered_functions ∧
      (blocks g value st).hud.place = st.hud.place ∧
      (blocks g value st).hud.exec_list = st.hud.exec_list := by
  have e1 : ∀ st, (block_cpu_load g value st).hud.ordered_functions = st.hud.ordered_functions ∧
      (block_cpu_load g value st).hud.place = st.hud.place ∧
      (block_cpu_load g value st).hud.exec_list = st.hud.exec_list := by
    intro st; unfold block_cpu_load; split <;> simp
  have e2 : ∀ st, (block_gpu_load g value st).hud.ordered_functions = st.hud.ordered_functions ∧
      (block_gpu_load g value st).hud.place = st.hud.place ∧
      (block_gpu_load g value st).hud.exec_list = st.hud.exec_list := by
    intro st; unfold block_gpu_load; split <;> simp
  have e3 : ∀ st, (block_cpu_temp g value st).hud.ordered_functions = st.hud.ordered_functions ∧
      (block_cpu_temp g value st).hud.place = st.hud.place ∧
      (block_cpu_temp g value st).hud.exec_list = st.hud.exec_list := by
    intro st; unfold block_cpu_temp; split <;> simp
  have e4 : ∀ st, (block_gpu_temp g value st).hud.ordered_functions = st.hud.ordered_functions ∧
      (block_gpu_temp g value st).hud.place = st.hud.place ∧
      (block_gpu_temp g value st).hud.exec_list = st.hud.exec_list := by
    intro st; unfold block_gpu_temp; split <;> simp
  have e5 : ∀ st, (block_gpu_core_clock g value st).hud.ordered_functions =
        st.hud.ordered_functions ∧
      (block_gpu_core_clock g value st).hud.place = st.hud.place ∧
      (block_gpu_core_clock g value st).hud.exec_list = st.hud.exec_list := by
    intro st; unfold block_gpu_core_clock; split <;> simp
  have e6 : ∀ st, (block_gpu_mem_clock g value st).hud.ordered_functions =
        st.hud.ordered_functions ∧
      (block_gpu_mem_clock g value st).hud.place = st.hud.place ∧
      (block_gpu_mem_clock g value st).hud.exec_list = st.hud.exec_list := by
    intro st; unfold block_gpu_mem_clock; split <;> simp
  have e7 : ∀ st, (block_vram g value st).hud.ordered_functions = st.hud.ordered_functions ∧
      (block_vram g value st).hud.place = st.hud.place ∧
      (block_vram g value st).hud.exec_list = st.hud.exec_list := by
    intro st; unfold block_vram; split
    · split <;> simp
    · simp
  have e8 : ∀ st, (block_ram g value st).hud.ordered_functions = st.hud.ordered_functions ∧
      (block_ram g value st).hud.place = st.hud.place ∧
      (block_ram g value st).hud.exec_list = st.hud.exec_list := by
    intro st; unfold block_ram; split
    · split <;> simp
    · simp
  unfold blocks
  refine ⟨?_, ?_, ?_⟩
  · rw [(e8 _).1, (e7 _).1, (e6 _).1, (e5 _).1, (e4 _).1, (e3 _).1, (e2 _).1, (e1 _).1]
  · rw [(e8 _).2.1, (e7 _).2.1, (e6 _).2.1, (e5 _).2.1, (e4 _).2.1, (e3 _).2.1, (e2 _).2.1,
      (e1 _).2.1]
  · rw [(e8 _).2.2, (e7 _).2.2, (e6 _).2.2, (e5 _).2.2, (e4 _).2.2, (e3 _).2.2, (e2 _).2.2,
      (e1 _).2.2]

theorem blocks_max (g : Globals) (value : String) (st : GraphsState) (hv : value ∈ maxKinds) :
    runningMax value (blocks g value st).hud =
      max (runningMax value st.hud)
        (truncate (back (slide (fun it => (trackedOf value it : ℚ)) g.graph_data st.arr))) := by
  have key : ∀ a b : Int, (if a > b then a else b) = max b a := by
    intro a b
    by_cases hab : a > b
    · rw [if_pos hab, max_eq_right (le_of_lt hab)]
    · rw [if_neg hab, max_eq_left (not_lt.mp hab)]
  simp only [maxKinds, List.mem_cons, List.mem_singleton, List.not_mem_nil, or_false] at hv
  rcases hv with rfl | rfl | rfl | rfl
  all_goals
    cases hg : g.g_active_gpu <;> cases hl : g.linux <;>
      simp [blocks, block_cpu_load, block_gpu_load, block_cpu_temp, block_gpu_temp,
        block_gpu_core_clock, block_gpu_mem_clock, block_vram, block_ram, hg, hl, runningMax,
        trackedOf, key]

theorem blocks_mono (g : Globals) (value kind : String) (st : GraphsState) :
    runningMax kind st.hud ≤ runningMax kind (blocks g value st).hud := by
  have key : ∀ a b : Int, b ≤ (if b < a then a else b) := by
    intro a b
    by_cases hab : b < a
    · rw [if_pos hab]; exact le_of_lt hab
    · rw [if_neg hab]
  have e1 : ∀ st, runningMax kind st.hud ≤ runningMax kind (block_cpu_load g value st).hud := by
    intro st; unfold block_cpu_load; split <;> simp [runningMax]
  have e2 : ∀ st, runningMax kind st.hud ≤ runningMax kind (block_gpu_load g value st).hud := by
    intro st; unfold block_gpu_load; split <;> simp [runningMax]
  have e3 : ∀ st, runningMax kind st.hud ≤ runningMax kind (block_cpu_temp g value st).hud := by
    intro st; unfold block_cpu_temp
    by_cases hv : value = "cpu_temp"
    · rw [if_pos hv]; unfold runningMax; split_ifs <;> simp [key]
    · rw [if_neg hv]
  have e4 : ∀ st, runningMax kind st.hud ≤ runningMax kind (block_gpu_temp g value st).hud := by
    intro st; unfold block_gpu_temp
    by_cases hv : value = "gpu_temp"
    · rw [if_pos hv]; unfold runningMax; split_ifs <;> simp [key]
    · rw [if_neg hv]
  have e5 : ∀ st, runningMax kind st.hud ≤
      runningMax kind (block_gpu_core_clock g value st).hud := by
    intro st; unfold block_gpu_core_clock
    by_cases hv : value = "gpu_core_clock"
    · rw [if_pos hv]; unfold runningMax; split_ifs <;> simp [key]
    · rw [if_neg hv]
  have e6 : ∀ st, runningMax kind st.hud ≤
      runningMax kind (block_gpu_mem_clock g value st).hud := by
    intro st; unfold block_gpu_mem_clock
    by_cases hv : value = "gpu_mem_clock"
    · rw [if_pos hv]; unfold runningMax; split_ifs <;> simp [key]
    · rw [if_neg hv]
  have e7 : ∀ st, runningMax kind st.hud ≤ runningMax kind (block_vram g value st).hud := by
    intro st; unfold block_vram; split
    · split <;> simp [runningMax]
    · simp
  have e8 : ∀ st, runningMax kind st.hud ≤ runningMax kind (block_ram g value st).hud := by
    intro st; unfold block_ram; split
    · split <;> simp [runningMax]
    · simp
  unfold blocks
  exact le_trans (e1 _) (le_trans (e2 _) (le_trans (e3 _) (le_trans (e4 _) (le_trans (e5 _)
    (le_trans (e6 _) (le_trans (e7 _) (e8 _)))))))

theorem foldl_max_le (xs : List Int) : ∀ a : Int,
    a ≤ xs.foldl max a ∧ ∀ x ∈ xs, x ≤ xs.foldl max a := by
  induction xs with
  | nil => intro a; simp
  | cons y ys ih =>
    intro a
    obtain ⟨h1, h2⟩ := ih (max a y)
    refine ⟨le_trans (le_max_left a y) h1, ?_⟩
    intro x hx
    rcases List.mem_cons.mp hx with rfl | hx
    · exact le_trans (le_max_right a x) h1
    · exact h2 x hx

theorem foldl_max_mem (xs : List Int) : ∀ a : Int,
    xs.foldl max a = a ∨ xs.foldl max a ∈ xs := by
  induction xs with
  | nil => intro a; simp
  | cons y ys ih =>
    intro a
    rcases ih (max a y) with h | h
    · rw [List.foldl_cons, h]
      rcases max_choice a y with hm | hm
      · left; exact hm
      · right; rw [hm]; exact List.mem_cons_self y ys
    · right; exact List.mem_cons_of_mem y h

theorem graphs_step (g : Globals) (h : HudElements) (f : Action) (value : String)
    (hv : value ∈ maxKinds) (hp : 0 ≤ h.place)
    (he : h.ordered_functions[h.place.toNat]? = some (f, value))
    (w : List logData) (s : logData) :
    ∃ h1 out, graphs { g with graph_data := w ++ [s] } h = some (h1, out) ∧
      h1.ordered_functions = h.ordered_functions ∧ h1.place = h.place ∧
      runningMax value h1 = max (runningMax value h) (trackedOf value s) := by
  refine ⟨_, _, graphs_eq _ h f value hp he, (blocks_frame _ _ _).1, (blocks_frame _ _ _).2.1, ?_⟩
  rw [blocks_max _ _ _ hv]
  simp only [graphsInit]
  rw [back_slide _ _ _ _ arr0_ne_nil, truncate_intCast]

theorem graphsRun_max (g : Globals) (f : Action) (value : String) (hv : value ∈ maxKinds)
    (frames : List (List logData × logData)) :
    ∀ h : HudElements, 0 ≤ h.place →
      h.ordered_functions[h.place.toNat]? = some (f, value) →
      ∃ h1, graphsRun g h (frames.map fun w => w.1 ++ [w.2]) = some h1 ∧
        runningMax value h1 =
          (frames.map fun w => trackedOf value w.2).foldl max (runningMax value h) := by
  induction frames with
  | nil => intro h _ _; exact ⟨h, rfl, rfl⟩
  | cons w ws ih =>
    intro h hp he
    obtain ⟨h1, out, hg, hplan, hplace, hmax⟩ := graphs_step g h f value hv hp he w.1 w.2
    obtain ⟨h2, hrun, hfin⟩ := ih h1 (by rw [hplace]; exact hp) (by rw [hplan, hplace]; exact he)
    refine ⟨h2, ?_, ?_⟩
    · simp only [List.map_cons, graphsRun, hg]
      exact hrun
    · rw [hfin, hmax]
      rfl

theorem recorded_samples (samples : List logData) :
    ∀ data : List logData, (recorded data samples).map (fun w => w.2) = samples := by
  induction samples with
  | nil => intro data; rfl
  | cons s rest ih => intro data; simp [recorded, ih]

set_option maxRecDepth 20000 in
theorem samples60_window :
    ((recorded [] samples60).getLast?).map (fun w => w.1 ++ [w.2]) =
      some (List.replicate 50 (sampleTemp 40)) := by
  rfl

theorem samples60_temps :
    (recorded [] samples60).map (fun w => trackedOf "cpu_temp" w.2) =
      90 :: List.replicate 59 40 := by
  have h := congrArg (List.map (trackedOf "cpu_temp")) (recorded_samples samples60 [])
  rw [List.map_map] at h
  rw [show (fun w : List logData × logData => trackedOf "cpu_temp" w.2) =
    trackedOf "cpu_temp" ∘ (fun w => w.2) from rfl, h]
  simp [samples60, trackedOf, sampleTemp]

/-! ## `numBattery` called repeatedly -/

theorem batteries_length (sys : Sys) : (batteries sys).length = batEntries sys := by
  unfold batteries batEntries
  cases sys.root <;> simp

theorem copies_length (l : List String) (k : Nat) : (copies l k).length = k * l.length := by
  induction k with
  | zero => simp [copies]
  | succ k ih => simp [copies, ih]; ring

theorem copies_getElem? (l : List String) (k i : Nat) (hi : i < k * l.length) :
    (copies l k)[i]? = l[i % l.length]? := by
  induction k generalizing i with
  | zero => simp at hi
  | succ k ih =>
    simp only [copies]
    by_cases h : i < l.length
    · rw [List.getElem?_append_left h, Nat.mod_eq_of_lt h]
    · have h2 : l.length ≤ i := Nat.le_of_not_lt h
      rw [List.getElem?_append_right h2, ih (i - l.length) (by
        have : (k + 1) * l.length = k * l.length + l.length := by ring
        omega)]
      rw [Nat.mod_eq_sub_mod h2]

theorem numBatteryCalls_battPath (sys : Sys) (s : BatteryStats) (k : Nat) :
    (numBatteryCalls sys k s).battPath = s.battPath ++ copies (batteries sys) k := by
  induction k with
  | zero => simp [numBatteryCalls, copies]
  | succ k ih =>
    simp only [numBatteryCalls, numBattery_eq, ih, copies_succ, List.append_assoc]

/-! ## `format_units` in closed form -/

theorem f32_div_1024 (x : ℚ) (h : f32 x = x) : f32 (x / 1024) = x / 1024 := by
  have e : x / 1024 = x * 2 ^ (-10 : Int) := by
    rw [zpow_neg, div_eq_mul_inv]
    norm_num
  rw [e, f32_mul_zpow, h]

theorem format_loop_eq (j : Nat) : ∀ (fuel : Nat) (out : ℚ) (u : Nat),
    f32 out = out → j < fuel → u + j ≤ units.length → out / 1024 ^ j ≤ 1023 →
    (∀ i, i < j → ¬ out / 1024 ^ i ≤ 1023) →
    format_loop fuel out u = some (out / 1024 ^ j, u + j) := by
  induction j with
  | zero =>
    intro fuel out u _ hf _ hle _
    obtain ⟨f, rfl⟩ : ∃ f, fuel = f + 1 := ⟨fuel - 1, by omega⟩
    have hle2 : out ≤ 1023 := by simpa using hle
    simp [format_loop, not_lt.mpr hle2]
  | succ j ih =>
    intro fuel out u hfix hf hu hle hmin
    obtain ⟨f, rfl⟩ : ∃ f, fuel = f + 1 := ⟨fuel - 1, by omega⟩
    have h0 : out > 1023 := by
      have := hmin 0 (by omega)
      simpa using this
    have hu2 : u < units.length := by omega
    have e : ∀ i : Nat, out / 1024 / 1024 ^ i = out / 1024 ^ (i + 1) := by
      intro i
      rw [pow_succ, div_div, mul_comm]
    have hfix2 : f32 (out / 1024) = out / 1024 := f32_div_1024 out hfix
    unfold format_loop
    rw [if_pos ⟨h0, hu2⟩, hfix2, ih f (out / 1024) (u + 1) (by rw [hfix2]) (by omega) (by omega)
      (by rw [e]; exact hle) (fun i hi => by rw [e]; exact hmin (i + 1) (by omega)), e]
    congr 2
    omega

theorem format_loop_some (fuel : Nat) : ∀ (out : ℚ) (u : Nat), u ≤ units.length →
    units.length < fuel + u → ∃ r, format_loop fuel out u = some r := by
  induction fuel with
  | zero =>
    intro out u h1 h2
    omega
  | succ f ih =>
    intro out u h1 h2
    unfold format_loop
    split
    · rename_i hc
      exact ih _ _ (by omega) (by omega)
    · exact ⟨_, rfl⟩

/-- The loop of `format_units` ends within the fuel given by `format_units`,
whatever the value. -/
theorem format_loop_total (out : ℚ) : ∃ r, format_loop (units.length + 1) out 0 = some r :=
  format_loop_some _ out 0 (by omega) (by omega)

/-- The bound on the byte count matters: for the value `1024 ^ 8` the loop ends
with `u = 8`, past the end of the table. -/
theorem format_units_past_table : format_units (1024 ^ 8) = none := by
  decide!

theorem least_unit (w : ℚ) (hw : w ≤ 2 ^ 64) :
    ∃ u, u ≤ 6 ∧ w / 1024 ^ u ≤ 1023 ∧ ∀ j, w / 1024 ^ j ≤ 1023 → u ≤ j := by
  have h6 : w / 1024 ^ 6 ≤ 1023 := by
    rw [div_le_iff₀ (by positivity)]
    norm_num at hw ⊢
    linarith
  have hex : ∃ u, w / 1024 ^ u ≤ 1023 := ⟨6, h6⟩
  exact ⟨Nat.find hex, Nat.find_min' hex h6, Nat.find_spec hex,
    fun j hj => Nat.find_min' hex hj⟩

theorem f32_natCast_le (v : Nat) (hv : v < 2 ^ 64) : f32 (v : ℚ) ≤ 2 ^ 64 := by
  have h := f32_le_zpow (v : ℚ) 64 (by positivity) (by
    have : (v : ℚ) < ((2 ^ 64 : Nat) : ℚ) := by exact_mod_cast hv
    norm_num at this ⊢
    exact this)
  norm_num at h ⊢
  exact h

/-! ## The side table under `legacy_elements` and `update_exec` -/

theorem sort_elements_exec (tok : String → List String) (h : HudElements) (c : String) :
    sort_elements tok ("exec", c) h = (h.push ._exec c).push_exec c := by
  rw [sort_elements_not_graphs tok h "exec" c (by decide)]
  simp [actionOf, supported, List.lookup]

theorem holdsRow_sort (tok : String → List String) (o : String × String) (h : HudElements)
    (pos : Int) (c : String) (hr : holdsRow h pos c) :
    holdsRow (sort_elements tok o h) pos c := by
  obtain ⟨param, value⟩ := o
  obtain ⟨r, hm, hp, hv⟩ := hr
  by_cases hg : param = "graphs"
  · subst hg
    rw [sort_elements_graphs_eq]
    exact ⟨r, hm, hp, hv⟩
  · rw [sort_elements_not_graphs tok h param value hg]
    cases actionOf param with
    | none => exact ⟨r, hm, hp, hv⟩
    | some f =>
      by_cases hf : f = Action._exec
      · simp only [hf, if_true]
        exact ⟨r, by simp [HudElements.push_exec, HudElements.push, hm], hp, hv⟩
      · simp only [hf, if_false]
        exact ⟨r, hm, hp, hv⟩

theorem holdsRow_run (tok : String → List String) (call : Call) (h : HudElements)
    (pos : Int) (c : String) (hr : holdsRow h pos c) : holdsRow (call.run tok h) pos c := by
  cases call with
  | sort o => exact holdsRow_sort tok o h pos c hr
  | legacy =>
    obtain ⟨r, hm, hp, hv⟩ := hr
    simp only [Call.run, legacy_elements_eq]
    exact ⟨r, hm, hp, hv⟩
  | refresh exec =>
    obtain ⟨r, hm, hp, hv⟩ := hr
    exact ⟨{ r with ret := exec r.value }, by
      simp only [Call.run, update_exec, List.mem_map]
      exact ⟨r, hm, rfl⟩, hp, hv⟩

theorem holdsRow_runCalls (tok : String → List String) (calls : List Call) :
    ∀ (h : HudElements) (pos : Int) (c : String), holdsRow h pos c →
      holdsRow (runCalls tok calls h) pos c := by
  induction calls with
  | nil => intro h pos c hr; exact hr
  | cons call rest ih =>
    intro h pos c hr
    exact ih _ pos c (holdsRow_run tok call h pos c hr)

theorem legacy_elements_no_exec (h : HudElements) (pos : Int) :
    ¬ indexesExec (legacy_elements h) pos := by
  rintro ⟨i, -, v, hv⟩
  rw [legacy_elements_eq] at hv
  have hm := List.mem_iff_getElem?.mpr ⟨i, hv⟩
  simp at hm

/-! ## The charge level -/

/-- C1, evaluated on a directory with a single battery whose status is "Full":
after one `update()` of the fresh object, `fullCharge()` returns true although
only one device is present (slot 1 was filled from the same device as slot 0). -/
theorem fullCharge_single_full_battery :
    (numBattery sysOneFull fresh).1 = 1 ∧
      (update sysOneFull fresh).map fullCharge = some true := by
  constructor
  · decide
  · simp [update, getPower, isCharging, statusStep, getPercent, numBattery, sysOneFull,
      numBatteryStep, isBattery, findSub, startsWith, fresh, powerSupply, percentLoop,
      percentBody, File.present, File.getline, percentOf, BatteryStats.record,
      BatteryStats.stateAt, reading, addReading, fullCharge]

/-- C2, evaluated on two capacity-only devices reporting 80 and 60:
`getPercent()` returns 140, because the second device resets `charge_f` to 1
instead of adding 1 to it; the average of the two percents would be 70. -/
theorem getPercent_two_capacity_only :
    (getPercent sysTwoCapacity fresh).map Prod.fst = some (.fin 140) := by
  simp [getPercent, numBattery, sysTwoCapacity, numBatteryStep, isBattery, findSub, startsWith,
    fresh, powerSupply, percentLoop, percentBody, File.present, File.getline, percentOf]
  norm_num

/-- C3, evaluated on a charge-based device (3 of 4 Ah) followed by a
capacity-only device at 50: `getPercent()` returns 350, outside `[0, 100]`. -/
theorem getPercent_above_hundred :
    (getPercent sysChargeThenCapacity fresh).map Prod.fst = some (.fin 350) := by
  simp [getPercent, numBattery, sysChargeThenCapacity, numBatteryStep, isBattery, findSub,
    startsWith, fresh, powerSupply, percentLoop, percentBody, File.present, File.getline,
    percentOf, addReading]
  norm_num

/-- C4: when every battery device has a readable `charge_now` and
`charge_full` and the `charge_full` values do not sum to zero, `getPercent()`
returns `100 * (sum of charge_now) / (sum of charge_full)`, in exact rational
arithmetic (the sums run over the devices in scan order; a non-zero sum needs
at least one device). -/
theorem getPercent_charge_based (sys : Sys) (s : BatteryStats) (hs : Synced sys s)
    (hdev : ∀ p ∈ batteries sys,
      Readable sys (p ++ "/charge_now") ∧ Readable sys (p ++ "/charge_full"))
    (hfull : ((batteries sys).map fun p => numberAt sys (p ++ "/charge_full")).sum ≠ 0) :
    (getPercent sys s).map Prod.fst =
      some (.fin (100 * ((batteries sys).map fun p => numberAt sys (p ++ "/charge_now")).sum /
        ((batteries sys).map fun p => numberAt sys (p ++ "/charge_full")).sum)) := by
  rw [getPercent_eq sys s hs, percentPaths_charge sys _ hdev]
  simp only [Option.map_some', percentOf, zero_add]
  rw [if_neg (by simpa using hfull)]
  congr 2
  field_simp
  ring

/-- Three charge-based batteries holding 1, 2 and 0 Ah of 4, 2 and 4 Ah:
`getPercent()` returns 30. -/
theorem getPercent_charge_based_witness :
    (getPercent sysLevels fresh).map Prod.fst = some (.fin 30) := by
  have h := getPercent_charge_based sysLevels fresh (fresh_synced _)
    (by
      intro p hp
      simp [batteries, sysLevels, isBattery, findSub, startsWith, powerSupply] at hp
      rcases hp with rfl | rfl | rfl <;> simp [Readable, sysLevels])
    (by
      simp [batteries, sysLevels, isBattery, findSub, startsWith, powerSupply, numberAt,
        File.getline]
      norm_num)
  rw [h]
  simp [batteries, sysLevels, isBattery, findSub, startsWith, powerSupply, numberAt, File.getline]
  norm_num

/-- C5 as stated fails: for the single capacity-only device reading "53",
`getPercent()` computes `53 / 100` and the product by 100 in `float`
arithmetic and returns `53 - 2 ^ (-18)`, about 52.9999962, which `int()`
truncates to 52. -/
theorem getPercent_capacity_53 :
    (getPercent32 sysCapacity53 fresh).map Prod.fst = some (.fin (13893631 / 262144)) ∧
      (13893631 / 262144 : ℚ) = 53 - 1 / 2 ^ 18 ∧ (13893631 / 262144 : ℚ) ≠ 53 ∧
      truncate (13893631 / 262144) = 52 := by
  refine ⟨by decide!, by norm_num, by norm_num, by decide!⟩

/-- C5, amended: a single device without `charge_now` and without `energy_now`
whose `capacity` file reads `c` makes `getPercent()` return exactly `c` in
exact rational arithmetic.  In the `float` arithmetic of the program, for an
integer reading `n` from 0 to 100 it returns `n` itself, except for 15, where
it returns `n + 2 ^ (-20)`, for 27 and 30, where it returns `n + 2 ^ (-19)`,
for 54 and 60, where it returns `n + 2 ^ (-18)`, and for 53 and 59, where it
returns `n - 2 ^ (-18)`. -/
theorem getPercent_single_capacity (sys : Sys) (s : BatteryStats) (p : String) (l : Line) (c : ℚ)
    (hs : Synced sys s) (hb : batteries sys = [p])
    (hcharge : (sys.file (p ++ "/charge_now")).present = false)
    (henergy : (sys.file (p ++ "/energy_now")).present = false)
    (hcap : sys.file (p ++ "/capacity") = .line l) (hc : l.stof = some c) :
    (getPercent sys s).map Prod.fst = some (.fin c) ∧
      ∀ n : Nat, c = n → n ≤ 100 →
        (getPercent32 sys s).map Prod.fst = some (.fin (capacityShown n)) := by
  constructor
  · rw [getPercent_eq sys s hs, hb]
    simp [percentPaths, percentBody, hcharge, henergy, hcap, hc, File.getline, percentOf]
  · intro n hn h100
    rw [getPercent32_eq sys s hs, hb]
    simp only [percentPaths32, percentBody32, hcharge, henergy, hcap, hc, File.getline,
      Bool.false_eq_true, if_false, Option.some_bind, Option.map_some', percentOf32,
      one_ne_zero, hn, capacityShown_eq n h100]

/-- The device reporting "57" yields 57, in exact and in `float` arithmetic. -/
theorem getPercent_single_capacity_witness :
    (getPercent sysCapacity57 fresh).map Prod.fst = some (.fin 57) ∧
      (getPercent32 sysCapacity57 fresh).map Prod.fst = some (.fin 57) := by
  have h := getPercent_single_capacity sysCapacity57 fresh "/sys/class/power_supply/BAT0"
    ⟨"57", some 57⟩ 57 (fresh_synced _) (by decide) (by decide) (by decide) (by decide) rfl
  refine ⟨h.1, ?_⟩
  have h2 := h.2 57 (by norm_num) (by norm_num)
  rw [h2]
  simp [capacityShown]

/-- C7 as stated fails: after `isCharging()` has recorded "Charging" for slot 0
(first conjunct: one call on `sysChargingA` from the start yields
`staleCharging`), a call made when neither status file can be read any more
still returns true, although no slot reports "Charging" now. -/
theorem isCharging_stale :
    isCharging sysChargingA fresh = some (true, staleCharging) ∧
      ¬ ((isCharging sysStatusGone staleCharging).map Prod.fst = some true ↔
        (reported sysStatusGone staleCharging 0 = some "Charging" ∨
          reported sysStatusGone staleCharging 1 = some "Charging")) := by
  constructor
  · simp [isCharging, statusStep, numBattery, sysChargingA, numBatteryStep, isBattery, findSub,
      startsWith, fresh, powerSupply, File.getline, BatteryStats.record, BatteryStats.stateAt,
      staleCharging]
  · simp [isCharging, statusStep, numBattery, sysStatusGone, numBatteryStep, isBattery, findSub,
      startsWith, powerSupply, File.getline, BatteryStats.record, BatteryStats.stateAt,
      staleCharging, reported, slotPath, batteries]

/-- C7, amended: provided no battery is detected or the vector of paths holds
at least two entries after the scan, `isCharging()` returns; with no battery
detected it returns false and leaves the object as it was; otherwise each of
the slots 0 and 1 takes the line of its status file when one can be read and
keeps the status recorded on an earlier call when not, and the result is true
iff one of the two statuses so recorded equals "Charging". -/
theorem isCharging_iff_recorded (sys : Sys) (s : BatteryStats)
    (h : batteries sys = [] ∨ 2 ≤ (s.battPath ++ batteries sys).length) :
    ∃ b s1, isCharging sys s = some (b, s1) ∧
      (batteries sys = [] → b = false ∧ s1 = s) ∧
      (batteries sys ≠ [] →
        s1.state0 = slotStatus sys s 0 ∧ s1.state1 = slotStatus sys s 1 ∧
        (b = true ↔ slotStatus sys s 0 = "Charging" ∨ slotStatus sys s 1 = "Charging")) := by
  by_cases hn : batteries sys = []
  · exact ⟨false, s, isCharging_none sys s hn, fun _ => ⟨rfl, rfl⟩, fun h => absurd hn h⟩
  · have h2 : 2 ≤ (s.battPath ++ batteries sys).length := h.resolve_left hn
    have h0 : slotPath sys s 0 = some ((s.battPath ++ batteries sys)[0]) :=
      List.getElem?_eq_getElem (by omega)
    have h1 : slotPath sys s 1 = some ((s.battPath ++ batteries sys)[1]) :=
      List.getElem?_eq_getElem (by omega)
    refine ⟨_, _, isCharging_two sys s _ _ hn h0 h1, fun h => absurd h hn, fun _ => ?_⟩
    simp [slotStatus, h0, h1, refreshed, BatteryStats.stateAt]

/-- The stale object on the directory whose status files are gone: the call
returns true because slot 0 keeps "Charging". -/
theorem isCharging_iff_recorded_witness :
    ∃ b s1, isCharging sysStatusGone staleCharging = some (b, s1) ∧
      (batteries sysStatusGone = [] → b = false ∧ s1 = staleCharging) ∧
      (batteries sysStatusGone ≠ [] →
        s1.state0 = slotStatus sysStatusGone staleCharging 0 ∧
        s1.state1 = slotStatus sysStatusGone staleCharging 1 ∧
        (b = true ↔ slotStatus sysStatusGone staleCharging 0 = "Charging" ∨
          slotStatus sysStatusGone staleCharging 1 = "Charging")) :=
  isCharging_iff_recorded sysStatusGone staleCharging (Or.inr (by decide))

/-- C8: whenever `isCharging()` is true, `getPower(i)` returns 0, whatever the
`current_now`, `voltage_now` and `power_now` files hold: both for the call of
`isCharging()` that `getPower(i)` makes itself, and for a call of
`getPower(i)` that follows a call of `isCharging()` which returned true (the
files being the same). -/
theorem getPower_zero_when_charging (sys : Sys) (i : Nat) (s : BatteryStats)
    (hi : i < s.battPath.length) (hc : (isCharging sys s).map Prod.fst = some true) :
    (getPower sys i s).map Prod.fst = some 0 ∧
      ∀ s1, isCharging sys s = some (true, s1) → (getPower sys i s1).map Prod.fst = some 0 := by
  have first : ∀ (j : Nat) (t : BatteryStats), j < t.battPath.length →
      (isCharging sys t).map Prod.fst = some true → (getPower sys j t).map Prod.fst = some 0 := by
    intro j t hj ht
    unfold getPower
    rw [List.getElem?_eq_getElem hj]
    cases h : isCharging sys t with
    | none => simp [h] at ht
    | some r =>
      obtain ⟨b, t1⟩ := r
      simp [h] at ht
      subst ht
      simp
  refine ⟨first i s hi hc, ?_⟩
  intro s1 hs1
  have hn : batteries sys ≠ [] := by
    intro h
    rw [isCharging_none sys s h] at hs1
    simp at hs1
  obtain ⟨p0, p1, h0, h1⟩ := isCharging_slots sys s hn _ hs1
  rw [isCharging_two sys s p0 p1 hn h0 h1] at hs1
  simp only [Option.some.injEq, Prod.mk.injEq] at hs1
  obtain ⟨hflag, rfl⟩ := hs1
  apply first
  · simp only [refreshed, List.length_append]; omega
  · have h0r : slotPath sys (refreshed sys p0 p1 s) 0 = some p0 := getElem?_append_some h0
    have h1r : slotPath sys (refreshed sys p0 p1 s) 1 = some p1 := getElem?_append_some h1
    rw [isCharging_two sys _ p0 p1 hn h0r h1r]
    simp only [refreshed, statusOf_idem, Option.map_some', hflag]

/-- Slot 0 is charging and draws 2 A at 12 V: `getPower(0)` returns 0. -/
theorem getPower_zero_when_charging_witness :
    (getPower sysChargingA 0 staleCharging).map Prod.fst = some 0 :=
  (getPower_zero_when_charging sysChargingA 0 staleCharging (by decide)
    (by simp [isCharging, statusStep, numBattery, sysChargingA, numBatteryStep, isBattery, findSub,
      startsWith, powerSupply, File.getline, BatteryStats.record, BatteryStats.stateAt,
      staleCharging])).1

/-- C9 as stated fails: the device has `current_now` (2 A) but no `voltage_now`,
and `power_now` reads 5 W; while `isCharging()` is false, `getPower(0)`
returns 0, not `power_now / 1e6 = 5`. -/
theorem getPower_voltage_missing :
    (isCharging sysNoVoltage (numBattery sysNoVoltage fresh).2).map Prod.fst = some false ∧
      (sysNoVoltage.file "/sys/class/power_supply/BAT0/current_now").present = true ∧
      sysNoVoltage.file "/sys/class/power_supply/BAT0/voltage_now" = .missing ∧
      (getPower sysNoVoltage 0 (numBattery sysNoVoltage fresh).2).map Prod.fst = some 0 ∧
      numberAt sysNoVoltage "/sys/class/power_supply/BAT0/power_now" / 1000000 = 5 := by
  refine ⟨?_, by decide, by decide, ?_, ?_⟩
  · simp [isCharging, statusStep, numBattery, sysNoVoltage, numBatteryStep, isBattery, findSub,
      startsWith, powerSupply, File.getline, BatteryStats.record, BatteryStats.stateAt, fresh]
  · simp [getPower, isCharging, statusStep, numBattery, sysNoVoltage, numBatteryStep, isBattery, findSub,
      startsWith, powerSupply, File.getline, BatteryStats.record, BatteryStats.stateAt, fresh,
      File.present, reading]
  · simp [numberAt, sysNoVoltage, File.getline]
    norm_num

/-- C9, amended: while `isCharging()` is false, `getPower(i)` reads `current_now`
and `voltage_now` when the file `current_now` exists, and `power_now` only when
it does not.  When `std::stof` accepts the lines read from these files, it
returns `(current_now / 1e6) * (voltage_now / 1e6)` in the first case, a
reading whose line cannot be read counting as 0 (so 0 when `voltage_now` is
missing), and `power_now / 1e6` in the second, whatever the file that is not
read holds; when `std::stof` rejects a line that is read, the call raises. -/
theorem getPower_discharging (sys : Sys) (i : Nat) (s : BatteryStats) (p : String)
    (hp : s.battPath[i]? = some p) (hc : (isCharging sys s).map Prod.fst = some false) :
    ((sys.file (p ++ "/current_now")).present = true →
      (Parses sys (p ++ "/current_now") → Parses sys (p ++ "/voltage_now") →
        (getPower sys i s).map Prod.fst =
          some (numberAt sys (p ++ "/current_now") / 1000000 *
            (numberAt sys (p ++ "/voltage_now") / 1000000))) ∧
      (¬ (Parses sys (p ++ "/current_now") ∧ Parses sys (p ++ "/voltage_now")) →
        getPower sys i s = none) ∧
      ((sys.file (p ++ "/voltage_now")).getline = none → Parses sys (p ++ "/current_now") →
        (getPower sys i s).map Prod.fst = some 0)) ∧
    ((sys.file (p ++ "/current_now")).present = false →
      (Parses sys (p ++ "/power_now") →
        (getPower sys i s).map Prod.fst =
          some (numberAt sys (p ++ "/power_now") / 1000000)) ∧
      (¬ Parses sys (p ++ "/power_now") → getPower sys i s = none)) := by
  obtain ⟨s1, hs1⟩ := isCharging_false sys s hc
  have hopen := getPower_open sys i s s1 p hp hs1
  have hiff := powerParses_iff sys p
  constructor
  · intro hcur
    simp only [hcur, if_true] at hiff
    have hval : Parses sys (p ++ "/current_now") → Parses sys (p ++ "/voltage_now") →
        (getPower sys i s).map Prod.fst =
          some (numberAt sys (p ++ "/current_now") / 1000000 *
            (numberAt sys (p ++ "/voltage_now") / 1000000)) := by
      intro h1 h2
      rw [hopen, wattage_some sys p (hiff.mpr ⟨h1, h2⟩)]
      simp [powerOf, hcur]
    refine ⟨hval, ?_, ?_⟩
    · intro hn
      rw [hopen, wattage_none sys p (fun h => hn (hiff.mp h))]
      rfl
    · intro hvol h1
      rw [hval h1 (fun l hl => by rw [hvol] at hl; cases hl)]
      simp [numberAt, hvol]
  · intro hcur
    simp only [hcur, Bool.false_eq_true, if_false] at hiff
    constructor
    · intro h1
      rw [hopen, wattage_some sys p (hiff.mpr h1)]
      simp [powerOf, hcur]
    · intro hn
      rw [hopen, wattage_none sys p (fun h => hn (hiff.mp h))]
      rfl

/-- A discharging device drawing 2 A at 12 V: `getPower(0)` returns 24, also
when its `power_now`, which is not read, holds the text "unknown". -/
theorem getPower_discharging_witness :
    (getPower sysTwoDischarging 0 (grow sysTwoDischarging fresh)).map Prod.fst = some 24 ∧
      (getPower sysUnreadGarbled 0 (grow sysUnreadGarbled fresh)).map Prod.fst = some 24 ∧
      ¬ Parses sysUnreadGarbled "/sys/class/power_supply/BAT0/power_now" := by
  have h1 := ((getPower_discharging sysTwoDischarging 0 (grow sysTwoDischarging fresh)
    "/sys/class/power_supply/BAT0" (by decide)
    (by simp [isCharging, statusStep, numBattery, sysTwoDischarging, numBatteryStep, isBattery,
      findSub, startsWith, powerSupply, File.getline, BatteryStats.record, BatteryStats.stateAt,
      fresh, grow, batteries])).1 (by decide)).1
    (by simp [Parses, sysTwoDischarging, File.getline])
    (by simp [Parses, sysTwoDischarging, File.getline])
  have h2 := ((getPower_discharging sysUnreadGarbled 0 (grow sysUnreadGarbled fresh)
    "/sys/class/power_supply/BAT0" (by decide)
    (by simp [isCharging, statusStep, numBattery, sysUnreadGarbled, numBatteryStep, isBattery,
      findSub, startsWith, powerSupply, File.getline, BatteryStats.record, BatteryStats.stateAt,
      fresh, grow, batteries])).1 (by decide)).1
    (by simp [Parses, sysUnreadGarbled, File.getline])
    (by simp [Parses, sysUnreadGarbled, File.getline])
  refine ⟨?_, ?_, ?_⟩
  · rw [h1]
    simp [sysTwoDischarging, numberAt, File.getline]
    norm_num
  · rw [h2]
    simp [sysUnreadGarbled, numberAt, File.getline]
    norm_num
  · simp [Parses, sysUnreadGarbled, File.getline]

/-- C10 as stated fails for three devices: `update()` leaves `current_watt` and
`current_percent` at their initial 0, while afterwards `getPower(i)` returns 1
for each of the three devices (sum 3) and `getPercent()` returns 50. -/
theorem update_three_batteries :
    (numBattery sysThree fresh).1 = 3 ∧
      (update sysThree fresh).map (fun s => (s.current_watt, s.current_percent)) =
        some (0, .fin 0) ∧
      ((update sysThree fresh).bind (getPower sysThree 0)).map Prod.fst = some 1 ∧
      ((update sysThree fresh).bind (getPower sysThree 1)).map Prod.fst = some 1 ∧
      ((update sysThree fresh).bind (getPower sysThree 2)).map Prod.fst = some 1 ∧
      ((update sysThree fresh).bind (getPercent sysThree)).map Prod.fst = some (.fin 50) := by
  have hu : update sysThree fresh = some (grow sysThree (grow sysThree (grow sysThree fresh))) := by
    unfold update
    simp only [numBattery_grow]
    have h3 : (batteries sysThree).length = 3 := by decide
    simp [h3]
  have hb : batteries sysThree = ["/sys/class/power_supply/BAT0", "/sys/class/power_supply/BAT1",
      "/sys/class/power_supply/BAT2"] := by decide
  refine ⟨by decide, ?_, ?_, ?_, ?_, ?_⟩
  · rw [hu]; simp [grow, fresh]
  · rw [hu]
    simp only [getPower, isCharging, statusStep, numBattery_grow, grow, hb, fresh]
    simp [sysThree, File.getline, File.present, BatteryStats.record, BatteryStats.stateAt,
      reading]
  · rw [hu]
    simp only [getPower, isCharging, statusStep, numBattery_grow, grow, hb, fresh]
    simp [sysThree, File.getline, File.present, BatteryStats.record, BatteryStats.stateAt,
      reading]
  · rw [hu]
    simp only [getPower, isCharging, statusStep, numBattery_grow, grow, hb, fresh]
    simp [sysThree, File.getline, File.present, BatteryStats.record, BatteryStats.stateAt,
      reading]
  · rw [hu]
    simp only [getPercent, numBattery_grow, grow, hb, fresh]
    simp [sysThree, percentLoop, percentBody, File.getline, File.present, addReading, percentOf]
    norm_num

/-- C10, amended: for one or two detected devices, provided `std::stof`
accepts every line that the call reads (the level files of each device and,
unless `isCharging()` returns true, its power files), `update()` returns,
`current_watt` afterwards equals the sum of `getPower(i)` over the devices and
`current_percent` equals `getPercent()`; when `std::stof` rejects a line that
is read, `update()` raises.  For no device and for three or more devices
`update()` reads no attribute file, returns, and leaves `current_watt` and
`current_percent` as they were. -/
theorem update_totals (sys : Sys) (s : BatteryStats) :
    (((batteries sys).length = 1 ∨ (batteries sys).length = 2) → UpdateParses sys s →
      ∃ s1, update sys s = some s1 ∧
        (∃ ws : List ℚ, ws.length = (batteries sys).length ∧
          (∀ i, i < (batteries sys).length → (getPower sys i s1).map Prod.fst = ws[i]?) ∧
          s1.current_watt = ws.sum) ∧
        (getPercent sys s1).map Prod.fst = some s1.current_percent) ∧
    (((batteries sys).length = 1 ∨ (batteries sys).length = 2) → ¬ UpdateParses sys s →
      update sys s = none) ∧
    (((batteries sys).length = 0 ∨ 3 ≤ (batteries sys).length) →
      ∃ s1, update sys s = some s1 ∧ s1.current_watt = s.current_watt ∧
        s1.current_percent = s.current_percent) :=
  ⟨update_returns sys s, update_raises sys s, update_other sys s⟩

/-- Two discharging devices whose unread attribute files hold the text
"unknown": 24 W + 5 W and 3 of 8 units of charge.  Two devices with an
unparsable `charge_now`: the call raises.  Three devices: nothing changes. -/
theorem update_totals_witness :
    (∃ s1, update sysUnreadGarbled fresh = some s1 ∧
      (∃ ws : List ℚ, ws.length = (batteries sysUnreadGarbled).length ∧
        (∀ i, i < (batteries sysUnreadGarbled).length →
          (getPower sysUnreadGarbled i s1).map Prod.fst = ws[i]?) ∧
        s1.current_watt = ws.sum) ∧
      (getPercent sysUnreadGarbled s1).map Prod.fst = some s1.current_percent) ∧
    (update sysUnreadGarbled fresh).map (fun s => (s.current_watt, s.current_percent)) =
      some (29, .fin (75 / 2)) ∧
    ¬ DeviceParses sysUnreadGarbled "/sys/class/power_supply/BAT0" ∧
    update sysGarbled fresh = none ∧
    (∃ s1, update sysThree fresh = some s1 ∧
      s1.current_watt = fresh.current_watt ∧ s1.current_percent = fresh.current_percent) := by
  have hv : visited sysUnreadGarbled fresh =
      ["/sys/class/power_supply/BAT0", "/sys/class/power_supply/BAT1"] := by decide
  have hpar : UpdateParses sysUnreadGarbled fresh := by
    unfold UpdateParses
    rw [hv]
    constructor
    · intro _ p hp
      simp at hp
      rcases hp with rfl | rfl <;> intro name hname <;>
        simp [powerFiles, sysUnreadGarbled, File.present] at hname <;>
        rcases hname with rfl | rfl <;> simp [Parses, sysUnreadGarbled, File.getline]
    · intro p hp
      simp at hp
      rcases hp with rfl | rfl <;> intro name hname <;>
        simp [levelFiles, schemeOf, sysUnreadGarbled, File.present] at hname
      · rcases hname with rfl | rfl <;> simp [Parses, sysUnreadGarbled, File.getline]
      · rcases hname with rfl | rfl | rfl <;> simp [Parses, sysUnreadGarbled, File.getline]
  have hnot : ¬ UpdateParses sysGarbled fresh := by
    intro h
    have h1 := h.2 "/sys/class/power_supply/BAT0" (by decide) "/charge_now"
      (by simp [levelFiles, schemeOf, sysGarbled, File.present])
    simp [Parses, sysGarbled, File.getline] at h1
  refine ⟨(update_totals sysUnreadGarbled fresh).1 (Or.inr (by decide)) hpar, ?_, ?_,
    (update_totals sysGarbled fresh).2.1 (Or.inr (by decide)) hnot,
    (update_totals sysThree fresh).2.2 (Or.inr (by decide))⟩
  · simp [update, getPower, isCharging, statusStep, getPercent, numBattery, sysUnreadGarbled,
      numBatteryStep, isBattery, findSub, startsWith, fresh, powerSupply, percentLoop,
      percentBody, File.present, File.getline, percentOf, BatteryStats.record,
      BatteryStats.stateAt, reading, addReading]
    norm_num
  · intro h
    have h1 := h "/power_now" (by simp [numericAttrs])
    simp [Parses, sysUnreadGarbled, File.getline] at h1

/-- The two discharging devices give 24 W + 5 W and 3 of 8 units of charge. -/
theorem update_two_discharging_value :
    (update sysTwoDischarging fresh).map (fun s => (s.current_watt, s.current_percent)) =
      some (29, .fin (75 / 2)) := by
  simp [update, getPower, isCharging, statusStep, getPercent, numBattery, sysTwoDischarging,
      numBatteryStep, isBattery, findSub, startsWith, fresh, powerSupply, percentLoop,
      percentBody, File.present, File.getline, percentOf, BatteryStats.record,
      BatteryStats.stateAt, reading, addReading]
  norm_num


/-! ## Failure policy, empty directory, scheme probing -/

/-- C12: when the directory holds no battery device, `numBattery()` returns 0,
`update()` returns and leaves `current_percent` and `current_watt` as they
were, and `isCharging()` returns false; when `batt_count` is 0, `battery()`
makes no drawing call. -/
theorem zero_batteries (sys : Sys) (s : BatteryStats) (g : Globals) (h : HudElements)
    (hz : batteries sys = []) (hc : g.batt_count = 0) :
    (numBattery sys s).1 = 0 ∧
      (∃ s1, update sys s = some s1 ∧ s1.current_percent = s.current_percent ∧
        s1.current_watt = s.current_watt) ∧
      (isCharging sys s).map Prod.fst = some false ∧
      battery g s h = some [] := by
  refine ⟨?_, ?_, ?_, ?_⟩
  · rw [numBattery_eq, hz]; rfl
  · obtain ⟨s1, hu, hw, hp⟩ := update_other sys s (Or.inl (by rw [hz]; rfl))
    exact ⟨s1, hu, hp, hw⟩
  · rw [isCharging_none sys s hz]; rfl
  · unfold battery
    simp [hc]

/-- A directory with a mains adapter and a USB-C source only. -/
theorem zero_batteries_witness :
    (numBattery sysNoBattery fresh).1 = 0 ∧
      (∃ s1, update sysNoBattery fresh = some s1 ∧ s1.current_percent = fresh.current_percent ∧
        s1.current_watt = fresh.current_watt) ∧
      (isCharging sysNoBattery fresh).map Prod.fst = some false ∧
      battery globalsNoBattery fresh hud0 = some [] :=
  zero_batteries sysNoBattery fresh globalsNoBattery hud0 (by decide) rfl

/-- C13 as stated fails: the device has `charge_now` but no `charge_full`, and
both energy files (2 of 4 Wh, which would give 50); the specification's rule
makes it energy-based, but `getPercent()` takes the charge branch, adds
nothing to `charge_f` and returns the quotient by zero. -/
theorem charge_now_without_charge_full :
    schemeClaimed sysChargeNoFull "/sys/class/power_supply/BAT0" = .energyBased ∧
      percentOf (numberAt sysChargeNoFull "/sys/class/power_supply/BAT0/energy_now" / 1000000,
        numberAt sysChargeNoFull "/sys/class/power_supply/BAT0/energy_full" / 1000000) =
          .fin 50 ∧
      (getPercent sysChargeNoFull fresh).map Prod.fst = some .nonFinite := by
  refine ⟨by decide, ?_, ?_⟩
  · simp [percentOf, numberAt, sysChargeNoFull, File.getline]
    norm_num
  · simp [getPercent, numBattery, sysChargeNoFull, numBatteryStep, isBattery, findSub, startsWith,
      fresh, powerSupply, percentLoop, percentBody, File.present, File.getline, addReading,
      percentOf]

/-- C13, amended: `getPercent()` treats a device as charge-based iff
`charge_now` exists (whether or not `charge_full` does), otherwise as
energy-based iff `energy_now` exists, otherwise as capacity-only.  When
`std::stof` accepts the lines read from the files of that scheme, the loop body
adds the contribution of the scheme; when it rejects one, the call raises.
The files of the other schemes are not read: the loop body gives the same
result on every file system that agrees on the files it inspects.  A device
that has `charge_now` but no readable `charge_full` adds `charge_now / 1e6`
to `now_sum` and nothing to `full_sum`.  On an object in step with the
directory, `getPercent()` returns the percent of the contributions of the
devices when every line read is accepted, and raises otherwise. -/
theorem percentBody_scheme (sys : Sys) (p : String) (acc : ℚ × ℚ) :
    (schemeOf sys p = .chargeBased ↔ (sys.file (p ++ "/charge_now")).present = true) ∧
      (schemeOf sys p = .energyBased ↔ (sys.file (p ++ "/charge_now")).present = false ∧
        (sys.file (p ++ "/energy_now")).present = true) ∧
      (schemeOf sys p = .capacityOnly ↔ (sys.file (p ++ "/charge_now")).present = false ∧
        (sys.file (p ++ "/energy_now")).present = false) ∧
      (LevelParses sys p → percentBody sys p acc = some (contribution sys p acc)) ∧
      (¬ LevelParses sys p → percentBody sys p acc = none) ∧
      (∀ other : Sys,
        (∀ name ∈ levelFiles sys p, other.file (p ++ name) = sys.file (p ++ name)) →
        percentBody other p acc = percentBody sys p acc) ∧
      ((sys.file (p ++ "/charge_now")).present = true →
        (sys.file (p ++ "/charge_full")).getline = none →
        levelFiles sys p = ["/charge_now", "/charge_full"] ∧
        contribution sys p acc =
          (acc.1 + numberAt sys (p ++ "/charge_now") / 1000000, acc.2)) ∧
      (∀ s : BatteryStats, Synced sys s →
        ((∀ q ∈ batteries sys, LevelParses sys q) →
          (getPercent sys s).map Prod.fst =
            some (percentOf
              ((batteries sys).foldl (fun a q => contribution sys q a) (0, 0)))) ∧
        (¬ (∀ q ∈ batteries sys, LevelParses sys q) → getPercent sys s = none)) := by
  refine ⟨?_, ?_, ?_, percentBody_level sys p acc, percentBody_raises sys p acc,
    fun other h => percentBody_congr sys other p acc h, ?_, ?_⟩
  · unfold schemeOf
    by_cases hc : (sys.file (p ++ "/charge_now")).present = true
    · simp [hc]
    · by_cases he : (sys.file (p ++ "/energy_now")).present = true <;> simp [hc, he]
  · unfold schemeOf
    by_cases hc : (sys.file (p ++ "/charge_now")).present = true
    · simp [hc]
    · by_cases he : (sys.file (p ++ "/energy_now")).present = true <;> simp [hc, he]
  · unfold schemeOf
    by_cases hc : (sys.file (p ++ "/charge_now")).present = true
    · simp [hc]
    · by_cases he : (sys.file (p ++ "/energy_now")).present = true <;> simp [hc, he]
  · intro hc hf
    constructor
    · simp [levelFiles, schemeOf, hc]
    · simp [contribution, schemeOf, hc, numberAt, hf]
  · intro s hs
    constructor
    · intro hall
      rw [getPercent_eq sys s hs, percentPaths_level sys _ hall]
      rfl
    · intro hnot
      rw [getPercent_eq sys s hs, percentPaths_raises sys _ hnot]
      rfl

/-- The device with `charge_now` (1 Ah) and no `charge_full` contributes
(1, 0), both with energy files that read 2 of 4 Wh and with energy files and a
`capacity` that hold the text "unknown". -/
theorem percentBody_scheme_witness :
    percentBody sysChargeNoFull "/sys/class/power_supply/BAT0" (0, 0) = some (1, 0) ∧
      percentBody sysChargeGarbledEnergy "/sys/class/power_supply/BAT0" (0, 0) = some (1, 0) ∧
      ¬ Parses sysChargeGarbledEnergy "/sys/class/power_supply/BAT0/energy_now" := by
  have h := percentBody_scheme sysChargeGarbledEnergy "/sys/class/power_supply/BAT0" (0, 0)
  have hl : LevelParses sysChargeGarbledEnergy "/sys/class/power_supply/BAT0" := by
    intro name hname
    simp [levelFiles, schemeOf, sysChargeGarbledEnergy, File.present] at hname
    rcases hname with rfl | rfl <;> simp [Parses, sysChargeGarbledEnergy, File.getline]
  have h1 : percentBody sysChargeGarbledEnergy "/sys/class/power_supply/BAT0" (0, 0) =
      some (1, 0) := by
    rw [h.2.2.2.1 hl]
    simp [contribution, schemeOf, sysChargeGarbledEnergy, File.present, numberAt, File.getline]
  refine ⟨?_, h1, ?_⟩
  · rw [← h1]
    refine h.2.2.2.2.2.1 sysChargeNoFull ?_
    intro name hname
    simp [levelFiles, schemeOf, sysChargeGarbledEnergy, File.present] at hname
    rcases hname with rfl | rfl <;> simp [sysChargeNoFull, sysChargeGarbledEnergy]
  · simp [Parses, sysChargeGarbledEnergy, File.getline]

/-! ## The registry -/

/-- C14: for a token other than "graphs", `sort_elements` keeps the entries of
the plan and appends exactly one entry, the render action of the token paired
with the parameter, when the token is one of the 25 supported names; when the
token is not supported the object (plan and side table included) is left as it
was. -/
theorem sort_elements_appends_one (tok : String → List String) (h : HudElements)
    (param value : String) (hg : param ≠ "graphs") :
    supported.length = 25 ∧
    (∀ f, actionOf param = some f →
      (sort_elements tok (param, value) h).ordered_functions =
        h.ordered_functions ++ [(f, value)]) ∧
    (actionOf param = none → sort_elements tok (param, value) h = h) := by
  refine ⟨rfl, ?_, ?_⟩
  · intro f hf
    rw [sort_elements_not_graphs tok h param value hg, hf]
    by_cases he : f = Action._exec <;> simp [he, HudElements.push, HudElements.push_exec]
  · intro hn
    rw [sort_elements_not_graphs tok h param value hg, hn]

/-- The token "cpu_stats" appends one entry to the empty plan; "bogus_token"
changes nothing. -/
theorem sort_elements_appends_one_witness :
    (sort_elements str_tokenize ("cpu_stats", "") hud0).ordered_functions =
        [(Action.cpu_stats, "")] ∧
      sort_elements str_tokenize ("bogus_token", "") hud0 = hud0 := by
  obtain ⟨_, h1, h2⟩ := sort_elements_appends_one str_tokenize hud0 "cpu_stats" ""
    (by decide)
  obtain ⟨_, _, h3⟩ := sort_elements_appends_one str_tokenize hud0 "bogus_token" ""
    (by decide)
  exact ⟨h1 Action.cpu_stats (by decide), h3 (by decide)⟩

/-- C15: `sort_elements(("graphs", p))` appends, in the order of the sub-tokens
of `p`, one `(graphs, s)` entry for each sub-token `s` of the permitted set and
nothing for any other sub-token, and leaves the side table alone; feeding
`cpu_stats`, `bogus_token` and `graphs` with "cpu_load,bogus_metric" to the
empty plan yields `[cpu_stats, graphs/cpu_load]`. -/
theorem sort_elements_graphs (tok : String → List String) (h : HudElements) (p : String) :
    (sort_elements tok ("graphs", p) h).ordered_functions =
        h.ordered_functions ++
          (((tok p).filter fun s => s ∈ permitted_params).map fun s => (Action.graphs, s)) ∧
      (sort_elements tok ("graphs", p) h).exec_list = h.exec_list ∧
      (configure str_tokenize
        [("cpu_stats", ""), ("bogus_token", ""), ("graphs", "cpu_load,bogus_metric")]
        hud0).ordered_functions = [(Action.cpu_stats, ""), (Action.graphs, "cpu_load")] := by
  refine ⟨?_, ?_, ?_⟩
  · rw [sort_elements_graphs_eq]
    simp
  · rw [sort_elements_graphs_eq]
  · have h1 : sort_elements str_tokenize ("cpu_stats", "") hud0 = hud0.push .cpu_stats "" := by
      rw [sort_elements_not_graphs _ _ "cpu_stats" _ (by decide)]
      rfl
    have h2 : sort_elements str_tokenize ("bogus_token", "") (hud0.push .cpu_stats "") =
        hud0.push .cpu_stats "" := by
      rw [sort_elements_not_graphs _ _ "bogus_token" _ (by decide)]
      rfl
    have ht : str_tokenize "cpu_load,bogus_metric" = ["cpu_load", "bogus_metric"] := by decide
    simp only [configure, List.foldl_cons, List.foldl_nil, h1, h2, sort_elements_graphs_eq, ht]
    simp [HudElements.push, hud0, permitted_params]

/-- C17: `legacy_elements()` leaves the plan equal to one fixed sequence of 21
entries, each with the parameter "NULL", whatever the plan was before, and
calling it twice gives the same object as calling it once. -/
theorem legacy_elements_plan (h : HudElements) :
    (legacy_elements h).ordered_functions =
        [(.time, "NULL"), (.version, "NULL"), (.gpu_stats, "NULL"), (.cpu_stats, "NULL"),
          (.core_load, "NULL"), (.io_stats, "NULL"), (.vram, "NULL"), (.ram, "NULL"),
          (.battery, "NULL"), (.fps, "NULL"), (.engine_version, "NULL"), (.gpu_name, "NULL"),
          (.vulkan_driver, "NULL"), (.arch, "NULL"), (.wine, "NULL"), (.frame_timing, "NULL"),
          (.gamemode, "NULL"), (.vkbasalt, "NULL"), (.show_fps_limit, "NULL"),
          (.resolution, "NULL"), (.media_player, "NULL")] ∧
      (legacy_elements h).ordered_functions.length = 21 ∧
      (∀ h2 : HudElements,
        (legacy_elements h2).ordered_functions = (legacy_elements h).ordered_functions) ∧
      legacy_elements (legacy_elements h) = legacy_elements h := by
  refine ⟨?_, ?_, ?_, ?_⟩ <;> simp [legacy_elements_eq]

/-- C16: in every state reached from the empty plan and the empty side table
by a sequence of `sort_elements` calls, the plan holding at most 2^31 entries
(the indices an `int` can hold), each row's `pos` is the index of an `_exec`
entry of the plan whose parameter is the row's command, every `_exec` entry
has exactly one row with its index, and `_exec` rendered at place `p` emits
the cached output of exactly the rows with `pos == p`, in table order. -/
theorem exec_table_tracks_plan (tok : String → List String) (h0 : HudElements)
    (options : List (String × String))
    (hp : h0.ordered_functions = []) (he : h0.exec_list = [])
    (hlen : (configure tok options h0).ordered_functions.length ≤ 2147483648) :
    (∀ r ∈ (configure tok options h0).exec_list, ∃ i : Nat, r.pos = i ∧
      (configure tok options h0).ordered_functions[i]? = some (Action._exec, r.value)) ∧
    (∀ (i : Nat) (v : String),
      (configure tok options h0).ordered_functions[i]? = some (Action._exec, v) →
      ∃ r, (configure tok options h0).exec_list.filter (fun r => decide (r.pos = (i : Int))) = [r] ∧
        r.value = v) ∧
    (∀ p : Int, _exec { configure tok options h0 with place := p } =
      [Draw.PushFont, Draw.TableNextColumn] ++
        (((configure tok options h0).exec_list.filter fun r => decide (r.pos = p)).map
          fun r => Draw.Text "%s" (some (.str r.ret))) ++ [Draw.PopFont]) := by
  have ht : Tracks (configure tok options h0) :=
    tracks_configure tok options h0 (by simp [Tracks, hp, he, execEntries])
  obtain ⟨ha, hb⟩ := tracks_rows _ ht hlen
  refine ⟨ha, hb, ?_⟩
  intro p
  simp [_exec, exec_rows_eq]

/-- Two commands, a plain entry and a graph, fed to the empty object. -/
theorem exec_table_tracks_plan_witness :
    (∀ r ∈ (configure str_tokenize optionsDemo hud0).exec_list, ∃ i : Nat, r.pos = i ∧
      (configure str_tokenize optionsDemo hud0).ordered_functions[i]? =
        some (Action._exec, r.value)) ∧
    (∀ (i : Nat) (v : String),
      (configure str_tokenize optionsDemo hud0).ordered_functions[i]? =
        some (Action._exec, v) →
      ∃ r, (configure str_tokenize optionsDemo hud0).exec_list.filter
        (fun r => decide (r.pos = (i : Int))) = [r] ∧ r.value = v) ∧
    (∀ p : Int, _exec { configure str_tokenize optionsDemo hud0 with place := p } =
      [Draw.PushFont, Draw.TableNextColumn] ++
        (((configure str_tokenize optionsDemo hud0).exec_list.filter
          fun r => decide (r.pos = p)).map
          fun r => Draw.Text "%s" (some (.str r.ret))) ++ [Draw.PopFont]) :=
  exec_table_tracks_plan str_tokenize hud0 optionsDemo rfl rfl
    (by rw [configure_demo]; decide)

/-! ## The colour of a load value -/

/-- C18: for breakpoints `lo < hi`, the colour mapper returns the low colour when
`value <= lo`, the high colour when `value >= hi` and the medium colour when
`lo < value < hi`; exactly one of the three cases holds for every value.  The
CPU-load, per-core-load, GPU-load and FPS widgets call it with their own three
colours and two thresholds. -/
theorem change_on_load_temp_buckets (data : LOAD_DATA) (value : Int)
    (h : data.med_load < data.high_load) :
    (value ≤ data.med_load → change_on_load_temp data value = data.color_low) ∧
    (data.high_load ≤ value → change_on_load_temp data value = data.color_high) ∧
    (data.med_load < value → value < data.high_load →
      change_on_load_temp data value = data.color_med) ∧
    (value ≤ data.med_load ∨ data.high_load ≤ value ∨
      (data.med_load < value ∧ value < data.high_load)) ∧
    ¬ (value ≤ data.med_load ∧ data.high_load ≤ value) := by
  unfold change_on_load_temp
  refine ⟨?_, ?_, ?_, ?_, ?_⟩
  · intro h1; rw [if_pos h1]
  · intro h2
    rw [if_neg (by omega), if_pos (by omega)]
  · intro h1 h2
    rw [if_neg (by omega), if_neg (by omega)]
  · omega
  · omega

/-- The CPU-load widget with the thresholds 60 and 90: a load of 30 is drawn in
the low colour, 75 in the medium colour, 95 in the high colour. -/
theorem change_on_load_temp_buckets_witness :
    change_on_load_temp (cpu_data hudTraffic) 30 = green ∧
      change_on_load_temp (cpu_data hudTraffic) 75 = yellow ∧
      change_on_load_temp (cpu_data hudTraffic) 95 = red :=
  ⟨(change_on_load_temp_buckets (cpu_data hudTraffic) 30 (by decide)).1 (by decide),
    (change_on_load_temp_buckets (cpu_data hudTraffic) 75 (by decide)).2.2.1
      (by decide) (by decide),
    (change_on_load_temp_buckets (cpu_data hudTraffic) 95 (by decide)).2.1 (by decide)⟩

/-! ## The graphs -/

/-- C19 as stated fails for the kind "vram" when there is no active GPU: the
block that would copy the samples is skipped and the series handed to the plot
is the 50 zeros, not the last 50 elements of the zeros followed by the
sample 1. -/
theorem graphs_vram_without_gpu :
    (graphs globalsNoGpu hudVram).map (fun r => plotted r.2) = some [arr0] ∧
      lastN 50 (arr0 ++ globalsNoGpu.graph_data.map (sampleOf "vram")) ≠ arr0 := by
  constructor
  · rw [graphs_eq globalsNoGpu hudVram Action.graphs "vram" (by decide) (by decide)]
    simp only [Option.map_some', plotted_append, plotted_tail, blocks_plotted,
      blocks_arr _ _ _ (show "vram" ∈ permitted_params by decide)]
    simp [skipped, globalsNoGpu, graphsInit, plotted]
  · intro h
    have h2 := congrArg (fun l => l.getLast?) h
    simp [lastN, arr0, globalsNoGpu, sampleOf, sampleVram] at h2

/-- C19, amended: for every sample history and every permitted kind, `graphs()`
hands exactly one series of exactly 50 values to the plot; the series is the
last 50 elements of (50 zeros followed by the samples in order), except for
"vram" without an active GPU and for "ram" in a build that is not for Linux,
where it is the 50 zeros. -/
theorem graphs_series (g : Globals) (h : HudElements) (f : Action) (value : String)
    (hp : 0 ≤ h.place) (he : h.ordered_functions[h.place.toNat]? = some (f, value))
    (hv : value ∈ permitted_params) :
    ∃ h1 out series, graphs g h = some (h1, out) ∧ plotted out = [series] ∧
      series.length = 50 ∧
      (¬ skipped g value →
        series = lastN 50 (arr0 ++ g.graph_data.map (sampleOf value))) ∧
      (skipped g value → series = arr0) := by
  refine ⟨_, _, (blocks g value (graphsInit h)).arr, graphs_eq g h f value hp he,
    ?_, ?_, ?_, ?_⟩
  · simp only [plotted_append, plotted_tail, blocks_plotted]
    simp [graphsInit, plotted]
  · rw [blocks_arr g value _ hv]
    by_cases hs : skipped g value
    · simp [hs, graphsInit, arr0_length]
    · simp [hs, graphsInit, slide_arr0, lastN_length]
  · intro hs
    rw [blocks_arr g value _ hv]
    simp [hs, graphsInit, slide_arr0]
  · intro hs
    rw [blocks_arr g value _ hv]
    simp [hs, graphsInit]

/-- A "cpu_temp" graph rendered with a history of sixty samples. -/
theorem graphs_series_witness :
    ∃ h1 out series,
      graphs { globalsNoGpu with graph_data := samples60 } hudTemp = some (h1, out) ∧
      plotted out = [series] ∧ series.length = 50 ∧
      (¬ skipped { globalsNoGpu with graph_data := samples60 } "cpu_temp" →
        series = lastN 50 (arr0 ++ samples60.map (sampleOf "cpu_temp"))) ∧
      (skipped { globalsNoGpu with graph_data := samples60 } "cpu_temp" → series = arr0) :=
  graphs_series { globalsNoGpu with graph_data := samples60 } hudTemp Action.graphs "cpu_temp"
    (by decide) (by decide) (by decide)

/-- C20: let `graphs()` be invoked for an entry of one of the kinds `cpu_temp`,
`gpu_temp`, `gpu_core_clock`, `gpu_mem_clock` once per frame, the newest
sample being the last element of the history of that frame, the running
maximum starting at 0 and the samples being non-negative.  Then every
invocation returns, and after the last one the running maximum is the maximum
of all the samples: it is at least each of them and, when there is a sample,
it is one of them, whatever the histories still hold.  Moreover no invocation
of `graphs()`, for whatever entry, decreases the running maximum. -/
theorem running_maximum (g : Globals) (h : HudElements) (f : Action) (value : String)
    (frames : List (List logData × logData))
    (hv : value ∈ maxKinds) (hp : 0 ≤ h.place)
    (he : h.ordered_functions[h.place.toNat]? = some (f, value))
    (hstart : runningMax value h = 0)
    (hpos : ∀ w ∈ frames, 0 ≤ trackedOf value w.2) :
    (∃ h1, graphsRun g h (frames.map fun w => w.1 ++ [w.2]) = some h1 ∧
      runningMax value h1 = (frames.map fun w => trackedOf value w.2).foldl max 0 ∧
      (∀ w ∈ frames, trackedOf value w.2 ≤ runningMax value h1) ∧
      (frames ≠ [] → ∃ w ∈ frames, trackedOf value w.2 = runningMax value h1)) ∧
    (∀ (g2 : Globals) (h2 h3 : HudElements) (out : List Draw),
      graphs g2 h2 = some (h3, out) → runningMax value h2 ≤ runningMax value h3) := by
  constructor
  · obtain ⟨h1, hrun, hmax⟩ := graphsRun_max g f value hv frames h hp he
    rw [hstart] at hmax
    refine ⟨h1, hrun, hmax, ?_, ?_⟩
    · intro w hw
      rw [hmax]
      exact (foldl_max_le _ 0).2 _ (List.mem_map.mpr ⟨w, hw, rfl⟩)
    · intro hne
      rcases foldl_max_mem (frames.map fun w => trackedOf value w.2) 0 with h0 | hm
      · obtain ⟨w, ws, rfl⟩ := List.exists_cons_of_ne_nil hne
        refine ⟨w, List.mem_cons_self w ws, ?_⟩
        rw [hmax, h0]
        have hle : trackedOf value w.2 ≤ 0 := by
          have := (foldl_max_le ((w :: ws).map fun w => trackedOf value w.2) 0).2
            (trackedOf value w.2) (List.mem_map.mpr ⟨w, List.mem_cons_self w ws, rfl⟩)
          rw [h0] at this
          exact this
        exact le_antisymm hle (hpos w (List.mem_cons_self w ws))
      · obtain ⟨w, hw, hwe⟩ := List.mem_map.mp hm
        exact ⟨w, hw, by rw [hmax]; exact hwe⟩
  · intro g2 h2 h3 out hg
    unfold graphs at hg
    by_cases hneg : h2.place < 0
    · simp [hneg] at hg
    · rw [if_neg hneg] at hg
      cases hent : h2.ordered_functions[h2.place.toNat]? with
      | none => simp [hent] at hg
      | some entry =>
        rw [hent] at hg
        simp only [Option.some.injEq, Prod.mk.injEq] at hg
        rw [← hg.1]
        exact blocks_mono g2 entry.2 value (graphsInit h2)

/-- Sixty samples recorded one after the other, 90 degrees first: the history of
the last frame holds the last 50 samples, all at 40 degrees, and the running
maximum is 90. -/
theorem running_maximum_witness :
    (∃ h1, graphsRun globalsNoGpu hudTemp ((recorded [] samples60).map fun w => w.1 ++ [w.2]) =
        some h1 ∧
      runningMax "cpu_temp" h1 = 90 ∧
      (∀ w ∈ recorded [] samples60, trackedOf "cpu_temp" w.2 ≤ runningMax "cpu_temp" h1)) ∧
    ((recorded [] samples60).getLast?).map (fun w => w.1 ++ [w.2]) =
      some (List.replicate 50 (sampleTemp 40)) := by
  refine ⟨?_, samples60_window⟩
  have hmem : ∀ w ∈ recorded [] samples60,
      trackedOf "cpu_temp" w.2 = 90 ∨ trackedOf "cpu_temp" w.2 = 40 := by
    intro w hw
    have : trackedOf "cpu_temp" w.2 ∈
        (recorded [] samples60).map (fun w => trackedOf "cpu_temp" w.2) :=
      List.mem_map.mpr ⟨w, hw, rfl⟩
    rw [samples60_temps] at this
    simp only [List.mem_cons, List.mem_replicate] at this
    rcases this with h | ⟨_, h⟩
    · exact Or.inl h
    · exact Or.inr h
  obtain ⟨⟨h1, hrun, hmax, hall, _⟩, _⟩ := running_maximum globalsNoGpu hudTemp Action.graphs
    "cpu_temp" (recorded [] samples60) (by decide) (by decide) (by decide) rfl
    (by
      intro w hw
      rcases hmem w hw with h | h <;> rw [h] <;> decide)
  refine ⟨h1, hrun, ?_, hall⟩
  rw [hmax, samples60_temps]
  simp [List.replicate]

/-! ## The side table after `legacy_elements` -/

/-- C21: `legacy_elements` replaces the plan and leaves `exec_list` as it was.
Take any object, call `sort_elements` with the option `("exec", c)`, which puts
an `_exec` entry at the end of the plan and a row with its index `pos` and the
command `c` into the side table, then make any further calls of
`sort_elements`, `legacy_elements` and `update_exec`.  After a call of
`legacy_elements` the side table is the one before the call and holds a row
with `pos` and `c`, `update_exec` stores the output of `c` in a row with `pos`
and `c`, and `pos` is not the index of an `_exec` entry of the plan. -/
theorem legacy_elements_keeps_exec_list (tok : String → List String) (h0 : HudElements)
    (c : String) (calls : List Call) (exec : String → String) :
    (sort_elements tok ("exec", c) h0).ordered_functions[h0.ordered_functions.length]? =
      some (Action._exec, c) ∧
    holdsRow (sort_elements tok ("exec", c) h0) (toInt32 h0.ordered_functions.length) c ∧
    (legacy_elements (runCalls tok calls (sort_elements tok ("exec", c) h0))).exec_list =
      (runCalls tok calls (sort_elements tok ("exec", c) h0)).exec_list ∧
    holdsRow (legacy_elements (runCalls tok calls (sort_elements tok ("exec", c) h0)))
      (toInt32 h0.ordered_functions.length) c ∧
    { pos := toInt32 h0.ordered_functions.length, value := c, ret := exec c } ∈
      (update_exec exec
        (legacy_elements (runCalls tok calls (sort_elements tok ("exec", c) h0)))).exec_list ∧
    ¬ indexesExec (legacy_elements (runCalls tok calls (sort_elements tok ("exec", c) h0)))
      (toInt32 h0.ordered_functions.length) := by
  have h1 : holdsRow (sort_elements tok ("exec", c) h0) (toInt32 h0.ordered_functions.length) c := by
    rw [sort_elements_exec]
    exact ⟨⟨toInt32 h0.ordered_functions.length, c, ""⟩,
      by simp [HudElements.push_exec, HudElements.push], rfl, rfl⟩
  have h3 := holdsRow_run tok .legacy _ _ _ (holdsRow_runCalls tok calls _ _ _ h1)
  refine ⟨?_, h1, ?_, h3, ?_, legacy_elements_no_exec _ _⟩
  · rw [sort_elements_exec]
    simp [HudElements.push_exec, HudElements.push]
  · rw [legacy_elements_eq]
  · obtain ⟨r, hm, hp, hv⟩ := h3
    simp only [Call.run] at hm
    simp only [update_exec, List.mem_map]
    refine ⟨r, hm, ?_⟩
    obtain ⟨p, v, t⟩ := r
    simp only at hp hv
    subst hp hv
    rfl

/-! ## The unit of a byte count -/

/-- C22 as stated fails: the byte count 1072693249 = 1023 * 1024 ^ 2 + 1
exceeds 1023 after two exact divisions by 1024, so the least `u` with
`v / 1024 ^ u ≤ 1023` is 3; `format_units` converts the count to `float`,
which gives 1072693248, divides twice and returns 1023 with the unit "MiB". -/
theorem format_units_float_conversion :
    ¬ ((1072693249 : ℚ) / 1024 ^ 2 ≤ 1023) ∧ (1072693249 : ℚ) / 1024 ^ 3 ≤ 1023 ∧
      f32 ((1072693249 : Nat) : ℚ) = 1072693248 ∧
      format_loop (units.length + 1) (f32 ((1072693249 : Nat) : ℚ)) 0 = some (1023, 2) ∧
      format_units 1072693249 = some (1023, "MiB") ∧
      (1023 : ℚ) ≠ 1072693249 / 1024 ^ 2 ∧ (1023 : ℚ) ≠ 1072693249 / 1024 ^ 3 := by
  refine ⟨by norm_num, by norm_num, by decide!, by decide!, by decide!, by norm_num,
    by norm_num⟩

/-- C22, amended: for every byte count `v` below `2 ^ 64`, `format_units`
converts `v` to the `float` `w = f32 v`, which is `v` itself when
`v < 2 ^ 24` and differs from `v` by at most `v / 2 ^ 24`; it divides by 1024
exactly `u` times, `u` being the least number with `w / 1024 ^ u ≤ 1023`; it
returns `w / 1024 ^ u`, no division being rounded off, and the entry
`units[u]`, and `u ≤ 6`, so the index is within the 8 entries of the table. -/
theorem format_units_in_bounds (v : Nat) (hv : v < 2 ^ 64) :
    (v < 2 ^ 24 → f32 (v : ℚ) = v) ∧ |f32 (v : ℚ) - v| ≤ v / 2 ^ 24 ∧
    ∃ u, u ≤ 6 ∧ u < units.length ∧ f32 (v : ℚ) / 1024 ^ u ≤ 1023 ∧
      (∀ j, f32 (v : ℚ) / 1024 ^ j ≤ 1023 → u ≤ j) ∧
      format_loop (units.length + 1) (f32 (v : ℚ)) 0 = some (f32 (v : ℚ) / 1024 ^ u, u) ∧
      ∃ unit, units[u]? = some unit ∧
        format_units v = some (f32 (v : ℚ) / 1024 ^ u, unit) := by
  refine ⟨f32_natCast v, f32_error (v : ℚ) (by positivity), ?_⟩
  obtain ⟨u, hu6, hle, hmin⟩ := least_unit (f32 (v : ℚ)) (f32_natCast_le v hv)
  have hlen : units.length = 8 := rfl
  have hloop : format_loop (units.length + 1) (f32 (v : ℚ)) 0 =
      some (f32 (v : ℚ) / 1024 ^ u, u) := by
    have := format_loop_eq u (units.length + 1) (f32 (v : ℚ)) 0
      (f32_idem (v : ℚ) (by positivity)) (by omega) (by omega) hle
      (fun i hi hc => by have := hmin i hc; omega)
    simpa using this
  obtain ⟨unit, hunit⟩ : ∃ unit, units[u]? = some unit :=
    ⟨units.get ⟨u, by omega⟩, List.getElem?_eq_getElem _⟩
  refine ⟨u, hu6, by omega, hle, hmin, hloop, unit, hunit, ?_⟩
  simp only [format_units, hloop, hunit]

/-- The byte count 1572864 is shown as 1.5 MiB, and 1023 GiB + 4096 bytes as
1023 GiB. -/
theorem format_units_in_bounds_witness :
    1572864 < 2 ^ 64 ∧ format_units 1572864 = some (3 / 2, "MiB") ∧
    format_units (1023 * 1024 ^ 3 + 4096) = some (1023, "GiB") ∧
    ∃ u, u ≤ 6 ∧ u < units.length ∧ f32 ((1572864 : Nat) : ℚ) / 1024 ^ u ≤ 1023 ∧
      (∀ j, f32 ((1572864 : Nat) : ℚ) / 1024 ^ j ≤ 1023 → u ≤ j) ∧
      format_loop (units.length + 1) (f32 ((1572864 : Nat) : ℚ)) 0 =
        some (f32 ((1572864 : Nat) : ℚ) / 1024 ^ u, u) ∧
      ∃ unit, units[u]? = some unit ∧
        format_units 1572864 = some (f32 ((1572864 : Nat) : ℚ) / 1024 ^ u, unit) :=
  ⟨by norm_num, by decide!, by decide!, (format_units_in_bounds 1572864 (by norm_num)).2.2⟩

/-! ## The vector of battery paths -/

/-- C23: on an unchanged directory every call of `numBattery` returns the
number `n` of entries whose name contains "BAT", and appends their paths to
`battPath` without clearing it.  After `k` calls on an object whose vector was
empty, `battPath` has `k * n` entries, entry `i` is the path of battery
`i mod n` of the directory and equals entry `i mod n`; with one battery, slot 1
holds the same path as slot 0 from the second call on. -/
theorem numBattery_accumulates (sys : Sys) (s : BatteryStats) (k : Nat)
    (hs : s.battPath = []) :
    (numBattery sys (numBatteryCalls sys k s)).1 = batEntries sys ∧
    (numBattery sys (numBatteryCalls sys k s)).2.battPath =
      (numBatteryCalls sys k s).battPath ++ batteries sys ∧
    (numBatteryCalls sys k s).battPath.length = k * batEntries sys ∧
    (∀ i, i < k * batEntries sys → ∃ p,
      (batteries sys)[i % batEntries sys]? = some p ∧
      (numBatteryCalls sys k s).battPath[i]? = some p ∧
      (numBatteryCalls sys k s).battPath[i % batEntries sys]? = some p) ∧
    (batEntries sys = 1 → 2 ≤ k → ∃ p,
      (numBatteryCalls sys k s).battPath[0]? = some p ∧
      (numBatteryCalls sys k s).battPath[1]? = some p) := by
  have hbp : (numBatteryCalls sys k s).battPath = copies (batteries sys) k := by
    rw [numBatteryCalls_battPath, hs, List.nil_append]
  have hlen := batteries_length sys
  have key : ∀ i, i < k * batEntries sys → ∃ p,
      (batteries sys)[i % batEntries sys]? = some p ∧
      (numBatteryCalls sys k s).battPath[i]? = some p ∧
      (numBatteryCalls sys k s).battPath[i % batEntries sys]? = some p := by
    intro i hi
    have hn : 0 < batEntries sys := by
      rcases Nat.eq_zero_or_pos (batEntries sys) with h | h
      · rw [h] at hi; simp at hi
      · exact h
    have hk : 0 < k := by
      rcases Nat.eq_zero_or_pos k with h | h
      · rw [h] at hi; simp at hi
      · exact h
    have hm : i % batEntries sys < batEntries sys := Nat.mod_lt _ hn
    have hm2 : i % batEntries sys < k * batEntries sys :=
      lt_of_lt_of_le hm (Nat.le_mul_of_pos_left _ hk)
    obtain ⟨p, hget⟩ : ∃ p, (batteries sys)[i % batEntries sys]? = some p :=
      ⟨(batteries sys).get ⟨i % batEntries sys, by rw [hlen]; exact hm⟩,
        List.getElem?_eq_getElem _⟩
    have e1 := copies_getElem? (batteries sys) k i (by rw [hlen]; exact hi)
    have e2 := copies_getElem? (batteries sys) k (i % batEntries sys) (by rw [hlen]; exact hm2)
    rw [hlen] at e1 e2
    rw [Nat.mod_mod] at e2
    exact ⟨p, hget, by rw [hbp, e1, hget], by rw [hbp, e2, hget]⟩
  refine ⟨?_, ?_, ?_, key, ?_⟩
  · rw [numBattery_eq, hlen]
  · rw [numBattery_eq]
  · rw [hbp, copies_length, hlen]
  · intro h1 h2
    obtain ⟨p, -, hp, hq⟩ := key 0 (by rw [h1]; omega)
    obtain ⟨q, -, hp1, hq1⟩ := key 1 (by rw [h1]; omega)
    rw [h1] at hq hq1
    simp only [Nat.mod_one] at hq hq1
    rw [hq] at hq1
    cases hq1
    exact ⟨p, hp, hp1⟩

/-- The directory with the single battery BAT0: after two calls the vector
holds the path of BAT0 twice, so slots 0 and 1 name the same device. -/
theorem numBattery_accumulates_witness :
    fresh.battPath = [] ∧ batEntries sysOneFull = 1 ∧
    (numBattery sysOneFull (numBatteryCalls sysOneFull 2 fresh)).1 = 1 ∧
    (numBatteryCalls sysOneFull 2 fresh).battPath =
      ["/sys/class/power_supply/BAT0", "/sys/class/power_supply/BAT0"] ∧
    ∃ p, (numBatteryCalls sysOneFull 2 fresh).battPath[0]? = some p ∧
      (numBatteryCalls sysOneFull 2 fresh).battPath[1]? = some p :=
  ⟨rfl, by decide, by decide, by decide,
    (numBattery_accumulates sysOneFull fresh 2 rfl).2.2.2.2 (by decide) (by decide)⟩

end MangoHud
